import Mathlib

/-!
# Typed result layer of `GRAPH.QUERY` (`graph.go`)

A shallow embedding of `graph.go`: the result-set data model (`GraphData`,
`GraphNode`, `GraphEdge`, `graphRow`, `GraphResult`), the dynamic accessors
(`Row`, `Rows`), the struct-spec construction (`newStructSpec`,
`graphStructCache`) and the scanning engine (`graphStruct`,
`graphStructSlice`, `scanStruct`, `scanStructSlice`, `RowScan`, `RowsScan`).

Conventions of the embedding.

* The platform is 64-bit: Go `int` has `intSize = 64` bits, and the
  conversion `int(x)` is the explicit wrap `toInt`.  Stores into narrower
  integer fields wrap explicitly (`wrapSigned`, `wrapUnsigned`).
* Go maps are association lists read with `GoMap.get`; an assignment
  `m[k] = v` puts the pair in front, so that the latest assignment is the one
  that is read.
* A Go panic (nil dereference, index out of range, write to a field that is
  not settable) is the outcome `Outcome.goPanic`, resp. `none`.
* Floating-point values are kept symbolic (`GoFloat`).
* `reflect.New` takes the next unused address from a counter that is threaded
  through the scanning functions; the counter is meant to stand above every
  address the destination holds.
* A pointer field holds `ptrTo addr v`: the address of the cell it points to
  and what that cell holds.  A write through a pointer changes the cell, so
  every field that holds the same address sees the new value
  (`Value.storeAt`, `storeField`).  A pointer to a field of the record itself
  is not represented.
-/

namespace Graph

/-! ## Go maps keyed by strings -/

/-- Go `map[string]α`, as an association list whose first binding of a key is
the current one. -/
abbrev GoMap (α : Type) := List (String × α)

/-- Map read `v, ok := m[k]`. -/
def GoMap.get {α : Type} (m : GoMap α) (k : String) : Option α :=
  List.lookup k m

/-- Map write `m[k] = v`. -/
def GoMap.set {α : Type} (m : GoMap α) (k : String) (v : α) : GoMap α :=
  (k, v) :: m

/-! ## Data model (graph.go, lines 26-49 and 143-234) -/

abbrev graphDataType := Nat
abbrev graphRowType := Nat

/-- Data tag `graphInteger = iota + 1`. -/
def graphInteger : graphDataType := 1
/-- Data tag `graphNil`. -/
def graphNil : graphDataType := 2
/-- Data tag `graphString`. -/
def graphString : graphDataType := 3

/-- Cell tag `graphResultBasic = iota + 1`. -/
def graphResultBasic : graphRowType := 1
/-- Cell tag `graphResultNode`. -/
def graphResultNode : graphRowType := 2
/-- Cell tag `graphResultEdge`. -/
def graphResultEdge : graphRowType := 3

/-- Symbolic float64 values: the ones the accessors can produce. -/
inductive GoFloat where
  /-- Conversion `float64(v)` of an `int64`; `ofInt64 0` is the constant `0`. -/
  | ofInt64 (v : Int)
  /-- First result of `strconv.ParseFloat(s, 64)`. -/
  | parseFloat (s : String)
  /-- Conversion `float32(f)` done by `SetFloat` on a `float32` field. -/
  | narrow32 (f : GoFloat)
  /-- The infinities `+Inf` and `-Inf`. -/
  | inf (negative : Bool)
deriving DecidableEq

/-- Scalar value `GraphData`. The zero value has `typ = 0`, none of the tags. -/
structure GraphData where
  typ : graphDataType
  integerVal : Int
  stringVal : String
deriving DecidableEq

/-- Node value `GraphNode`. -/
structure GraphNode where
  ID : Int
  Labels : List String
  Properties : GoMap GraphData
deriving DecidableEq

/-- Edge value `GraphEdge`. -/
structure GraphEdge where
  ID : Int
  Typ : String
  SrcNode : Int
  DstNode : Int
  Properties : GoMap GraphData
deriving DecidableEq

/-- One cell `graphRow`: a tag and three pointers, `none` being `nil`. -/
structure graphRow where
  typ : graphRowType
  basic : Option GraphData
  node : Option GraphNode
  edge : Option GraphEdge
deriving DecidableEq

/-- Result set `GraphResult`; `err` holds the message of the recorded error. -/
structure GraphResult where
  noResult : Bool
  text : List String
  field : List String
  rows : List (List graphRow)
  err : Option String
deriving DecidableEq

/-! ## Scalar accessors (lines 156-202) -/

/-- Decimal text `strconv.FormatInt(v, 10)`. -/
def formatInt (v : Int) : String :=
  match v with
  | Int.ofNat n => Nat.repr n
  | Int.negSucc n => "-" ++ Nat.repr (n + 1)

/-- Accessor `IsNil`. -/
def GraphData.IsNil (d : GraphData) : Bool :=
  d.typ == graphNil

/-- Accessor `String`. -/
def GraphData.String (d : GraphData) : String :=
  if d.typ = graphInteger then formatInt d.integerVal
  else if d.typ = graphNil then ""
  else if d.typ = graphString then d.stringVal
  else ""

/-- Width in bits of Go `int` on the platform of the embedding (`strconv.IntSize`). -/
def intSize : Nat := 64

/-- Conversion `int(v)` of an `int64`: the two's-complement value of `v` in
`intSize` bits. -/
def toInt (v : Int) : Int :=
  (v + 2 ^ (intSize - 1)) % 2 ^ intSize - 2 ^ (intSize - 1)

/-- Accessor `Int`. -/
def GraphData.Int (d : GraphData) : Int :=
  if d.typ = graphInteger then toInt d.integerVal else 0

/-- Accessor `Bool`. -/
def GraphData.Bool (d : GraphData) : Bool :=
  if d.typ = graphInteger then d.integerVal != 0
  else if d.typ = graphNil then false
  else if d.typ = graphString then d.stringVal == "true"
  else false

/-- Accessor `Float64`; the error of `ParseFloat` is dropped as in the source. -/
def GraphData.Float64 (d : GraphData) : GoFloat :=
  if d.typ = graphInteger then GoFloat.ofInt64 d.integerVal
  else if d.typ = graphString then GoFloat.parseFloat d.stringVal
  else GoFloat.ofInt64 0

/-! ## Dynamic mappings (lines 75-128 and 204-234) -/

/-- Values stored under the keys of a node or edge mapping. -/
inductive MapVal where
  | int64 (v : Int)
  | str (s : String)
  | strs (l : List String)
  | props (p : GoMap GraphData)
deriving DecidableEq

/-- Values (`any`) stored under a column name by `Row` and `Rows`. -/
inductive RowVal where
  | text (s : String)
  | mapping (m : GoMap MapVal)
deriving DecidableEq

/-- Method `(*GraphNode).Map`. -/
def GraphNode.Map (n : GraphNode) : GoMap MapVal :=
  [("id", MapVal.int64 n.ID), ("labels", MapVal.strs n.Labels),
   ("properties", MapVal.props n.Properties)]

/-- Method `(*GraphEdge).Map`. -/
def GraphEdge.Map (e : GraphEdge) : GoMap MapVal :=
  [("id", MapVal.int64 e.ID), ("type", MapVal.str e.Typ),
   ("srcNode", MapVal.int64 e.SrcNode), ("dstNode", MapVal.int64 e.DstNode),
   ("properties", MapVal.props e.Properties)]

/-- Guard shared by `Row`, `Rows`, `RowScan` and `RowsScan` (lines 77, 97, 109, 133):
`g.noResult || len(g.field) == 0 || len(g.rows) == 0 || len(g.rows[0]) == 0`. -/
def GraphResult.noData (g : GraphResult) : Bool :=
  g.noResult || g.field.length == 0 || g.rows.length == 0 ||
    (match g.rows with
     | [] => true
     | r :: _ => r.length == 0)

/-- Body of the column loop of `Row` and `Rows` (lines 81-90 and 115-124):
`none` is a panic (row shorter than the columns, or a nil payload). -/
def rowToMap (row : List graphRow) : List String → Nat → GoMap RowVal → Option (GoMap RowVal)
  | [], _, m => some m
  | key :: rest, i, m =>
    match row.get? i with
    | none => none
    | some cell =>
      if cell.typ = graphResultBasic then
        match cell.basic with
        | none => none
        | some d => rowToMap row rest (i + 1) (m.set key (RowVal.text d.String))
      else if cell.typ = graphResultNode then
        match cell.node with
        | none => none
        | some n => rowToMap row rest (i + 1) (m.set key (RowVal.mapping n.Map))
      else if cell.typ = graphResultEdge then
        match cell.edge with
        | none => none
        | some e => rowToMap row rest (i + 1) (m.set key (RowVal.mapping e.Map))
      else rowToMap row rest (i + 1) m

/-- Row loop of `Rows` (lines 113-126). -/
def rowsToMaps (cols : List String) : List (List graphRow) → Option (List (GoMap RowVal))
  | [] => some []
  | r :: rs =>
    match rowToMap r cols 0 [] with
    | none => none
    | some m =>
      match rowsToMaps cols rs with
      | none => none
      | some ms => some (m :: ms)

/-- Method `Row`: outer `none` is a panic, inner `none` is the `nil` map. -/
def GraphResult.Row (g : GraphResult) : Option (Option (GoMap RowVal)) :=
  if g.noData then some none
  else
    match g.rows with
    | [] => some none
    | r :: _ => (rowToMap r g.field 0 []).map some

/-- Method `Rows`: outer `none` is a panic, inner `none` is the `nil` slice. -/
def GraphResult.Rows (g : GraphResult) : Option (Option (List (GoMap RowVal))) :=
  if g.noData then some none
  else (rowsToMaps g.field g.rows).map some

/-- Method `IsResult`. -/
def GraphResult.IsResult (g : GraphResult) : Bool :=
  !g.noResult

/-- Method `Len`. -/
def GraphResult.Len (g : GraphResult) : Nat :=
  g.rows.length

/-! ## Reflection model: types, struct fields, values -/

/-- The `reflect.Kind`s that `scanStruct` tells apart. -/
inductive Kind where
  | Bool | Int | Uint | Float | String | Struct | Ptr | Other
deriving DecidableEq

/-- Static types of struct fields.  `int bits` stands for `int8` .. `int64` and
`int` (64 bits), `uint bits` for `uint8` .. `uint64` and `uint`, `float bits`
for `float32` and `float64`; `other` is every remaining kind (complex, array,
slice, chan, func, interface, map, uintptr, unsafe pointer). -/
inductive GoType where
  | bool
  | int (bits : Nat)
  | uint (bits : Nat)
  | float (bits : Nat)
  | string
  | graphNode
  | graphEdge
  | otherStruct (name : String)
  | ptr (elem : GoType)
  | other (name : String)
deriving DecidableEq

/-- Method `Type.Kind`. -/
def GoType.Kind : GoType → Kind
  | .bool => .Bool
  | .int _ => .Int
  | .uint _ => .Uint
  | .float _ => .Float
  | .string => .String
  | .graphNode => .Struct
  | .graphEdge => .Struct
  | .otherStruct _ => .Struct
  | .ptr _ => .Ptr
  | .other _ => .Other

/-- Method `Type.Elem`, used on pointer types only. -/
def GoType.Elem : GoType → GoType
  | .ptr e => e
  | t => t

/-- Type of what `scanStruct` writes for a field of type `ty`: the pointee for
a pointer field (lines 292-294), the field itself otherwise. -/
def GoType.target (ty : GoType) : GoType :=
  if ty.Kind == Kind.Ptr then ty.Elem else ty

/-- Bit width of a numeric type. -/
def GoType.bits : GoType → Nat
  | .int w => w
  | .uint w => w
  | .float w => w
  | _ => 0

/-- The type `graphNodeType = reflect.TypeOf(GraphNode{})`. -/
def graphNodeType : GoType := GoType.graphNode
/-- The type `graphEdgeType = reflect.TypeOf(GraphEdge{})`. -/
def graphEdgeType : GoType := GoType.graphEdge

/-- One `reflect.StructField`: `Tag` is the parsed struct tag (key to value),
`exported` is `IsExported()`. -/
structure StructField where
  Name : String
  exported : Bool
  Anonymous : Bool
  Tag : GoMap String
  Typ : GoType
deriving DecidableEq

/-- Method `StructTag.Get`: the value under `key`, or the empty string. -/
def StructField.TagGet (f : StructField) (key : String) : String :=
  (GoMap.get f.Tag key).getD ""

/-- A struct type (a `reflect.Type` of kind `Struct`). -/
structure StructType where
  Name : String
  fields : List StructField
deriving DecidableEq

/-- Kind of a struct type. -/
def StructType.Kind (_ : StructType) : Kind := Kind.Struct

/-- Method `NumField`. -/
def StructType.NumField (t : StructType) : Nat := t.fields.length

/-- Values held by struct fields.  A pointer is `nilPtr` or `ptrTo addr v`:
`addr` is the address of the cell it points to and `v` what the cell holds, so
that two fields with the same address point to the same cell; `blob` is a
value of a kind the scanner never writes. -/
inductive Value where
  | bool (b : Bool)
  | int (v : Int)
  | uint (v : Nat)
  | float (f : GoFloat)
  | str (s : String)
  | node (n : GraphNode)
  | edge (e : GraphEdge)
  | blob
  | nilPtr
  | ptrTo (addr : Nat) (v : Value)
deriving DecidableEq

/-- Zero value of a type. -/
def zeroValue : GoType → Value
  | .bool => .bool false
  | .int _ => .int 0
  | .uint _ => .uint 0
  | .float _ => .float (GoFloat.ofInt64 0)
  | .string => .str ""
  | .graphNode => .node ⟨0, [], []⟩
  | .graphEdge => .edge ⟨0, "", 0, 0, []⟩
  | .otherStruct _ => .blob
  | .ptr _ => .nilPtr
  | .other _ => .blob

/-- Zero value of a struct type, field by field. -/
def zeroRecord (t : StructType) : List Value :=
  t.fields.map (fun f => zeroValue f.Typ)

/-- Method `Value.IsNil` of a pointer-typed field. -/
def Value.IsNil : Value → Bool
  | .ptrTo _ _ => false
  | _ => true

/-- What a field holds after following its pointer, if it is one. -/
def Value.deref : Value → Value
  | .ptrTo _ v => v
  | v => v

/-- Two's-complement value of `v` in a signed field of `w` bits. -/
def wrapSigned (w : Nat) (v : Int) : Int :=
  (v + 2 ^ (w - 1)) % 2 ^ w - 2 ^ (w - 1)

/-- Value of `v` in an unsigned field of `w` bits. -/
def wrapUnsigned (w : Nat) (v : Int) : Nat :=
  (v % 2 ^ w).toNat

/-! ## Struct spec and its cache (lines 352-366 and 411-450) -/

/-- The struct spec `graphStructSpec`. -/
structure graphStructSpec where
  m : GoMap Nat
deriving DecidableEq

/-- Expression `strings.Split(tag, ",")[0]`: the text before the first comma. -/
def splitFirst (tag : String) : String :=
  String.mk (tag.data.takeWhile (fun c => c != ','))

/-- Loop of `newStructSpec` (lines 417-447) from field `i` on. -/
def newStructSpecLoop (t : StructType) (fieldTag : String) :
    List StructField → Nat → GoMap Nat → GoMap Nat
  | [], _, m => m
  | f :: fs, i, m =>
    if (if f.Anonymous then (!f.exported && t.Kind != Kind.Struct) else !f.exported) then
      newStructSpecLoop t fieldTag fs (i + 1) m
    else
      let tag := f.TagGet fieldTag
      if tag == "" || tag == "-" then
        newStructSpecLoop t fieldTag fs (i + 1) m
      else
        let tag := splitFirst tag
        if tag == "" then
          newStructSpecLoop t fieldTag fs (i + 1) m
        else
          newStructSpecLoop t fieldTag fs (i + 1) (m.set tag i)

/-- Function `newStructSpec`. -/
def newStructSpec (t : StructType) (fieldTag : String) : graphStructSpec :=
  ⟨newStructSpecLoop t fieldTag t.fields 0 []⟩

/-- The process-wide `graphStructMap`, as an explicit state. -/
abbrev Cache := List (StructType × graphStructSpec)

/-- Function `graphStructCache`: the spec and the cache afterwards. -/
def graphStructCache (cache : Cache) (t : StructType) : graphStructSpec × Cache :=
  match List.lookup t cache with
  | some v => (v, cache)
  | none =>
    let spec := newStructSpec t "redis"
    (spec, (t, spec) :: cache)

/-! ## Errors and outcomes -/

/-- The error values of graph.go, one per place that builds one (the formatted
arguments of the messages are left out). -/
inductive GraphError where
  /-- The value `redis.Nil` (lines 98 and 134). -/
  | Nil
  /-- Message `redis.graph.Scan(non-ptr1 %T)` (line 371). -/
  | nonPtr1
  /-- Message `redis.graph.Scan(non-slice %T)` (lines 247 and 375). -/
  | nonSlice
  /-- Message `redis.graph.Scan(slice elem non-struct %T)` (line 382). -/
  | sliceElemNonStruct
  /-- Message `redis.graph.Scan(non-pointer %T)` (line 397). -/
  | nonPointer
  /-- Message `redis.graph.Scan(non-struct %T)` (line 402). -/
  | nonStruct
  /-- Message `cannot scan redis.graph.result %v into struct field ...` (line 298). -/
  | cannotScanInto
  /-- Message `... result not graph.node type` (line 317). -/
  | notNodeType
  /-- Message `... result not graph.edge type` (line 325). -/
  | notEdgeType
  /-- Message `redis.graph.scan unsupported %s, not node,edge type` (line 335). -/
  | unsupportedStruct
  /-- Message `redis.Scan(unsupported %s)` (line 340). -/
  | unsupportedKind
deriving DecidableEq

/-- The fault classes of the specification's taxonomy. -/
inductive FaultClass where
  | Empty | BindingShape | TypeMismatch | UnsupportedField
deriving DecidableEq

/-- Class of each error value: `redis.Nil` is Empty, the errors of `graphStruct`
and `graphStructSlice` are shape faults, the errors raised on a cell whose
kind the field cannot take are type mismatches, and the two `unsupported`
errors are unsupported-field faults. -/
def GraphError.faultClass : GraphError → FaultClass
  | .Nil => .Empty
  | .nonPtr1 => .BindingShape
  | .nonSlice => .BindingShape
  | .sliceElemNonStruct => .BindingShape
  | .nonPointer => .BindingShape
  | .nonStruct => .BindingShape
  | .cannotScanInto => .TypeMismatch
  | .notNodeType => .TypeMismatch
  | .notEdgeType => .TypeMismatch
  | .unsupportedStruct => .UnsupportedField
  | .unsupportedKind => .UnsupportedField

/-- How a call ends: `ok` is a `nil` error, `fault e` a returned error. -/
inductive Outcome where
  | ok
  | fault (e : GraphError)
  | goPanic
deriving DecidableEq

/-! ## Scanning one row (lines 275-344) -/

/-- Result of the `switch` of `scanStruct` for one cell. -/
inductive Assign where
  | value (v : Value)
  | fault (e : GraphError)
  | goPanic
deriving DecidableEq

/-- Conversion of a basic cell by `conv`; a nil `data.basic` panics. -/
def fromBasic (data : graphRow) (conv : GraphData → Value) : Assign :=
  match data.basic with
  | none => .goPanic
  | some d => .value (conv d)

/-- The `switch field.Type().Kind()` of lines 302-341, for a field (after
following its pointer) of type `ty`: the value to store, or the error. -/
def scanValue (ty : GoType) (data : graphRow) : Assign :=
  match ty.Kind with
  | .Bool => fromBasic data (fun d => .bool d.Bool)
  | .Int => fromBasic data (fun d => .int (wrapSigned ty.bits d.Int))
  | .Uint => fromBasic data (fun d => .uint (wrapUnsigned ty.bits (wrapUnsigned 64 d.Int)))
  | .Float => fromBasic data (fun d =>
      .float (if ty.bits = 32 then GoFloat.narrow32 d.Float64 else d.Float64))
  | .String => fromBasic data (fun d => .str d.String)
  | .Struct =>
    if ty = graphNodeType then
      if data.typ != graphResultNode then .fault .notNodeType
      else
        match data.node with
        | none => .goPanic
        | some n => .value (.node ⟨n.ID, n.Labels, n.Properties⟩)
    else if ty = graphEdgeType then
      if data.typ != graphResultEdge then .fault .notEdgeType
      else
        match data.edge with
        | none => .goPanic
        | some e => .value (.edge ⟨e.ID, e.Typ, e.SrcNode, e.DstNode, e.Properties⟩)
    else .fault .unsupportedStruct
  | _ => .fault .unsupportedKind

/-- State of a scan: the outcome so far (`none` while the loop runs), the
field values of the record, and the next unused address. -/
structure ScanState where
  outcome : Option Outcome
  fields : List Value
  alloc : Nat
deriving DecidableEq

/-- Lines 285-287: a nil pointer field is set to a new zero pointee, taken at
the address `alloc`.  The field afterwards and the next unused address. -/
def allocIfNil (f : StructField) (fv : Value) (alloc : Nat) : Value × Nat :=
  if f.Typ.Kind == Kind.Ptr && fv.IsNil then (Value.ptrTo alloc (zeroValue f.Typ.Elem), alloc + 1)
  else (fv, alloc)

/-- The write of `v` to the cell at address `a`, as one field sees it: a field
that points to that cell has the pointee `v` afterwards, any other field is
as it was. -/
def Value.storeAt (a : Nat) (v : Value) : Value → Value
  | .ptrTo b w => if b = a then .ptrTo b v else .ptrTo b w
  | x => x

/-- The record after `v` is written to what `field` stands for once lines
288-294 have run (the `Set...` calls of lines 302-333), `fv` being what field
`idx` holds.  For a pointer field the write goes to the cell the field points
to (line 293), which every field holding the same address shares; the
pointers themselves stay.  For any other field it goes to the field itself. -/
def storeField (f : StructField) (idx : Nat) (fv : Value) (v : Value)
    (fields : List Value) : List Value :=
  if f.Typ.Kind == Kind.Ptr then
    match fv with
    | .ptrTo a _ => fields.map (Value.storeAt a v)
    | _ => fields.set idx v
  else fields.set idx v

/-- One iteration of the loop of `scanStruct` (lines 277-341) for column `i`
named `key`.  An outcome `none` lets the loop continue.  A nil pointer field
is first set to a new zero pointee (lines 285-287, a panic when the field is
not settable); `ty` is the type of what is written, the pointee for a pointer
field.  Lines 288-291 take the address of a non-pointer field and line 293
follows it again, which leaves the field as it is.  The write itself is
`storeField`.  Every write panics on a field that is not exported. -/
def scanColumn (spec : graphStructSpec) (t : StructType) (row : List graphRow)
    (key : String) (i : Nat) (fields : List Value) (alloc : Nat) : ScanState :=
  match spec.m.get key with
  | none => ⟨some .ok, fields, alloc⟩
  | some idx =>
    match t.fields.get? idx, fields.get? idx with
    | some f, some fv =>
      if f.Typ.Kind == Kind.Ptr && fv.IsNil && !f.exported then ⟨some .goPanic, fields, alloc⟩
      else
        let fv1 := (allocIfNil f fv alloc).1
        let alloc1 := (allocIfNil f fv alloc).2
        let fields1 := fields.set idx fv1
        let ty := f.Typ.target
        match row.get? i with
        | none => ⟨some .goPanic, fields1, alloc1⟩
        | some data =>
          if ty.Kind != Kind.Struct && data.typ != graphResultBasic then
            ⟨some (.fault .cannotScanInto), fields1, alloc1⟩
          else
            match scanValue ty data with
            | .fault e => ⟨some (.fault e), fields1, alloc1⟩
            | .goPanic => ⟨some .goPanic, fields1, alloc1⟩
            | .value v =>
              if !f.exported then ⟨some .goPanic, fields1, alloc1⟩
              else ⟨none, storeField f idx fv1 v fields1, alloc1⟩
    | _, _ => ⟨some .goPanic, fields, alloc⟩

/-- The loop of `scanStruct` over the columns from index `i` on. -/
def scanStructLoop (spec : graphStructSpec) (t : StructType) (row : List graphRow) :
    List String → Nat → List Value → Nat → Outcome × List Value × Nat
  | [], _, fields, alloc => (.ok, fields, alloc)
  | key :: rest, i, fields, alloc =>
    match scanColumn spec t row key i fields alloc with
    | ⟨some o, fields1, alloc1⟩ => (o, fields1, alloc1)
    | ⟨none, fields1, alloc1⟩ => scanStructLoop spec t row rest (i + 1) fields1 alloc1

/-- Method `scanStruct`, for `v.spec = spec` and `v.value` the struct value of
type `t` with field values `fields`: the outcome, the field values
afterwards and the next unused address. -/
def scanStruct (g : GraphResult) (spec : graphStructSpec) (t : StructType)
    (fields : List Value) (alloc : Nat) (row : List graphRow) : Outcome × List Value × Nat :=
  scanStructLoop spec t row g.field 0 fields alloc

/-! ## Destinations (lines 346-409) -/

/-- Element type of a destination slice: a struct, a pointer to a struct, or
something else (directly or behind one pointer). -/
inductive ElemType where
  | struct (t : StructType)
  | ptrStruct (t : StructType)
  | nonStruct
  | ptrNonStruct
deriving DecidableEq

/-- Test `elem.Kind() == reflect.Ptr` on the element type of a slice. -/
def ElemType.isPtr : ElemType → Bool
  | .ptrStruct _ => true
  | .ptrNonStruct => true
  | _ => false

/-- The element type after following its pointer, when that is a struct
(lines 377-383). -/
def ElemType.structOf : ElemType → Option StructType
  | .struct t => some t
  | .ptrStruct t => some t
  | _ => none

/-- Elements of a destination slice: a struct value, or a (possibly nil)
pointer to one. -/
inductive Item where
  | val (fields : List Value)
  | nilPtr
  | ptrTo (addr : Nat) (fields : List Value)
deriving DecidableEq

/-- What a `reflect.Value` refers to: a struct, a slice, or anything else. -/
inductive RValue where
  | struct (t : StructType) (fields : List Value)
  | slice (elem : ElemType) (items : List Item)
  | other
deriving DecidableEq

/-- The argument `dest any`: not a pointer at all, a nil pointer, or a pointer
to a value. -/
inductive Dest where
  | nonPtr
  | nilPtr
  | ptr (target : RValue)
deriving DecidableEq

/-- The struct `graphStructValue`. -/
structure graphStructValue where
  spec : graphStructSpec
  value : RValue
  isSlice : Bool
deriving DecidableEq

/-- Function `graphStructSlice`, with the cache afterwards. -/
def graphStructSlice (cache : Cache) (dest : Dest) : Except GraphError graphStructValue × Cache :=
  match dest with
  | .nonPtr => (.error .nonPtr1, cache)
  | .nilPtr => (.error .nonSlice, cache)
  | .ptr (.slice elem items) =>
    match elem.structOf with
    | some t =>
      let r := graphStructCache cache t
      (.ok ⟨r.1, .slice elem items, true⟩, r.2)
    | none => (.error .sliceElemNonStruct, cache)
  | .ptr _ => (.error .nonSlice, cache)

/-- Function `graphStruct`, with the cache afterwards. -/
def graphStruct (cache : Cache) (dest : Dest) : Except GraphError graphStructValue × Cache :=
  match dest with
  | .nonPtr => (.error .nonPointer, cache)
  | .nilPtr => (.error .nonPointer, cache)
  | .ptr (.struct t fields) =>
    let r := graphStructCache cache t
    (.ok ⟨r.1, .struct t fields, false⟩, r.2)
  | .ptr _ => (.error .nonStruct, cache)

/-! ## Scanning all rows (lines 245-273) and the public scans -/

/-- The element appended for one row (lines 266-270): the pointer `item` made
by `reflect.New` at address `addr`, or the struct it points to. -/
def newItem (elemIsPtr : Bool) (addr : Nat) (fields : List Value) : Item :=
  if elemIsPtr then Item.ptrTo addr fields else Item.val fields

/-- The row loop of `scanStructSlice` (lines 254-271): each row is scanned
into a new zero struct, which is appended when the scan returns `nil`. -/
def scanStructSliceLoop (g : GraphResult) (spec : graphStructSpec) (t : StructType)
    (elemIsPtr : Bool) : List (List graphRow) → List Item → Nat → Outcome × List Item × Nat
  | [], items, alloc => (.ok, items, alloc)
  | row :: rest, items, alloc =>
    match scanStruct g spec t (zeroRecord t) (alloc + 1) row with
    | (.ok, fields1, alloc1) =>
      scanStructSliceLoop g spec t elemIsPtr rest (items ++ [newItem elemIsPtr alloc fields1]) alloc1
    | (o, _, alloc1) => (o, items, alloc1)

/-- Method `scanStructSlice`: the outcome, the destination value afterwards
and the next unused address. -/
def scanStructSlice (g : GraphResult) (v : graphStructValue) (alloc : Nat) :
    Outcome × RValue × Nat :=
  if !v.isSlice then (.fault .nonSlice, v.value, alloc)
  else
    match v.value with
    | .slice elem items =>
      match elem.structOf with
      | some t =>
        let r := scanStructSliceLoop g v.spec t elem.isPtr g.rows items alloc
        (r.1, .slice elem r.2.1, r.2.2)
      | none => (.goPanic, v.value, alloc)
    | rv => (.goPanic, rv, alloc)

/-- Everything a public scan leaves behind: the returned error, the
destination, the spec cache and the next unused address. -/
structure ScanResult where
  outcome : Outcome
  dest : Dest
  cache : Cache
  alloc : Nat
deriving DecidableEq

/-- Method `RowScan`. -/
def GraphResult.RowScan (g : GraphResult) (cache : Cache) (alloc : Nat) (dest : Dest) :
    ScanResult :=
  if g.noData then ⟨.fault .Nil, dest, cache, alloc⟩
  else
    match graphStruct cache dest with
    | (.error e, cache1) => ⟨.fault e, dest, cache1, alloc⟩
    | (.ok v, cache1) =>
      match v.value, g.rows with
      | .struct t fields, row :: _ =>
        let r := scanStruct g v.spec t fields alloc row
        ⟨r.1, .ptr (.struct t r.2.1), cache1, r.2.2⟩
      | _, _ => ⟨.goPanic, dest, cache1, alloc⟩

/-- Method `RowsScan`. -/
def GraphResult.RowsScan (g : GraphResult) (cache : Cache) (alloc : Nat) (dest : Dest) :
    ScanResult :=
  if g.noData then ⟨.fault .Nil, dest, cache, alloc⟩
  else
    match graphStructSlice cache dest with
    | (.error e, cache1) => ⟨.fault e, dest, cache1, alloc⟩
    | (.ok v, cache1) =>
      let r := scanStructSlice g v alloc
      ⟨r.1, .ptr r.2.1, cache1, r.2.2⟩

/-! ## Predicates used to state the properties -/

/-- The three tests a field passes in `newStructSpec` before line 446 stores
its position: it is not skipped by the visibility test (lines 419-429), its
tag is neither empty nor `-` (line 432), and the text before the first comma
is not empty (line 437). -/
def participates (t : StructType) (fieldTag : String) (f : StructField) : Bool :=
  !(if f.Anonymous then (!f.exported && t.Kind != Kind.Struct) else !f.exported) &&
    !(f.TagGet fieldTag == "" || f.TagGet fieldTag == "-") &&
    !(splitFirst (f.TagGet fieldTag) == "")

/-- Every entry of the cache is the spec `newStructSpec` computes for its key;
`graphStructCache` is the only writer of the cache. -/
def CacheOK (cache : Cache) : Prop :=
  ∀ t spec, List.lookup t cache = some spec → spec = newStructSpec t "redis"

/-- The field types `scanStruct` can fill: the primitive kinds of lines
303-312 and the two graph shapes of lines 315 and 323. -/
def supported (ty : GoType) : Bool :=
  match ty with
  | .bool => true
  | .int _ => true
  | .uint _ => true
  | .float _ => true
  | .string => true
  | .graphNode => true
  | .graphEdge => true
  | _ => false

/-- The runtime kind of cell `c` is the one a field of type `ty` takes: Basic
for a primitive field, Node for the node shape, Edge for the edge shape. -/
def kindAgrees (ty : GoType) (c : graphRow) : Bool :=
  match ty with
  | .bool => c.typ == graphResultBasic
  | .int _ => c.typ == graphResultBasic
  | .uint _ => c.typ == graphResultBasic
  | .float _ => c.typ == graphResultBasic
  | .string => c.typ == graphResultBasic
  | .graphNode => c.typ == graphResultNode
  | .graphEdge => c.typ == graphResultEdge
  | _ => false

/-- A cell as the decoder builds it: the pointer named by its tag is set. -/
def graphRow.wellFormed (c : graphRow) : Bool :=
  (c.typ != graphResultBasic || c.basic.isSome) &&
    (c.typ != graphResultNode || c.node.isSome) &&
    (c.typ != graphResultEdge || c.edge.isSome)

/-- The value a field of type `ty` is said to hold once cell `c` is bound to
it: the accessor of the scalar that goes with the field's kind, reduced to
the field's width for the numeric kinds, and the node or edge of the cell for
the two graph shapes. -/
def boundValue (ty : GoType) (c : graphRow) : Option Value :=
  match ty with
  | .bool => c.basic.map (fun d => Value.bool d.Bool)
  | .int w => c.basic.map (fun d => Value.int (wrapSigned w d.Int))
  | .uint w => c.basic.map (fun d => Value.uint (wrapUnsigned w (wrapUnsigned 64 d.Int)))
  | .float w => c.basic.map (fun d =>
      Value.float (if w = 32 then GoFloat.narrow32 d.Float64 else d.Float64))
  | .string => c.basic.map (fun d => Value.str d.String)
  | .graphNode => c.node.map Value.node
  | .graphEdge => c.edge.map Value.edge
  | _ => none

/-- Column `key` with cell `c` is matched by the spec to a settable field of
`t` of a supported type, and the cell is well formed. -/
def columnOK (spec : graphStructSpec) (t : StructType) (key : String) (c : graphRow) : Bool :=
  match spec.m.get key with
  | none => false
  | some idx =>
    match t.fields.get? idx with
    | none => false
    | some f => f.exported && supported f.Typ.target && c.wellFormed

/-- Column `key` with cell `c` is matched as in `columnOK` and the kind of the
cell is the one its field takes. -/
def columnAgrees (spec : graphStructSpec) (t : StructType) (key : String) (c : graphRow) : Bool :=
  match spec.m.get key with
  | none => false
  | some idx =>
    match t.fields.get? idx with
    | none => false
    | some f => f.exported && supported f.Typ.target && c.wellFormed && kindAgrees f.Typ.target c

/-- What the field a column is bound to holds once `v` has been stored: the
same pointer with `v` in its cell for a pointer field, `v` itself otherwise. -/
def fieldAfterWrite (f : StructField) (fv : Value) (v : Value) : Value :=
  if f.Typ.Kind == Kind.Ptr then
    match fv with
    | .ptrTo a _ => .ptrTo a v
    | _ => v
  else v

/-- Two field values are pointers to one cell. -/
def Value.sharesCell : Value → Value → Bool
  | .ptrTo a _, .ptrTo b _ => a == b
  | _, _ => false

/-- Two field values are the same up to what the cell of a pointer holds: the
same address for two pointers that are set, the same value otherwise. -/
def Value.samePointer : Value → Value → Bool
  | .ptrTo a _, .ptrTo b _ => a == b
  | x, y => x == y

/-- A field value is no pointer, or a pointer to an address below `alloc`. -/
def Value.addrBelow (alloc : Nat) : Value → Bool
  | .ptrTo a _ => decide (a < alloc)
  | _ => true

/-- The pointer fields of a record point to cells of their own: no two fields
share a cell, and every address in use is below the next unused address
`alloc`, so that a cell made by `reflect.New` is shared with no field. -/
def Separate (fields : List Value) (alloc : Nat) : Prop :=
  fields.Pairwise (fun x y => x.sharesCell y = false) ∧ ∀ x ∈ fields, x.addrBelow alloc = true

instance (fields : List Value) (alloc : Nat) : Decidable (Separate fields alloc) := by
  unfold Separate
  infer_instance

/-- Columns `cols`, numbered from `i`, all of which `P` accepts with their cell. -/
def ColumnsFrom (P : String → graphRow → Bool) (row : List graphRow) (cols : List String)
    (i : Nat) : Prop :=
  ∀ n key, cols.get? n = some key → ∃ c, row.get? (i + n) = some c ∧ P key c = true


/-! ## Example inputs -/

/-- A basic cell holding the integer `v`. -/
def cellInt (v : Int) : graphRow := ⟨graphResultBasic, some ⟨graphInteger, v, ""⟩, none, none⟩
/-- A basic cell holding the text `s`. -/
def cellText (s : String) : graphRow := ⟨graphResultBasic, some ⟨graphString, 0, s⟩, none, none⟩
/-- A node cell. -/
def cellNode (n : GraphNode) : graphRow := ⟨graphResultNode, none, some n, none⟩
/-- An edge cell. -/
def cellEdge (e : GraphEdge) : graphRow := ⟨graphResultEdge, none, none, some e⟩

/-- An exported, named field with the tag `redis:"tag"`. -/
def taggedField (name tag : String) (ty : GoType) : StructField :=
  ⟨name, true, false, [("redis", tag)], ty⟩

/-- Columns `id`, `name` and the single row `(7, "pod1")`. -/
def resIdName : GraphResult := ⟨false, [], ["id", "name"], [[cellInt 7, cellText "pod1"]], none⟩
/-- The same row with the columns in the other order. -/
def resNameId : GraphResult := ⟨false, [], ["name", "id"], [[cellText "pod1", cellInt 7]], none⟩
/-- A record whose only tagged field is the text field `name`. -/
def tOnlyName : StructType := ⟨"OnlyName", [taggedField "Name" "name" .string]⟩
/-- A record with fields `id:int` and `name:text`. -/
def tIdName : StructType :=
  ⟨"IdName", [taggedField "ID" "id" (.int 64), taggedField "Name" "name" .string]⟩

/-- The record `MyEdge` of the test file. -/
def tMyEdge : StructType :=
  ⟨"MyEdge", [taggedField "SrcID" "srcid" .string, taggedField "DstID" "dstid" .string,
    taggedField "Edge" "edge" .graphEdge]⟩
/-- The edge of the test's query, with property `size: 1`. -/
def linkEdge : GraphEdge := ⟨0, "link", 0, 1, [("size", ⟨graphInteger, 1, ""⟩)]⟩
/-- The test's result: columns `srcid`, `dstid`, `edge` and one row. -/
def resMyEdge : GraphResult :=
  ⟨false, [], ["srcid", "dstid", "edge"], [[cellText "x1", cellText "x2", cellEdge linkEdge]], none⟩

/-- A record with one `int8` field. -/
def tSmall : StructType := ⟨"Small", [taggedField "N" "n" (.int 8)]⟩
/-- A record with one `int` field. -/
def tCount : StructType := ⟨"Count", [taggedField "N" "n" (.int 64)]⟩
/-- A record with one node-shaped field (`MyNode` of the test file). -/
def tMyNode : StructType := ⟨"MyNode", [taggedField "Nodes" "p" .graphNode]⟩
/-- A record with one map field. -/
def tAttrs : StructType := ⟨"Attrs", [taggedField "M" "m" (.other "map[string]int")]⟩
/-- A record whose field is tagged `-,omitempty`. -/
def tDash : StructType := ⟨"Dash", [taggedField "Skip" "-,omitempty" .string]⟩
/-- An embedded field of the unexported struct type `inner`, tagged `x`. -/
def embeddedInner : StructField := ⟨"inner", false, true, [("redis", "x")], .otherStruct "inner"⟩
/-- A record embedding the unexported struct type `inner` under the tag `x`. -/
def tEmbed : StructType := ⟨"Outer", [embeddedInner]⟩

/-- One column `n` and the given rows. -/
def resN (rows : List (List graphRow)) : GraphResult := ⟨false, [], ["n"], rows, none⟩
/-- A node with no labels and no properties. -/
def plainNode : GraphNode := ⟨1, [], []⟩

/-! ## Definitions used by the later properties -/

/-- Value of a decimal digit. -/
def digitValue (c : Char) : Option Nat :=
  if '0' ≤ c ∧ c ≤ '9' then some (c.toNat - '0'.toNat) else none

/-- Decimal value of a list of digits read from the left, starting from `acc`;
`none` when a character is not a digit. -/
def parseDigits : List Char → Nat → Option Nat
  | [], acc => some acc
  | c :: cs, acc =>
    match digitValue c with
    | none => none
    | some d => parseDigits cs (acc * 10 + d)

/-- Reading a text as a decimal integer: an optional leading `-` and at least
one digit. -/
def parseDecimal (s : String) : Option Int :=
  match s.data with
  | [] => none
  | c :: cs =>
    if c = '-' then
      if cs = [] then none else (parseDigits cs 0).map (fun n => -Int.ofNat n)
    else (parseDigits (c :: cs) 0).map Int.ofNat

/-- How the standard library's `strconv.ParseFloat(s, 64)` ends: with the
nearest float and a nil error, with `0` and a syntax error, or, for a well
formed text whose magnitude is too large, with `+Inf` or `-Inf` and a range
error. -/
inductive ParseFloatResult where
  | parsed
  | syntaxError
  | rangeError (negative : Bool)
deriving DecidableEq

/-- The float a symbolic value stands for once `classify` tells how
`ParseFloat` ends on each text: the first result of `ParseFloat` is the parsed
number, `0` after a syntax error and an infinity after a range error. -/
def GoFloat.resolve (classify : String → ParseFloatResult) : GoFloat → GoFloat
  | .ofInt64 v => .ofInt64 v
  | .parseFloat s =>
    match classify s with
    | .parsed => .parseFloat s
    | .syntaxError => .ofInt64 0
    | .rangeError negative => .inf negative
  | .narrow32 f => .narrow32 (GoFloat.resolve classify f)
  | .inf negative => .inf negative

/-- How `ParseFloat` ends on the three texts used as examples: `3.1415926` is
parsed, `1e999` is out of range, `not-a-number` is not well formed.  Other
texts are not used. -/
def sampleParseFloat (s : String) : ParseFloatResult :=
  if s = "3.1415926" then .parsed
  else if s = "1e999" then .rangeError false
  else .syntaxError

/-- The value `Row` and `Rows` store for a cell: `String()` of the scalar for
a Basic cell, the node mapping for a Node cell, the edge mapping for an Edge
cell; `none` for any other cell. -/
def cellValue (c : graphRow) : Option RowVal :=
  if c.typ = graphResultBasic then c.basic.map (fun d => RowVal.text d.String)
  else if c.typ = graphResultNode then c.node.map (fun n => RowVal.mapping n.Map)
  else if c.typ = graphResultEdge then c.edge.map (fun e => RowVal.mapping e.Map)
  else none

/-- A cell of kind Basic, Node or Edge with the pointer named by its tag set. -/
def graphRow.hasKind (c : graphRow) : Bool :=
  (c.typ == graphResultBasic && c.basic.isSome) ||
    (c.typ == graphResultNode && c.node.isSome) ||
    (c.typ == graphResultEdge && c.edge.isSome)

/-- The columns `cols`, read from column `i` on, as far as every iteration of
the loop of `scanStruct` goes on to the next one: the field values and the
next unused address afterwards, `none` when an iteration returns. -/
def scanPrefix (spec : graphStructSpec) (t : StructType) (row : List graphRow) :
    List String → Nat → List Value → Nat → Option (List Value × Nat)
  | [], _, fields, alloc => some (fields, alloc)
  | key :: rest, i, fields, alloc =>
    match scanColumn spec t row key i fields alloc with
    | ⟨none, fields1, alloc1⟩ => scanPrefix spec t row rest (i + 1) fields1 alloc1
    | ⟨some _, _, _⟩ => none

/-- Shape of a destination that `graphStruct` rejects: not a pointer, a nil
pointer, or a pointer to something that is not a struct. -/
def Dest.notStructPtr : Dest → Bool
  | .ptr (.struct _ _) => false
  | _ => true

/-- Shape of a destination that `graphStructSlice` rejects: not a pointer, a
pointer to something that is not a slice, or a slice whose elements are
neither structs nor pointers to structs. -/
def Dest.notStructSlicePtr : Dest → Bool
  | .ptr (.slice elem _) => elem.structOf.isNone
  | _ => true

/-- A basic cell holding nil. -/
def cellNil : graphRow := ⟨graphResultBasic, some ⟨graphNil, 0, ""⟩, none, none⟩
/-- A record with a pointer field `*int` and a pointer field `*string`. -/
def tPtrs : StructType :=
  ⟨"Ptrs", [taggedField "N" "n" (.ptr (.int 64)), taggedField "S" "s" (.ptr .string)]⟩
/-- Columns `n`, `s`, and one row. -/
def resPtrs : GraphResult := ⟨false, [], ["n", "s"], [[cellInt 5, cellText "a"]], none⟩
/-- Columns `id`, `name`, `p` and one row whose last cell is an integer. -/
def resIdNameP : GraphResult :=
  ⟨false, [], ["id", "name", "p"], [[cellInt 7, cellText "pod1", cellInt 3]], none⟩
/-- A record with fields `id:int`, `name:text`, an untagged-by-columns field
`other` and a node-shaped field `p`. -/
def tIdNameP : StructType :=
  ⟨"IdNameP", [taggedField "ID" "id" (.int 64), taggedField "Name" "name" .string,
    taggedField "Other" "other" .string, taggedField "P" "p" .graphNode]⟩
/-- Two rows under the columns `id`, `p`: an integer and a node, then an
integer and an edge. -/
def resIdP : GraphResult :=
  ⟨false, [], ["id", "p"],
    [[cellInt 7, cellNode plainNode], [cellInt 8, cellEdge linkEdge]], none⟩

/-- Specification of what `RowsScan` appends to the destination when no row
faults: one element per row, in row order.  The element of a row is a new
struct, filled by scanning the row into the zero struct: the struct itself
for a slice of structs, a pointer to it (at the next unused address) for a
slice of pointers.  The addresses the scan of a row takes are not used again
for the rows after it. -/
def boundRows (g : GraphResult) (spec : graphStructSpec) (t : StructType) (elemIsPtr : Bool) :
    List (List graphRow) → Nat → List Item
  | [], _ => []
  | row :: rest, alloc =>
    (if elemIsPtr then Item.ptrTo alloc (scanStruct g spec t (zeroRecord t) (alloc + 1) row).2.1
      else Item.val (scanStruct g spec t (zeroRecord t) (alloc + 1) row).2.1) ::
      boundRows g spec t elemIsPtr rest (scanStruct g spec t (zeroRecord t) (alloc + 1) row).2.2

/-- A record whose fields `First` and `Last` both have the key `n`. -/
def tDup : StructType :=
  ⟨"Dup", [taggedField "First" "n" (.int 64), taggedField "Mid" "m" .string,
    taggedField "Last" "n,omitempty" (.int 64)]⟩

/-- A record with a `uint64` field. -/
def tU64 : StructType := ⟨"U64", [taggedField "N" "n" (.uint 64)]⟩

/-- A record with a `uint8` field and a `*uint16` field. -/
def tU8 : StructType :=
  ⟨"U8", [taggedField "N" "n" (.uint 8), taggedField "P" "p" (.ptr (.uint 16))]⟩

/-- A record with two `*int64` fields. -/
def tTwoPtr : StructType :=
  ⟨"TwoPtr", [taggedField "A" "a" (.ptr (.int 64)), taggedField "B" "b" (.ptr (.int 64))]⟩

/-- Columns `a`, `b` and the single row `(1, 2)`. -/
def resAB : GraphResult := ⟨false, [], ["a", "b"], [[cellInt 1, cellInt 2]], none⟩

/-! # Theorems -/

/-! ## Records whose pointer fields point to cells of their own -/

theorem Value.sharesCell_comm (x y : Value) : x.sharesCell y = y.sharesCell x := by
  cases x <;> cases y <;> simp [Value.sharesCell, eq_comm]

/-- Reading of `Separate` by positions. -/
theorem separate_iff (fields : List Value) (alloc : Nat) :
    Separate fields alloc ↔
      (∀ i j x y, i ≠ j → fields.get? i = some x → fields.get? j = some y →
        x.sharesCell y = false) ∧
      (∀ i x, fields.get? i = some x → x.addrBelow alloc = true) := by
  unfold Separate
  rw [List.pairwise_iff_getElem]
  constructor
  · rintro ⟨hp, hb⟩
    refine ⟨?_, ?_⟩
    · intro i j x y hne hi hj
      rw [List.get?_eq_getElem?] at hi hj
      obtain ⟨hi1, hi2⟩ := List.getElem?_eq_some_iff.mp hi
      obtain ⟨hj1, hj2⟩ := List.getElem?_eq_some_iff.mp hj
      rcases Nat.lt_or_gt_of_ne hne with h | h
      · rw [← hi2, ← hj2]; exact hp i j hi1 hj1 h
      · rw [Value.sharesCell_comm, ← hi2, ← hj2]; exact hp j i hj1 hi1 h
    · intro i x hi
      exact hb x (List.get?_mem hi)
  · rintro ⟨hp, hb⟩
    refine ⟨?_, ?_⟩
    · intro i j hi hj hij
      exact hp i j _ _ (Nat.ne_of_lt hij) (by simp [hi]) (by simp [hj])
    · intro x hx
      obtain ⟨n, hn⟩ := List.mem_iff_getElem?.mp hx
      exact hb n x (by simpa using hn)

/-- In a separate record an address is held by one field only. -/
theorem Separate.get_inj {fields : List Value} {alloc : Nat} (h : Separate fields alloc)
    (i j a : Nat) (v w : Value) (hi : fields.get? i = some (.ptrTo a v))
    (hj : fields.get? j = some (.ptrTo a w)) : i = j := by
  by_contra hne
  have := ((separate_iff fields alloc).mp h).1 i j _ _ hne hi hj
  simp [Value.sharesCell] at this

/-- In a separate record every address is below the next unused one. -/
theorem Separate.get_lt {fields : List Value} {alloc : Nat} (h : Separate fields alloc)
    (i a : Nat) (v : Value) (hi : fields.get? i = some (.ptrTo a v)) : a < alloc := by
  have := ((separate_iff fields alloc).mp h).2 i _ hi
  simpa [Value.addrBelow] using this

theorem Separate.mono {fields : List Value} {alloc alloc2 : Nat} (h : Separate fields alloc)
    (hle : alloc ≤ alloc2) : Separate fields alloc2 := by
  rw [separate_iff] at h ⊢
  refine ⟨h.1, fun i x hi => ?_⟩
  have := h.2 i x hi
  cases x <;> simp_all [Value.addrBelow]
  omega

/-- A separate record stays separate when one field takes a value that shares
its cell with no other field. -/
theorem Separate.set {fields : List Value} {alloc : Nat} (h : Separate fields alloc)
    (idx : Nat) (x : Value)
    (hx : ∀ j y, j ≠ idx → fields.get? j = some y → x.sharesCell y = false)
    (hb : x.addrBelow alloc = true) : Separate (fields.set idx x) alloc := by
  rw [separate_iff] at h ⊢
  refine ⟨?_, ?_⟩
  · intro i j y z hne hi hj
    simp only [List.get?_eq_getElem?, List.getElem?_set] at hi hj
    by_cases h1 : idx = i
    · subst h1
      rw [if_pos rfl] at hi
      rw [if_neg hne] at hj
      split_ifs at hi
      cases hi
      exact hx j z (Ne.symm hne) (by simpa using hj)
    · rw [if_neg h1] at hi
      by_cases h2 : idx = j
      · subst h2
        rw [if_pos rfl] at hj
        split_ifs at hj
        cases hj
        rw [Value.sharesCell_comm]
        exact hx i y (Ne.symm h1) (by simpa using hi)
      · rw [if_neg h2] at hj
        exact h.1 i j y z hne (by simpa using hi) (by simpa using hj)
  · intro i y hi
    simp only [List.get?_eq_getElem?, List.getElem?_set] at hi
    by_cases h1 : idx = i
    · subst h1
      rw [if_pos rfl] at hi
      split_ifs at hi
      cases hi
      exact hb
    · rw [if_neg h1] at hi
      exact h.2 i y (by simpa using hi)

/-- A value that is no pointer shares a cell with nothing. -/
theorem Value.sharesCell_of_not_ptr (x y : Value) (hx : ∀ a v, x ≠ .ptrTo a v) :
    x.sharesCell y = false := by
  cases x <;> simp [Value.sharesCell]
  exact absurd rfl (hx _ _)

theorem Value.addrBelow_of_not_ptr (x : Value) (alloc : Nat) (hx : ∀ a v, x ≠ .ptrTo a v) :
    x.addrBelow alloc = true := by
  cases x <;> simp [Value.addrBelow]
  exact absurd rfl (hx _ _)

/-- The zero record has no pointer that is set. -/
theorem zeroValue_not_ptr (ty : GoType) (a : Nat) (v : Value) : zeroValue ty ≠ .ptrTo a v := by
  cases ty <;> simp [zeroValue]

theorem separate_zeroRecord (t : StructType) (alloc : Nat) : Separate (zeroRecord t) alloc := by
  rw [separate_iff]
  have hz : ∀ i x, (zeroRecord t).get? i = some x → ∀ a v, x ≠ .ptrTo a v := by
    intro i x hi a v
    simp only [zeroRecord, List.get?_eq_getElem?, List.getElem?_map, Option.map_eq_some'] at hi
    obtain ⟨f, -, rfl⟩ := hi
    exact zeroValue_not_ptr _ a v
  exact ⟨fun i j x y _ hi _ => Value.sharesCell_of_not_ptr x y (hz i x hi),
    fun i x hi => Value.addrBelow_of_not_ptr x alloc (hz i x hi)⟩

/-! ## The write of one value -/

theorem Value.storeAt_isNil (a : Nat) (v x : Value) : (Value.storeAt a v x).IsNil = x.IsNil := by
  cases x <;> simp [Value.storeAt, Value.IsNil]
  split_ifs <;> rfl

theorem storeField_length (f : StructField) (idx : Nat) (fv v : Value) (fields : List Value) :
    (storeField f idx fv v fields).length = fields.length := by
  unfold storeField
  split_ifs
  · split <;> simp
  · simp

/-- After the write the field holds `v`, behind its pointer if it is one. -/
theorem storeField_get_self (f : StructField) (idx : Nat) (fv v : Value) (fields : List Value)
    (hfv : fields.get? idx = some fv) (hv : v.deref = v) :
    ((storeField f idx fv v fields).get? idx).map Value.deref = some v := by
  have hidx : idx < fields.length := by
    rw [List.get?_eq_getElem?] at hfv
    exact (List.getElem?_eq_some_iff.mp hfv).1
  rw [List.get?_eq_getElem?] at hfv
  unfold storeField
  split_ifs
  · split
    · simp [List.getElem?_map, hfv, Value.storeAt, Value.deref]
    · simp [List.getElem?_set, hidx, hv]
  · simp [List.getElem?_set, hidx, hv]

theorem fieldAfterWrite_deref (f : StructField) (fv v : Value) (h : v.deref = v) :
    (fieldAfterWrite f fv v).deref = v := by
  unfold fieldAfterWrite
  split_ifs
  · split
    · rfl
    · exact h
  · exact h

/-- In a separate record the write changes the one field. -/
theorem storeField_of_separate (f : StructField) (idx : Nat) (fv v : Value)
    (fields : List Value) (alloc : Nat) (hsep : Separate fields alloc)
    (hfv : fields.get? idx = some fv) :
    storeField f idx fv v fields = fields.set idx (fieldAfterWrite f fv v) := by
  unfold storeField fieldAfterWrite
  split_ifs
  · cases fv with
    | ptrTo a w =>
      simp only
      apply List.ext_getElem?
      intro j
      simp only [List.getElem?_map, List.getElem?_set]
      by_cases hj : idx = j
      · subst hj
        have hidx : idx < fields.length := by
          rw [List.get?_eq_getElem?] at hfv
          exact (List.getElem?_eq_some_iff.mp hfv).1
        rw [List.get?_eq_getElem?] at hfv
        simp [hfv, hidx, Value.storeAt]
      · rw [if_neg hj]
        cases hy : fields[j]? with
        | none => rfl
        | some y =>
          simp only [Option.map_some', Option.some.injEq]
          cases y with
          | ptrTo b u =>
            have hne : b ≠ a := by
              intro hba
              subst hba
              exact hj (hsep.get_inj idx j b w u hfv (by simpa using hy))
            simp [Value.storeAt, hne]
          | _ => rfl
    | _ => rfl
  · rfl

/-- A value the switch of `scanStruct` stores is no pointer. -/
theorem scanValue_not_ptr (ty : GoType) (c : graphRow) (v : Value)
    (h : scanValue ty c = .value v) : ∀ a w, v ≠ .ptrTo a w := by
  intro a w hv
  subst hv
  cases ty with
  | graphNode =>
    simp only [scanValue, GoType.Kind, graphNodeType, if_true] at h
    split_ifs at h
    cases hn : c.node <;> simp [hn] at h
  | graphEdge =>
    simp only [scanValue, GoType.Kind, graphNodeType, graphEdgeType, if_true] at h
    rw [if_neg (by decide)] at h
    split_ifs at h
    cases hn : c.edge <;> simp [hn] at h
  | otherStruct name => simp [scanValue, GoType.Kind, graphNodeType, graphEdgeType] at h
  | _ =>
    simp only [scanValue, GoType.Kind, fromBasic] at h
    cases hb : c.basic <;> simp [hb] at h

/-- Lines 285-287 keep a separate record separate: the new cell is at the next
unused address. -/
theorem Separate.allocIfNil {fields : List Value} {alloc : Nat} (hsep : Separate fields alloc)
    (f : StructField) (idx : Nat) (fv : Value) (hfv : fields.get? idx = some fv) :
    Separate (fields.set idx (allocIfNil f fv alloc).1) (allocIfNil f fv alloc).2 := by
  unfold Graph.allocIfNil
  split_ifs
  · simp only
    apply Separate.set (hsep.mono (Nat.le_succ alloc))
    · intro j y hj hy
      cases y with
      | ptrTo b u =>
        have := hsep.get_lt j b u hy
        simp [Value.sharesCell]
        omega
      | _ => simp [Value.sharesCell]
    · simp [Value.addrBelow]
  · simp only
    have : fields.set idx fv = fields := by
      apply List.ext_getElem?
      intro j
      rw [List.get?_eq_getElem?] at hfv
      simp only [List.getElem?_set]
      split_ifs with h1 h2
      · subst h1; exact hfv.symm
      · subst h1; simp at h2; simp [h2]
      · rfl
    rw [this]
    exact hsep

/-- The write of a value that is no pointer keeps a separate record separate. -/
theorem Separate.write {fields : List Value} {alloc : Nat} (hsep : Separate fields alloc)
    (f : StructField) (idx : Nat) (fv v : Value) (hfv : fields.get? idx = some fv)
    (hv : ∀ a w, v ≠ .ptrTo a w) :
    Separate (fields.set idx (fieldAfterWrite f fv v)) alloc := by
  have hvs : ∀ y, v.sharesCell y = false := fun y => Value.sharesCell_of_not_ptr v y hv
  have hvb := Value.addrBelow_of_not_ptr v alloc hv
  unfold fieldAfterWrite
  split_ifs
  · cases fv with
    | ptrTo a w =>
      simp only
      apply hsep.set
      · intro j y hj hy
        have := ((separate_iff fields alloc).mp hsep).1 idx j _ y (Ne.symm hj) hfv hy
        cases y <;> simp_all [Value.sharesCell]
      · have := hsep.get_lt idx a w hfv
        simp [Value.addrBelow, this]
    | _ => exact hsep.set idx v (fun j y _ _ => hvs y) hvb
  · exact hsep.set idx v (fun j y _ _ => hvs y) hvb

/-! ## Go maps -/

theorem GoMap.get_set {α : Type} (m : GoMap α) (k k2 : String) (v : α) :
    (m.set k v).get k2 = if k2 = k then some v else m.get k2 := by
  unfold GoMap.get GoMap.set
  by_cases h : k2 = k
  · subst h; simp [List.lookup]
  · have : (k2 == k) = false := by simpa using h
    simp [List.lookup, this, h]

/-! ## The struct spec -/

theorem newStructSpecLoop_cons (t : StructType) (fieldTag : String) (f : StructField)
    (fs : List StructField) (i : Nat) (m : GoMap Nat) :
    newStructSpecLoop t fieldTag (f :: fs) i m =
      newStructSpecLoop t fieldTag fs (i + 1)
        (if participates t fieldTag f then m.set (splitFirst (f.TagGet fieldTag)) i else m) := by
  simp only [newStructSpecLoop, participates]
  split_ifs <;> simp_all

/-- Entries of the map built by the loop come from `m` or from a participating
field of the list, stored under the text before the first comma of its tag. -/
theorem newStructSpecLoop_get (t : StructType) (fieldTag : String) :
    ∀ (fs : List StructField) (i : Nat) (m : GoMap Nat) (k : String) (idx : Nat),
      (newStructSpecLoop t fieldTag fs i m).get k = some idx →
        m.get k = some idx ∨
          ∃ j f, fs.get? j = some f ∧ idx = i + j ∧ participates t fieldTag f = true ∧
            splitFirst (f.TagGet fieldTag) = k := by
  intro fs
  induction fs with
  | nil => intro i m k idx h; left; simpa [newStructSpecLoop] using h
  | cons f fs ih =>
    intro i m k idx h
    rw [newStructSpecLoop_cons] at h
    rcases ih (i + 1) _ k idx h with h1 | ⟨j, f2, hj, hidx, hp, hk⟩
    · by_cases hp : participates t fieldTag f = true
      · rw [if_pos hp, GoMap.get_set] at h1
        by_cases hk : k = splitFirst (f.TagGet fieldTag)
        · rw [if_pos hk] at h1
          right
          refine ⟨0, f, by simp, ?_, hp, hk.symm⟩
          simpa using (Option.some.inj h1).symm
        · rw [if_neg hk] at h1; exact Or.inl h1
      · rw [if_neg hp] at h1; exact Or.inl h1
    · right
      exact ⟨j + 1, f2, by simpa using hj, by omega, hp, hk⟩

/-- Every entry of a struct spec is the position of a participating field whose
key is the text before the first comma of its tag. -/
theorem newStructSpec_sound (t : StructType) (fieldTag k : String) (idx : Nat)
    (h : (newStructSpec t fieldTag).m.get k = some idx) :
    ∃ f, t.fields.get? idx = some f ∧ participates t fieldTag f = true ∧
      splitFirst (f.TagGet fieldTag) = k := by
  rcases newStructSpecLoop_get t fieldTag t.fields 0 [] k idx h with h1 | ⟨j, f, hj, hidx, hp, hk⟩
  · simp [GoMap.get, List.lookup] at h1
  · refine ⟨f, ?_, hp, hk⟩
    have : idx = j := by omega
    rw [this]; exact hj

/-- Two keys of a struct spec never share a field position. -/
theorem newStructSpec_inj (t : StructType) (fieldTag k1 k2 : String) (idx : Nat)
    (h1 : (newStructSpec t fieldTag).m.get k1 = some idx)
    (h2 : (newStructSpec t fieldTag).m.get k2 = some idx) : k1 = k2 := by
  obtain ⟨f1, hf1, _, hk1⟩ := newStructSpec_sound t fieldTag k1 idx h1
  obtain ⟨f2, hf2, _, hk2⟩ := newStructSpec_sound t fieldTag k2 idx h2
  rw [hf1] at hf2
  cases hf2
  rw [← hk1, ← hk2]

/-- Fields that do not participate, or participate under another key, leave the
entry of `k` as it is. -/
theorem newStructSpecLoop_unchanged (t : StructType) (fieldTag k : String) :
    ∀ (fs : List StructField) (i : Nat) (m : GoMap Nat),
      (∀ j f, fs.get? j = some f → participates t fieldTag f = true →
        splitFirst (f.TagGet fieldTag) ≠ k) →
      (newStructSpecLoop t fieldTag fs i m).get k = m.get k := by
  intro fs
  induction fs with
  | nil => intro i m _; rfl
  | cons f fs ih =>
    intro i m h
    rw [newStructSpecLoop_cons, ih (i + 1) _ (fun j f2 hj => h (j + 1) f2 (by simpa using hj))]
    by_cases hp : participates t fieldTag f = true
    · rw [if_pos hp, GoMap.get_set, if_neg]
      exact fun hk => h 0 f (by simp) hp hk.symm
    · rw [if_neg hp]

/-- A participating field owns the entry of its key when no later participating
field has the same key. -/
theorem newStructSpecLoop_last (t : StructType) (fieldTag : String) :
    ∀ (fs : List StructField) (i : Nat) (m : GoMap Nat) (n : Nat) (f : StructField),
      fs.get? n = some f → participates t fieldTag f = true →
      (∀ j f2, n < j → fs.get? j = some f2 → participates t fieldTag f2 = true →
        splitFirst (f2.TagGet fieldTag) ≠ splitFirst (f.TagGet fieldTag)) →
      (newStructSpecLoop t fieldTag fs i m).get (splitFirst (f.TagGet fieldTag)) =
        some (i + n) := by
  intro fs
  induction fs with
  | nil => intro i m n f hn; simp at hn
  | cons f0 fs ih =>
    intro i m n f hn hp hlast
    rw [newStructSpecLoop_cons]
    cases n with
    | zero =>
      simp only [List.get?_cons_zero, Option.some.injEq] at hn
      subst hn
      rw [newStructSpecLoop_unchanged t fieldTag _ fs (i + 1) _
        (fun j f2 hj hp2 => hlast (j + 1) f2 (Nat.succ_pos j) (by simpa using hj) hp2)]
      rw [if_pos hp, GoMap.get_set, if_pos rfl]
      rfl
    | succ n =>
      rw [ih (i + 1) _ n f (by simpa using hn) hp
        (fun j f2 hj hf2 hp2 => hlast (j + 1) f2 (by omega) (by simpa using hf2) hp2)]
      congr 1
      omega

/-- The spec maps the key of a participating field to its position when no
later participating field has the same key. -/
theorem newStructSpec_last (t : StructType) (fieldTag : String) (i : Nat) (f : StructField)
    (hf : t.fields.get? i = some f) (hp : participates t fieldTag f = true)
    (hlast : ∀ j f2, i < j → t.fields.get? j = some f2 → participates t fieldTag f2 = true →
      splitFirst (f2.TagGet fieldTag) ≠ splitFirst (f.TagGet fieldTag)) :
    (newStructSpec t fieldTag).m.get (splitFirst (f.TagGet fieldTag)) = some i := by
  have := newStructSpecLoop_last t fieldTag t.fields 0 [] i f hf hp hlast
  simpa [newStructSpec] using this

theorem splitFirst_dash_comma (mods : String) : splitFirst ("-," ++ mods) = "-" := by
  simp [splitFirst, String.data_append, List.takeWhile]

/-! ## Scanning one row -/
theorem boundValue_deref (ty : GoType) (c : graphRow) (v : Value)
    (h : boundValue ty c = some v) : v.deref = v := by
  cases ty <;> simp [boundValue] at h <;> obtain ⟨d, _, rfl⟩ := h <;> rfl

theorem boundValue_not_ptr (ty : GoType) (c : graphRow) (v : Value)
    (h : boundValue ty c = some v) (a : Nat) (w : Value) : v ≠ .ptrTo a w := by
  cases ty <;> simp [boundValue] at h <;> obtain ⟨d, _, rfl⟩ := h <;> simp

theorem scanValue_agree (ty : GoType) (c : graphRow)
    (hwf : c.wellFormed = true) (hag : kindAgrees ty c = true) :
    (ty.Kind != Kind.Struct && c.typ != graphResultBasic) = false ∧
      ∃ v, scanValue ty c = .value v ∧ boundValue ty c = some v := by
  cases ty <;> simp [kindAgrees] at hag <;>
    simp [graphRow.wellFormed, hag, graphResultBasic, graphResultNode, graphResultEdge] at hwf <;>
    obtain ⟨d, hd⟩ := Option.isSome_iff_exists.mp hwf <;>
    simp [scanValue, fromBasic, boundValue, GoType.Kind, GoType.bits, hag, hd, graphNodeType,
      graphEdgeType]

theorem scanValue_disagree (ty : GoType) (c : graphRow)
    (hsup : supported ty = true) (hag : kindAgrees ty c = false) :
    (ty.Kind != Kind.Struct && c.typ != graphResultBasic) = true ∨
      ∃ e, scanValue ty c = .fault e ∧ e.faultClass = FaultClass.TypeMismatch := by
  cases ty <;> simp [supported] at hsup <;> simp [kindAgrees] at hag <;>
    simp [scanValue, GoType.Kind, hag, graphNodeType, graphEdgeType, GraphError.faultClass]

/-- An agreeing cell lets the loop go on, whatever the record holds. -/
theorem scanColumn_agree_go (spec : graphStructSpec) (t : StructType) (row : List graphRow)
    (key : String) (i : Nat) (fields : List Value) (alloc : Nat)
    (idx : Nat) (f : StructField) (c : graphRow)
    (hk : spec.m.get key = some idx) (hf : t.fields.get? idx = some f)
    (hidx : idx < fields.length) (hc : row.get? i = some c)
    (hexp : f.exported = true)
    (hwf : c.wellFormed = true) (hag : kindAgrees f.Typ.target c = true) :
    ∃ fv v, fields.get? idx = some fv ∧ boundValue f.Typ.target c = some v ∧
      scanColumn spec t row key i fields alloc =
        ⟨none, storeField f idx (allocIfNil f fv alloc).1 v
          (fields.set idx (allocIfNil f fv alloc).1), (allocIfNil f fv alloc).2⟩ := by
  obtain ⟨fv, hfv⟩ : ∃ fv, fields.get? idx = some fv := by
    rw [List.get?_eq_get hidx]; exact ⟨_, rfl⟩
  obtain ⟨hguard, v, hv, hb⟩ := scanValue_agree f.Typ.target c hwf hag
  refine ⟨fv, v, hfv, hb, ?_⟩
  unfold scanColumn
  simp only [hk, hf, hfv, hexp, hc, hguard, hv]
  simp only [Bool.false_eq_true, if_false, beq_iff_eq, Bool.and_eq_true, Bool.not_true,
    Bool.and_false, Bool.not_eq_true']

/-- In a separate record an agreeing cell is written to its field and to no
other, and the record stays separate. -/
theorem scanColumn_agree (spec : graphStructSpec) (t : StructType) (row : List graphRow)
    (key : String) (i : Nat) (fields : List Value) (alloc : Nat)
    (idx : Nat) (f : StructField) (c : graphRow)
    (hk : spec.m.get key = some idx) (hf : t.fields.get? idx = some f)
    (hidx : idx < fields.length) (hc : row.get? i = some c)
    (hexp : f.exported = true)
    (hwf : c.wellFormed = true) (hag : kindAgrees f.Typ.target c = true)
    (hsep : Separate fields alloc) :
    ∃ fields1 alloc1, scanColumn spec t row key i fields alloc = ⟨none, fields1, alloc1⟩ ∧
      fields1.length = fields.length ∧
      (∀ j, j ≠ idx → fields1.get? j = fields.get? j) ∧
      (∃ v, boundValue f.Typ.target c = some v ∧ (fields1.get? idx).map Value.deref = some v) ∧
      Separate fields1 alloc1 := by
  obtain ⟨fv, v, hfv, hb, heq⟩ :=
    scanColumn_agree_go spec t row key i fields alloc idx f c hk hf hidx hc hexp hwf hag
  have hd := boundValue_deref _ _ _ hb
  have hsep1 := hsep.allocIfNil f idx fv hfv
  have hfv1 : (fields.set idx (allocIfNil f fv alloc).1).get? idx =
      some (allocIfNil f fv alloc).1 := by
    simp [List.getElem?_set, hidx]
  have hnp : ∀ a w, v ≠ .ptrTo a w := boundValue_not_ptr _ _ _ hb
  rw [storeField_of_separate f idx _ v _ _ hsep1 hfv1, List.set_set] at heq
  refine ⟨_, _, heq, by simp, fun j hj => ?_, ⟨v, hb, ?_⟩, ?_⟩
  · simp [List.getElem?_set, Ne.symm hj]
  · simp only [List.get?_eq_getElem?, List.getElem?_set, hidx, if_true, Option.map_some']
    congr 1
    exact fieldAfterWrite_deref f _ v hd
  · have := hsep1.write f idx _ v hfv1 hnp
    rwa [List.set_set] at this

theorem scanColumn_disagree (spec : graphStructSpec) (t : StructType) (row : List graphRow)
    (key : String) (i : Nat) (fields : List Value) (alloc : Nat)
    (idx : Nat) (f : StructField) (c : graphRow)
    (hk : spec.m.get key = some idx) (hf : t.fields.get? idx = some f)
    (hidx : idx < fields.length) (hc : row.get? i = some c)
    (hexp : f.exported = true) (hsup : supported f.Typ.target = true)
    (hag : kindAgrees f.Typ.target c = false) :
    ∃ e fields1 alloc1, scanColumn spec t row key i fields alloc =
        ⟨some (.fault e), fields1, alloc1⟩ ∧ e.faultClass = FaultClass.TypeMismatch := by
  obtain ⟨fv, hfv⟩ : ∃ fv, fields.get? idx = some fv := by
    rw [List.get?_eq_get hidx]; exact ⟨_, rfl⟩
  unfold scanColumn
  simp only [hk, hf, hfv, hexp, hc]
  simp only [Bool.not_true, Bool.and_false, Bool.false_eq_true, if_false]
  rcases scanValue_disagree f.Typ.target c hsup hag with hg | ⟨e, he, hcl⟩
  · rw [if_pos hg]
    exact ⟨.cannotScanInto, _, _, rfl, rfl⟩
  · by_cases hg : (f.Typ.target.Kind != Kind.Struct && c.typ != graphResultBasic) = true
    · rw [if_pos hg]
      exact ⟨.cannotScanInto, _, _, rfl, rfl⟩
    · rw [if_neg hg]
      simp only [he]
      exact ⟨e, _, _, rfl, hcl⟩

theorem ColumnsFrom.tail {P : String → graphRow → Bool} {row : List graphRow} {key : String}
    {cols : List String} {i : Nat} (h : ColumnsFrom P row (key :: cols) i) :
    ColumnsFrom P row cols (i + 1) := by
  intro n k hn
  obtain ⟨c, hc, hp⟩ := h (n + 1) k (by simpa using hn)
  exact ⟨c, by rw [← hc]; congr 1; omega, hp⟩

theorem ColumnsFrom.head {P : String → graphRow → Bool} {row : List graphRow} {key : String}
    {cols : List String} {i : Nat} (h : ColumnsFrom P row (key :: cols) i) :
    ∃ c, row.get? i = some c ∧ P key c = true := by
  simpa using h 0 key (by simp)

theorem ColumnsFrom.of_zip {P : String → graphRow → Bool} {row : List graphRow}
    {cols : List String} (hlen : row.length = cols.length)
    (h : ∀ kc ∈ cols.zip row, P kc.1 kc.2 = true) : ColumnsFrom P row cols 0 := by
  intro n key hn
  have hn2 : n < cols.length := by
    rw [List.get?_eq_getElem?] at hn
    exact (List.getElem?_eq_some_iff.mp hn).1
  have hr : n < row.length := by omega
  refine ⟨row[n], by simp [hr], ?_⟩
  have hz : (cols.zip row)[n]? = some (key, row[n]) := by
    rw [List.getElem?_zip_eq_some]
    simp [hr]
    simpa using hn
  exact h _ (List.getElem?_mem hz)

theorem columnAgrees_iff (spec : graphStructSpec) (t : StructType) (key : String) (c : graphRow) :
    columnAgrees spec t key c = true ↔
      ∃ idx f, spec.m.get key = some idx ∧ t.fields.get? idx = some f ∧ f.exported = true ∧
        supported f.Typ.target = true ∧ c.wellFormed = true ∧ kindAgrees f.Typ.target c = true := by
  unfold columnAgrees
  cases hk : spec.m.get key with
  | none => simp
  | some idx =>
    cases hf : t.fields.get? idx with
    | none => rw [List.get?_eq_getElem?] at hf; simp [hf]
    | some f => rw [List.get?_eq_getElem?] at hf; simp [hf, and_assoc]

theorem columnOK_iff (spec : graphStructSpec) (t : StructType) (key : String) (c : graphRow) :
    columnOK spec t key c = true ↔
      ∃ idx f, spec.m.get key = some idx ∧ t.fields.get? idx = some f ∧ f.exported = true ∧
        supported f.Typ.target = true ∧ c.wellFormed = true := by
  unfold columnOK
  cases hk : spec.m.get key with
  | none => simp
  | some idx =>
    cases hf : t.fields.get? idx with
    | none => rw [List.get?_eq_getElem?] at hf; simp [hf]
    | some f => rw [List.get?_eq_getElem?] at hf; simp [hf, and_assoc]

theorem columnAgrees_false (spec : graphStructSpec) (t : StructType) (key : String) (c : graphRow)
    (idx : Nat) (f : StructField)
    (hk : spec.m.get key = some idx) (hf : t.fields.get? idx = some f)
    (hok : columnOK spec t key c = true) (h : columnAgrees spec t key c = false) :
    kindAgrees f.Typ.target c = false := by
  unfold columnOK at hok
  unfold columnAgrees at h
  simp only [hk, hf] at hok h
  cases hka : kindAgrees f.Typ.target c
  · rfl
  · rw [hka, Bool.and_true, hok] at h
    exact absurd h (by decide)

theorem scanStructLoop_cons_none (spec : graphStructSpec) (t : StructType) (row : List graphRow)
    (key : String) (rest : List String) (i : Nat) (fields fields1 : List Value) (alloc alloc1 : Nat)
    (h : scanColumn spec t row key i fields alloc = ⟨none, fields1, alloc1⟩) :
    scanStructLoop spec t row (key :: rest) i fields alloc =
      scanStructLoop spec t row rest (i + 1) fields1 alloc1 := by
  simp only [scanStructLoop, h]

theorem scanStructLoop_cons_some (spec : graphStructSpec) (t : StructType) (row : List graphRow)
    (key : String) (rest : List String) (i : Nat) (fields fields1 : List Value) (alloc alloc1 : Nat)
    (o : Outcome) (h : scanColumn spec t row key i fields alloc = ⟨some o, fields1, alloc1⟩) :
    scanStructLoop spec t row (key :: rest) i fields alloc = (o, fields1, alloc1) := by
  simp only [scanStructLoop, h]

/-- When every column agrees with its field and the record is separate, the
loop runs to the end, returns `nil`, and leaves in each matched field the
value bound from the last column of its name. -/
theorem scanStructLoop_agree (spec : graphStructSpec) (t : StructType) (row : List graphRow)
    (hinj : ∀ k1 k2 idx, spec.m.get k1 = some idx → spec.m.get k2 = some idx → k1 = k2) :
    ∀ (cols : List String) (i : Nat) (fields : List Value) (alloc : Nat),
      fields.length = t.fields.length → ColumnsFrom (columnAgrees spec t) row cols i →
      Separate fields alloc →
      ∃ fields2 alloc2, scanStructLoop spec t row cols i fields alloc = (.ok, fields2, alloc2) ∧
        fields2.length = fields.length ∧
        (∀ j, (∀ key ∈ cols, spec.m.get key ≠ some j) → fields2.get? j = fields.get? j) ∧
        (∀ n key c idx f, cols.get? n = some key → row.get? (i + n) = some c →
          spec.m.get key = some idx → t.fields.get? idx = some f →
          (∀ m key2, n < m → cols.get? m = some key2 → key2 ≠ key) →
          ∃ v, boundValue f.Typ.target c = some v ∧
            (fields2.get? idx).map Value.deref = some v) := by
  intro cols
  induction cols with
  | nil =>
    intro i fields alloc _ _ _
    exact ⟨fields, alloc, rfl, rfl, fun _ _ => rfl, by simp⟩
  | cons key rest ih =>
    intro i fields alloc hlen hcols hsep
    obtain ⟨c, hc, hP⟩ := hcols.head
    obtain ⟨idx, f, hk, hf, hexp, _, hwf, hag⟩ := (columnAgrees_iff spec t key c).mp hP
    have hidx : idx < fields.length := by
      rw [hlen]
      rw [List.get?_eq_getElem?] at hf
      exact (List.getElem?_eq_some_iff.mp hf).1
    obtain ⟨fields1, alloc1, heq, hlen1, hother, ⟨v, hb, hval⟩, hsep1⟩ :=
      scanColumn_agree spec t row key i fields alloc idx f c hk hf hidx hc hexp hwf hag hsep
    obtain ⟨fields2, alloc2, heq2, hlen2, hother2, hval2⟩ :=
      ih (i + 1) fields1 alloc1 (by rw [hlen1, hlen]) hcols.tail hsep1
    refine ⟨fields2, alloc2, ?_, by rw [hlen2, hlen1], ?_, ?_⟩
    · rw [scanStructLoop_cons_none _ _ _ _ _ _ _ _ _ _ heq, heq2]
    · intro j hj
      rw [hother2 j (fun k hkr => hj k (List.mem_cons_of_mem _ hkr))]
      apply hother
      intro hji
      exact hj key (List.mem_cons_self _ _) (by rw [hk, hji])
    · intro n key2 c2 idx2 f2 hn hc2 hk2 hf2 hlast
      cases n with
      | zero =>
        simp only [List.get?_cons_zero, Option.some.injEq] at hn
        subst hn
        rw [Nat.add_zero, hc] at hc2
        cases hc2
        rw [hk] at hk2
        cases hk2
        rw [hf] at hf2
        cases hf2
        refine ⟨v, hb, ?_⟩
        rw [hother2 idx ?_]
        · exact hval
        · intro k hkr hkk
          obtain ⟨m, hm⟩ := List.mem_iff_getElem?.mp hkr
          exact hlast (m + 1) k (Nat.succ_pos m) (by simpa using hm) (hinj k key idx hkk hk)
      | succ m =>
        apply hval2 m key2 c2 idx2 f2 (by simpa using hn) ?_ hk2 hf2
        · intro m2 key3 hm2 hk3
          exact hlast (m2 + 1) key3 (by omega) (by simpa using hk3)
        · rw [← hc2]; congr 1; omega

/-- When every column agrees with its field, the loop returns `nil`, whatever
the record holds. -/
theorem scanStructLoop_agree_ok (spec : graphStructSpec) (t : StructType) (row : List graphRow) :
    ∀ (cols : List String) (i : Nat) (fields : List Value) (alloc : Nat),
      fields.length = t.fields.length → ColumnsFrom (columnAgrees spec t) row cols i →
      (scanStructLoop spec t row cols i fields alloc).1 = .ok := by
  intro cols
  induction cols with
  | nil => intro i fields alloc _ _; rfl
  | cons key rest ih =>
    intro i fields alloc hlen hcols
    obtain ⟨c, hc, hP⟩ := hcols.head
    obtain ⟨idx, f, hk, hf, hexp, _, hwf, hag⟩ := (columnAgrees_iff spec t key c).mp hP
    have hidx : idx < fields.length := by
      rw [hlen]
      rw [List.get?_eq_getElem?] at hf
      exact (List.getElem?_eq_some_iff.mp hf).1
    obtain ⟨fv, v, -, -, heq⟩ :=
      scanColumn_agree_go spec t row key i fields alloc idx f c hk hf hidx hc hexp hwf hag
    rw [scanStructLoop_cons_none _ _ _ _ _ _ _ _ _ _ heq]
    exact ih (i + 1) _ _ (by rw [storeField_length, List.length_set, hlen]) hcols.tail

/-- When every column is matched to a settable field of a supported type and
some column carries a cell of the wrong kind, the loop stops with a type
mismatch. -/
theorem scanStructLoop_disagree (spec : graphStructSpec) (t : StructType) (row : List graphRow) :
    ∀ (cols : List String) (i : Nat) (fields : List Value) (alloc : Nat),
      fields.length = t.fields.length → ColumnsFrom (columnOK spec t) row cols i →
      (∃ n key c, cols.get? n = some key ∧ row.get? (i + n) = some c ∧
        columnAgrees spec t key c = false) →
      ∃ e fields2 alloc2, scanStructLoop spec t row cols i fields alloc =
          (.fault e, fields2, alloc2) ∧ e.faultClass = FaultClass.TypeMismatch := by
  intro cols
  induction cols with
  | nil =>
    intro i fields alloc _ _ h
    obtain ⟨n, key, c, hn, _⟩ := h
    simp at hn
  | cons key rest ih =>
    intro i fields alloc hlen hcols hbad
    obtain ⟨c, hc, hP⟩ := hcols.head
    obtain ⟨idx, f, hk, hf, hexp, hsup, hwf⟩ := (columnOK_iff spec t key c).mp hP
    have hidx : idx < fields.length := by
      rw [hlen]
      rw [List.get?_eq_getElem?] at hf
      exact (List.getElem?_eq_some_iff.mp hf).1
    cases hag : kindAgrees f.Typ.target c with
    | false =>
      obtain ⟨e, fields1, alloc1, heq, hcl⟩ :=
        scanColumn_disagree spec t row key i fields alloc idx f c hk hf hidx hc hexp hsup hag
      exact ⟨e, fields1, alloc1, scanStructLoop_cons_some _ _ _ _ _ _ _ _ _ _ _ heq, hcl⟩
    | true =>
      obtain ⟨fv, v, -, -, heq⟩ :=
        scanColumn_agree_go spec t row key i fields alloc idx f c hk hf hidx hc hexp hwf hag
      rw [scanStructLoop_cons_none _ _ _ _ _ _ _ _ _ _ heq]
      apply ih (i + 1) _ _ (by rw [storeField_length, List.length_set, hlen]) hcols.tail
      obtain ⟨n, key2, c2, hn, hc2, hbad2⟩ := hbad
      cases n with
      | zero =>
        simp only [List.get?_cons_zero, Option.some.injEq] at hn
        subst hn
        rw [Nat.add_zero, hc] at hc2
        cases hc2
        have := columnAgrees_false spec t key c idx f hk hf hP hbad2
        rw [hag] at this
        exact absurd this (by decide)
      | succ m =>
        refine ⟨m, key2, c2, by simpa using hn, ?_, hbad2⟩
        rw [← hc2]; congr 1; omega

/-! ## The outcome of a scan does not depend on addresses -/

theorem isNil_get_of_map_eq (fs fs2 : List Value)
    (h : fs.map Value.IsNil = fs2.map Value.IsNil) (idx : Nat) :
    (fs.get? idx).map Value.IsNil = (fs2.get? idx).map Value.IsNil := by
  have := congrArg (fun l => l.get? idx) h
  simpa [List.getElem?_map] using this

theorem allocIfNil_isNil (f : StructField) (fv fv2 : Value) (a b : Nat)
    (h : fv.IsNil = fv2.IsNil) :
    (allocIfNil f fv a).1.IsNil = (allocIfNil f fv2 b).1.IsNil := by
  unfold allocIfNil
  rw [h]
  split_ifs
  · rfl
  · exact h

theorem storeField_isNil (f : StructField) (idx : Nat) (fv fv2 v : Value)
    (fs fs2 : List Value) (h : fs.map Value.IsNil = fs2.map Value.IsNil)
    (hfv : fv.IsNil = fv2.IsNil) :
    (storeField f idx fv v fs).map Value.IsNil = (storeField f idx fv2 v fs2).map Value.IsNil := by
  have hmap : ∀ (a : Nat) (l : List Value),
      (l.map (Value.storeAt a v)).map Value.IsNil = l.map Value.IsNil := by
    intro a l
    simp [List.map_map, Function.comp_def, Value.storeAt_isNil]
  unfold storeField
  split_ifs
  · cases fv <;> cases fv2 <;> simp [Value.IsNil] at hfv <;>
      simp only [hmap, List.map_set, h]
  · simp only [List.map_set, h]

/-- Two runs of one loop iteration on records that are nil at the same places
end alike and leave records that are nil at the same places, whatever the
addresses in use. -/
theorem scanColumn_shape (spec : graphStructSpec) (t : StructType) (row : List graphRow)
    (key : String) (i : Nat) (fs fs2 : List Value) (a b : Nat)
    (h : fs.map Value.IsNil = fs2.map Value.IsNil) :
    (scanColumn spec t row key i fs a).outcome = (scanColumn spec t row key i fs2 b).outcome ∧
      (scanColumn spec t row key i fs a).fields.map Value.IsNil =
        (scanColumn spec t row key i fs2 b).fields.map Value.IsNil := by
  cases hk : spec.m.get key with
  | none => simp only [scanColumn, hk]; exact ⟨trivial, h⟩
  | some idx =>
    have hget := isNil_get_of_map_eq fs fs2 h idx
    cases hf : t.fields.get? idx with
    | none =>
      simp only [scanColumn, hk, hf]
      exact ⟨trivial, h⟩
    | some f =>
      cases hv : fs.get? idx with
      | none =>
        cases hv2 : fs2.get? idx with
        | none => simp only [scanColumn, hk, hf, hv, hv2]; exact ⟨trivial, h⟩
        | some fv2 => rw [hv, hv2] at hget; simp at hget
      | some fv =>
        cases hv2 : fs2.get? idx with
        | none => rw [hv, hv2] at hget; simp at hget
        | some fv2 =>
          rw [hv, hv2] at hget
          simp only [Option.map_some', Option.some.injEq] at hget
          have h1 := allocIfNil_isNil f fv fv2 a b hget
          have h3 : (fs.set idx (allocIfNil f fv a).1).map Value.IsNil =
              (fs2.set idx (allocIfNil f fv2 b).1).map Value.IsNil := by
            simp only [List.map_set, h, h1]
          have h2 := fun v => storeField_isNil f idx (allocIfNil f fv a).1
            (allocIfNil f fv2 b).1 v _ _ h3 h1
          simp only [scanColumn, hk, hf, hv, hv2, hget]
          cases hexp : f.exported <;> cases hr : row.get? i <;>
            simp only [Bool.not_true, Bool.not_false, Bool.and_true, Bool.and_false,
              Bool.false_eq_true, if_false, if_true]
          all_goals (try split_ifs)
          all_goals (try split)
          all_goals
            first
            | exact ⟨rfl, h⟩
            | exact ⟨trivial, h⟩
            | exact ⟨rfl, h3⟩
            | exact ⟨trivial, h3⟩
            | exact ⟨rfl, h2 _⟩

/-- The outcome of the loop is the same for records that are nil at the same
places, whatever the addresses in use. -/
theorem scanStructLoop_outcome_shape (spec : graphStructSpec) (t : StructType)
    (row : List graphRow) :
    ∀ (cols : List String) (i : Nat) (fs fs2 : List Value) (a b : Nat),
      fs.map Value.IsNil = fs2.map Value.IsNil →
      (scanStructLoop spec t row cols i fs a).1 = (scanStructLoop spec t row cols i fs2 b).1 := by
  intro cols
  induction cols with
  | nil => intro i fs fs2 a b _; rfl
  | cons key rest ih =>
    intro i fs fs2 a b h
    obtain ⟨ho, hs⟩ := scanColumn_shape spec t row key i fs fs2 a b h
    rcases h1 : scanColumn spec t row key i fs a with ⟨o1, f1, a1⟩
    rcases h2 : scanColumn spec t row key i fs2 b with ⟨o2, f2, a2⟩
    rw [h1, h2] at ho hs
    simp only at ho hs
    subst ho
    cases o1 with
    | none =>
      rw [scanStructLoop_cons_none _ _ _ _ _ _ _ _ _ _ h1,
        scanStructLoop_cons_none _ _ _ _ _ _ _ _ _ _ h2]
      exact ih (i + 1) f1 f2 a1 a2 hs
    | some o =>
      rw [scanStructLoop_cons_some _ _ _ _ _ _ _ _ _ _ _ h1,
        scanStructLoop_cons_some _ _ _ _ _ _ _ _ _ _ _ h2]

/-- The error `scanStruct` returns does not depend on the next unused address. -/
theorem scanStruct_outcome_alloc (g : GraphResult) (spec : graphStructSpec) (t : StructType)
    (fields : List Value) (a b : Nat) (row : List graphRow) :
    (scanStruct g spec t fields a row).1 = (scanStruct g spec t fields b row).1 :=
  scanStructLoop_outcome_shape spec t row g.field 0 fields fields a b rfl

/-! ## The spec cache -/

theorem graphStructCache_spec (cache : Cache) (t : StructType) (h : CacheOK cache) :
    (graphStructCache cache t).1 = newStructSpec t "redis" ∧
      CacheOK (graphStructCache cache t).2 := by
  unfold graphStructCache
  cases hl : List.lookup t cache with
  | some v => exact ⟨h t v hl, h⟩
  | none =>
    refine ⟨rfl, ?_⟩
    intro t2 spec2 h2
    simp only [List.lookup_cons] at h2
    cases hb : (t2 == t) with
    | true =>
      rw [hb] at h2
      have : t2 = t := by simpa using hb
      cases h2
      rw [this]
    | false =>
      rw [hb] at h2
      exact h t2 spec2 h2

theorem CacheOK_nil : CacheOK [] := by
  intro t spec h
  simp [List.lookup] at h

/-! ## Scanning all rows -/

theorem scanStructSliceLoop_cons_ok (g : GraphResult) (spec : graphStructSpec) (t : StructType)
    (elemIsPtr : Bool) (row : List graphRow) (rest : List (List graphRow)) (items : List Item)
    (alloc : Nat) (h : (scanStruct g spec t (zeroRecord t) (alloc + 1) row).1 = .ok) :
    scanStructSliceLoop g spec t elemIsPtr (row :: rest) items alloc =
      scanStructSliceLoop g spec t elemIsPtr rest
        (items ++ [newItem elemIsPtr alloc (scanStruct g spec t (zeroRecord t) (alloc + 1) row).2.1])
        (scanStruct g spec t (zeroRecord t) (alloc + 1) row).2.2 := by
  rcases hs : scanStruct g spec t (zeroRecord t) (alloc + 1) row with ⟨o, f1, a1⟩
  rw [hs] at h
  simp only at h
  subst h
  simp only [scanStructSliceLoop, hs]

theorem scanStructSliceLoop_cons_fault (g : GraphResult) (spec : graphStructSpec) (t : StructType)
    (elemIsPtr : Bool) (row : List graphRow) (rest : List (List graphRow)) (items : List Item)
    (alloc : Nat) (e : GraphError)
    (h : (scanStruct g spec t (zeroRecord t) (alloc + 1) row).1 = .fault e) :
    scanStructSliceLoop g spec t elemIsPtr (row :: rest) items alloc =
      (.fault e, items, (scanStruct g spec t (zeroRecord t) (alloc + 1) row).2.2) := by
  rcases hs : scanStruct g spec t (zeroRecord t) (alloc + 1) row with ⟨o, f1, a1⟩
  rw [hs] at h
  simp only at h
  subst h
  simp only [scanStructSliceLoop, hs]

/-- The row loop over rows `pre ++ rest`, where every row of `pre` binds without
fault: it appends one element per row of `pre`, in order, and goes on with
`rest`. -/
theorem scanStructSliceLoop_append (g : GraphResult) (spec : graphStructSpec) (t : StructType)
    (elemIsPtr : Bool) (rest : List (List graphRow)) :
    ∀ (pre : List (List graphRow)) (items : List Item) (alloc : Nat),
      (∀ row ∈ pre, ∀ a, (scanStruct g spec t (zeroRecord t) a row).1 = .ok) →
      ∃ new alloc2,
        scanStructSliceLoop g spec t elemIsPtr (pre ++ rest) items alloc =
          scanStructSliceLoop g spec t elemIsPtr rest (items ++ new) alloc2 ∧
        new.length = pre.length ∧
        ∀ j row, pre.get? j = some row → ∃ a, new.get? j =
          some (if elemIsPtr then
            Item.ptrTo a (scanStruct g spec t (zeroRecord t) (a + 1) row).2.1
          else
            Item.val (scanStruct g spec t (zeroRecord t) (a + 1) row).2.1) := by
  intro pre
  induction pre with
  | nil =>
    intro items alloc _
    exact ⟨[], alloc, by simp, rfl, by simp⟩
  | cons row pre ih =>
    intro items alloc hok
    have h1 := hok row (List.mem_cons_self _ _) (alloc + 1)
    obtain ⟨new, alloc2, heq, hlen, hitems⟩ :=
      ih (items ++ [newItem elemIsPtr alloc (scanStruct g spec t (zeroRecord t) (alloc + 1) row).2.1])
        (scanStruct g spec t (zeroRecord t) (alloc + 1) row).2.2
        (fun r hr => hok r (List.mem_cons_of_mem _ hr))
    refine ⟨newItem elemIsPtr alloc (scanStruct g spec t (zeroRecord t) (alloc + 1) row).2.1 :: new,
      alloc2, ?_, by simp [hlen], ?_⟩
    · rw [List.cons_append, scanStructSliceLoop_cons_ok _ _ _ _ _ _ _ _ h1, heq]
      simp
    · intro j r hj
      cases j with
      | zero =>
        simp only [List.get?_cons_zero, Option.some.injEq] at hj
        subst hj
        exact ⟨alloc, rfl⟩
      | succ m => simpa using hitems m r (by simpa using hj)

theorem RowsScan_slice (g : GraphResult) (cache : Cache) (alloc : Nat) (elem : ElemType)
    (items : List Item) (t : StructType)
    (hdata : g.noData = false) (hcache : CacheOK cache) (helem : elem.structOf = some t) :
    g.RowsScan cache alloc (.ptr (.slice elem items)) =
      ⟨(scanStructSliceLoop g (newStructSpec t "redis") t elem.isPtr g.rows items alloc).1,
        .ptr (.slice elem
          (scanStructSliceLoop g (newStructSpec t "redis") t elem.isPtr g.rows items alloc).2.1),
        (graphStructCache cache t).2,
        (scanStructSliceLoop g (newStructSpec t "redis") t elem.isPtr g.rows items alloc).2.2⟩ := by
  have hspec := (graphStructCache_spec cache t hcache).1
  simp only [GraphResult.RowsScan, hdata, graphStructSlice, helem, scanStructSlice, hspec]
  simp

theorem RowScan_struct (g : GraphResult) (cache : Cache) (alloc : Nat) (t : StructType)
    (fields : List Value) (row : List graphRow) (rest : List (List graphRow))
    (hdata : g.noData = false) (hcache : CacheOK cache) (hrows : g.rows = row :: rest) :
    g.RowScan cache alloc (.ptr (.struct t fields)) =
      ⟨(scanStruct g (newStructSpec t "redis") t fields alloc row).1,
        .ptr (.struct t (scanStruct g (newStructSpec t "redis") t fields alloc row).2.1),
        (graphStructCache cache t).2,
        (scanStruct g (newStructSpec t "redis") t fields alloc row).2.2⟩ := by
  have hspec := (graphStructCache_spec cache t hcache).1
  simp only [GraphResult.RowScan, hdata, graphStruct, hrows, hspec]
  simp

/-- A column the spec does not know ends the scan at once (line 280): the
later columns are not looked at. -/
theorem scanStruct_unmatched_head (g : GraphResult) (spec : graphStructSpec) (t : StructType)
    (fields : List Value) (alloc : Nat) (row : List graphRow) (key : String) (rest : List String)
    (hcols : g.field = key :: rest) (hk : spec.m.get key = none) :
    scanStruct g spec t fields alloc row = (.ok, fields, alloc) := by
  simp [scanStruct, scanStructLoop, hcols, scanColumn, hk]

/-! ## C1 -/

/-- C1 (code defect): `RowScan` of the columns `id`, `name` with the row
`(7, "pod1")` into a record whose only tagged field is `name` returns no
fault, yet the name field is left empty: the loop returns at the unmatched
column `id` (line 280) and never reaches `name`.  With the columns in the
order `name`, `id` the same record does receive `"pod1"`. -/
theorem C1_unmatched_column_ends_scan :
    (resIdName.RowScan [] 0 (.ptr (.struct tOnlyName [.str ""]))).outcome = .ok ∧
    (resIdName.RowScan [] 0 (.ptr (.struct tOnlyName [.str ""]))).dest =
      .ptr (.struct tOnlyName [.str ""]) ∧
    (resNameId.RowScan [] 0 (.ptr (.struct tOnlyName [.str ""]))).dest =
      .ptr (.struct tOnlyName [.str "pod1"]) := by
  decide

/-! ## C2 -/

/-- C2, counterexample: the integer 300 scanned into an `int8` field, the only
column matching the only field and the cell being Basic.  No fault, and the
field holds 44, which is not `Int()` of the scalar (300). -/
theorem C2_counterexample_int8 :
    scanStruct (resN [[cellInt 300]]) (newStructSpec tSmall "redis") tSmall [.int 0] 0
        [cellInt 300] = (.ok, [.int 44], 0) ∧
    Value.int 44 ≠ Value.int (GraphData.Int ⟨graphInteger, 300, ""⟩) := by
  decide

/-- C2 (amended): when the row is aligned and every column is matched by the
spec of `t` to a settable field of a supported type whose kind agrees with
the (well-formed) cell, `scanStruct` returns no fault.  When moreover the
pointer fields of the record point to cells of their own (`Separate`), every
matched field holds afterwards, behind its pointer if it is one, the value
bound from its cell (the cell of the last column of that name, should a name
occur twice): `Bool()`, `Int()` reduced to the field's width, `Float64()`
(narrowed for `float32`), `String()`, or the node or edge of the cell. -/
theorem C2_agreeing_row_binds_every_column (g : GraphResult) (t : StructType)
    (fields : List Value) (alloc : Nat) (row : List graphRow)
    (hfields : fields.length = t.fields.length)
    (hrow : row.length = g.field.length)
    (hall : ∀ kc ∈ g.field.zip row, columnAgrees (newStructSpec t "redis") t kc.1 kc.2 = true) :
    (scanStruct g (newStructSpec t "redis") t fields alloc row).1 = .ok ∧
    (Separate fields alloc →
      ∀ n key c idx f, g.field.get? n = some key → row.get? n = some c →
        (newStructSpec t "redis").m.get key = some idx → t.fields.get? idx = some f →
        (∀ m key2, n < m → g.field.get? m = some key2 → key2 ≠ key) →
        ∃ v, boundValue f.Typ.target c = some v ∧
          ((scanStruct g (newStructSpec t "redis") t fields alloc row).2.1.get? idx).map
            Value.deref = some v) := by
  refine ⟨scanStructLoop_agree_ok (newStructSpec t "redis") t row g.field 0 fields alloc hfields
    (ColumnsFrom.of_zip hrow hall), ?_⟩
  intro hsep
  obtain ⟨fields2, alloc2, heq, -, -, hval⟩ :=
    scanStructLoop_agree (newStructSpec t "redis") t row
      (fun k1 k2 idx h1 h2 => newStructSpec_inj t "redis" k1 k2 idx h1 h2)
      g.field 0 fields alloc hfields (ColumnsFrom.of_zip hrow hall) hsep
  unfold scanStruct
  rw [heq]
  intro n key c idx f hn hc hk hf hlast
  exact hval n key c idx f hn (by simpa using hc) hk hf hlast

/-- C2, witness: the test's row `(srcid, dstid, edge)` scanned into `MyEdge`. -/
theorem C2_witness_MyEdge :
    Separate (zeroRecord tMyEdge) 0 ∧
    (scanStruct resMyEdge (newStructSpec tMyEdge "redis") tMyEdge (zeroRecord tMyEdge) 0
        [cellText "x1", cellText "x2", cellEdge linkEdge]).1 = .ok ∧
    (Separate (zeroRecord tMyEdge) 0 →
      ∀ n key c idx f, resMyEdge.field.get? n = some key →
        [cellText "x1", cellText "x2", cellEdge linkEdge].get? n = some c →
        (newStructSpec tMyEdge "redis").m.get key = some idx → tMyEdge.fields.get? idx = some f →
        (∀ m key2, n < m → resMyEdge.field.get? m = some key2 → key2 ≠ key) →
        ∃ v, boundValue f.Typ.target c = some v ∧
          ((scanStruct resMyEdge (newStructSpec tMyEdge "redis") tMyEdge (zeroRecord tMyEdge) 0
            [cellText "x1", cellText "x2", cellEdge linkEdge]).2.1.get? idx).map
            Value.deref = some v) :=
  ⟨by decide,
    C2_agreeing_row_binds_every_column resMyEdge tMyEdge (zeroRecord tMyEdge) 0
      [cellText "x1", cellText "x2", cellEdge linkEdge] (by decide) (by decide) (by decide)⟩

/-- The row `(7, "pod1")` under the columns `id`, `name` scanned into the
fields `id:int`, `name:text`. -/
theorem scanStruct_IdName_example :
    scanStruct resIdName (newStructSpec tIdName "redis") tIdName (zeroRecord tIdName) 0
      [cellInt 7, cellText "pod1"] = (.ok, [.int 7, .str "pod1"], 0) := by
  decide

/-! ## C3 -/

/-- C3, counterexample: two rows into an empty slice of `Count`, the second
row carrying a node where an integer field is bound.  `RowsScan` returns the
fault, and the destination is not what it was: the record bound from the
first row has been appended. -/
theorem C3_counterexample_rows_kept :
    ((resN [[cellInt 1], [cellNode plainNode]]).RowsScan [] 0
        (.ptr (.slice (.struct tCount) []))).outcome = .fault .cannotScanInto ∧
    ((resN [[cellInt 1], [cellNode plainNode]]).RowsScan [] 0
        (.ptr (.slice (.struct tCount) []))).dest =
      .ptr (.slice (.struct tCount) [.val [.int 1]]) ∧
    ((resN [[cellInt 1], [cellNode plainNode]]).RowsScan [] 0
        (.ptr (.slice (.struct tCount) []))).dest ≠ .ptr (.slice (.struct tCount) []) := by
  decide

/-- C3 (amended): for a result set with data and a destination slice of
structs or of pointers to structs, if the rows `pre` bind without fault and
the next row `bad` raises the fault `e`, then `RowsScan` returns `e` (the
first fault met) and the destination holds its former elements followed by
one element per row of `pre`, in row order: the struct that results from
scanning the row into a new zero struct, for a slice of structs, and a pointer
to that struct, for a slice of pointers.  Nothing is appended for `bad` or for
the rows after it. -/
theorem C3_fault_keeps_preceding_rows (g : GraphResult) (cache : Cache) (alloc : Nat)
    (elem : ElemType) (items : List Item) (t : StructType)
    (pre post : List (List graphRow)) (bad : List graphRow) (e : GraphError)
    (hdata : g.noData = false) (hcache : CacheOK cache) (helem : elem.structOf = some t)
    (hrows : g.rows = pre ++ bad :: post)
    (hpre : ∀ row ∈ pre,
      (scanStruct g (newStructSpec t "redis") t (zeroRecord t) 0 row).1 = .ok)
    (hbad : (scanStruct g (newStructSpec t "redis") t (zeroRecord t) 0 bad).1 = .fault e) :
    (g.RowsScan cache alloc (.ptr (.slice elem items))).outcome = .fault e ∧
    ∃ new, (g.RowsScan cache alloc (.ptr (.slice elem items))).dest =
        .ptr (.slice elem (items ++ new)) ∧
      new.length = pre.length ∧
      ∀ j row, pre.get? j = some row → ∃ a, new.get? j =
        some (if elem.isPtr then
          Item.ptrTo a (scanStruct g (newStructSpec t "redis") t (zeroRecord t) (a + 1) row).2.1
        else
          Item.val (scanStruct g (newStructSpec t "redis") t (zeroRecord t) (a + 1) row).2.1) := by
  rw [RowsScan_slice g cache alloc elem items t hdata hcache helem, hrows]
  obtain ⟨new, alloc2, heq, hlen, hitems⟩ :=
    scanStructSliceLoop_append g (newStructSpec t "redis") t elem.isPtr (bad :: post) pre items
      alloc (fun row hrow a => by rw [scanStruct_outcome_alloc _ _ _ _ a 0]; exact hpre row hrow)
  rw [heq, scanStructSliceLoop_cons_fault _ _ _ _ _ _ _ _ e
    (by rw [scanStruct_outcome_alloc _ _ _ _ _ 0]; exact hbad)]
  exact ⟨rfl, new, rfl, hlen, hitems⟩

/-- C3, witness: an integer row followed by a node row, into a slice that
already holds one element. -/
theorem C3_witness :
    ((resN [[cellInt 1], [cellNode plainNode]]).RowsScan [] 0
        (.ptr (.slice (.struct tCount) [.val [.int 9]]))).outcome = .fault .cannotScanInto ∧
    ∃ new, ((resN [[cellInt 1], [cellNode plainNode]]).RowsScan [] 0
        (.ptr (.slice (.struct tCount) [.val [.int 9]]))).dest =
        .ptr (.slice (.struct tCount) ([.val [.int 9]] ++ new)) ∧
      new.length = [[cellInt 1]].length ∧
      ∀ j row, [[cellInt 1]].get? j = some row → ∃ a, new.get? j =
        some (if (ElemType.struct tCount).isPtr then
          Item.ptrTo a (scanStruct (resN [[cellInt 1], [cellNode plainNode]]) (newStructSpec tCount "redis") tCount
              (zeroRecord tCount) (a + 1) row).2.1
        else
          Item.val (scanStruct (resN [[cellInt 1], [cellNode plainNode]]) (newStructSpec tCount "redis") tCount
              (zeroRecord tCount) (a + 1) row).2.1) :=
  C3_fault_keeps_preceding_rows (resN [[cellInt 1], [cellNode plainNode]]) [] 0
    (.struct tCount) [.val [.int 9]] tCount [[cellInt 1]] [] [cellNode plainNode]
    .cannotScanInto (by decide) CacheOK_nil rfl rfl (by decide) (by decide)

/-! ## C4 -/

/-- C4, counterexample: three rows that bind without fault, scanned into a
slice of `Count` that already holds one element.  No fault, and the
destination holds four elements, not three. -/
theorem C4_counterexample_appends :
    ((resN [[cellInt 1], [cellInt 2], [cellInt 3]]).RowsScan [] 0
        (.ptr (.slice (.struct tCount) [.val [.int 9]]))).outcome = .ok ∧
    ((resN [[cellInt 1], [cellInt 2], [cellInt 3]]).RowsScan [] 0
        (.ptr (.slice (.struct tCount) [.val [.int 9]]))).dest =
      .ptr (.slice (.struct tCount) [.val [.int 9], .val [.int 1], .val [.int 2], .val [.int 3]]) ∧
    [Item.val [.int 9], .val [.int 1], .val [.int 2], .val [.int 3]].length = 4 := by
  decide

/-- C4 (amended): for a result set with data whose rows all bind without
fault, and a destination slice of structs or of pointers to structs,
`RowsScan` returns no fault and the destination holds its former elements
followed by exactly one element per row, the `j`-th being the struct that
results from scanning the `j`-th row into a new zero struct (for a slice of
structs) or a pointer to that struct (for a slice of pointers).  A destination
that was empty therefore ends with exactly as many elements as there are
rows. -/
theorem C4_all_rows_appended_in_order (g : GraphResult) (cache : Cache) (alloc : Nat)
    (elem : ElemType) (items : List Item) (t : StructType)
    (hdata : g.noData = false) (hcache : CacheOK cache) (helem : elem.structOf = some t)
    (hok : ∀ row ∈ g.rows,
      (scanStruct g (newStructSpec t "redis") t (zeroRecord t) 0 row).1 = .ok) :
    (g.RowsScan cache alloc (.ptr (.slice elem items))).outcome = .ok ∧
    ∃ new, (g.RowsScan cache alloc (.ptr (.slice elem items))).dest =
        .ptr (.slice elem (items ++ new)) ∧
      new.length = g.Len ∧
      ∀ j row, g.rows.get? j = some row → ∃ a, new.get? j =
        some (if elem.isPtr then
          Item.ptrTo a (scanStruct g (newStructSpec t "redis") t (zeroRecord t) (a + 1) row).2.1
        else
          Item.val (scanStruct g (newStructSpec t "redis") t (zeroRecord t) (a + 1) row).2.1) := by
  rw [RowsScan_slice g cache alloc elem items t hdata hcache helem]
  obtain ⟨new, alloc2, heq, hlen, hitems⟩ :=
    scanStructSliceLoop_append g (newStructSpec t "redis") t elem.isPtr [] g.rows items
      alloc (fun row hrow a => by rw [scanStruct_outcome_alloc _ _ _ _ a 0]; exact hok row hrow)
  rw [List.append_nil] at heq
  rw [heq]
  exact ⟨rfl, new, rfl, hlen, hitems⟩

/-- C4, witness: three rows into an empty slice of `Count`. -/
theorem C4_witness_three_rows :
    ((resN [[cellInt 1], [cellInt 2], [cellInt 3]]).RowsScan [] 0
        (.ptr (.slice (.struct tCount) []))).outcome = .ok ∧
    ∃ new, ((resN [[cellInt 1], [cellInt 2], [cellInt 3]]).RowsScan [] 0
        (.ptr (.slice (.struct tCount) []))).dest =
        .ptr (.slice (.struct tCount) ([] ++ new)) ∧
      new.length = (resN [[cellInt 1], [cellInt 2], [cellInt 3]]).Len ∧
      ∀ j row, (resN [[cellInt 1], [cellInt 2], [cellInt 3]]).rows.get? j = some row →
        ∃ a, new.get? j =
          some (if (ElemType.struct tCount).isPtr then
            Item.ptrTo a (scanStruct (resN [[cellInt 1], [cellInt 2], [cellInt 3]]) (newStructSpec tCount "redis") tCount
                (zeroRecord tCount) (a + 1) row).2.1
          else
            Item.val (scanStruct (resN [[cellInt 1], [cellInt 2], [cellInt 3]]) (newStructSpec tCount "redis") tCount
                (zeroRecord tCount) (a + 1) row).2.1) :=
  C4_all_rows_appended_in_order (resN [[cellInt 1], [cellInt 2], [cellInt 3]]) [] 0
    (.struct tCount) [] tCount (by decide) CacheOK_nil rfl (by decide)

theorem noData_of_noResult (g : GraphResult) (h : g.noResult = true) : g.noData = true := by
  simp [GraphResult.noData, h]

theorem noData_of_rows_nil (g : GraphResult) (h : g.rows = []) : g.noData = true := by
  simp [GraphResult.noData, h]

/-! ## C5 -/

/-- C5: a result set without projection (`noResult`), whatever else it holds:
`IsResult` is false, `Row` and `Rows` return `nil`, and `RowScan` and
`RowsScan` return `redis.Nil`, of class Empty, for every destination, well
formed or not, leaving the destination (and the cache) as they were. -/
theorem C5_no_projection_reports_empty (g : GraphResult) (h : g.noResult = true) :
    g.IsResult = false ∧ g.Row = some none ∧ g.Rows = some none ∧
    GraphError.Nil.faultClass = FaultClass.Empty ∧
    ∀ (cache : Cache) (alloc : Nat) (dest : Dest),
      g.RowScan cache alloc dest = ⟨.fault .Nil, dest, cache, alloc⟩ ∧
      g.RowsScan cache alloc dest = ⟨.fault .Nil, dest, cache, alloc⟩ := by
  have hd := noData_of_noResult g h
  refine ⟨by simp [GraphResult.IsResult, h], by simp [GraphResult.Row, hd],
    by simp [GraphResult.Rows, hd], rfl, ?_⟩
  intro cache alloc dest
  exact ⟨by simp [GraphResult.RowScan, hd], by simp [GraphResult.RowsScan, hd]⟩

/-- C5, witness: a response without projection that still carries columns and a
row. -/
theorem C5_witness :
    (⟨true, ["done"], ["n"], [[cellInt 1]], none⟩ : GraphResult).IsResult = false ∧
    (⟨true, ["done"], ["n"], [[cellInt 1]], none⟩ : GraphResult).Row = some none ∧
    (⟨true, ["done"], ["n"], [[cellInt 1]], none⟩ : GraphResult).Rows = some none ∧
    GraphError.Nil.faultClass = FaultClass.Empty ∧
    ∀ (cache : Cache) (alloc : Nat) (dest : Dest),
      (⟨true, ["done"], ["n"], [[cellInt 1]], none⟩ : GraphResult).RowScan cache alloc dest =
        ⟨.fault .Nil, dest, cache, alloc⟩ ∧
      (⟨true, ["done"], ["n"], [[cellInt 1]], none⟩ : GraphResult).RowsScan cache alloc dest =
        ⟨.fault .Nil, dest, cache, alloc⟩ :=
  C5_no_projection_reports_empty ⟨true, ["done"], ["n"], [[cellInt 1]], none⟩ rfl

/-! ## C6 -/

/-- C6: a result set with a projection and zero rows, with any columns:
`IsResult` is true, `Row` returns `nil` and `RowScan` returns `redis.Nil` for
every destination.  A result set `g2` without projection gives the same `Row`
and the same `RowScan`, and differs in `IsResult` alone. -/
theorem C6_empty_projection_is_result (g : GraphResult) (hp : g.noResult = false)
    (hr : g.rows = []) :
    g.IsResult = true ∧ g.Row = some none ∧
    (∀ (cache : Cache) (alloc : Nat) (dest : Dest),
      g.RowScan cache alloc dest = ⟨.fault .Nil, dest, cache, alloc⟩) ∧
    ∀ g2 : GraphResult, g2.noResult = true →
      g2.IsResult = false ∧ g2.Row = g.Row ∧
      ∀ (cache : Cache) (alloc : Nat) (dest : Dest),
        g2.RowScan cache alloc dest = g.RowScan cache alloc dest := by
  have hd := noData_of_rows_nil g hr
  refine ⟨by simp [GraphResult.IsResult, hp], by simp [GraphResult.Row, hd],
    fun cache alloc dest => by simp [GraphResult.RowScan, hd], ?_⟩
  intro g2 h2
  have hd2 := noData_of_noResult g2 h2
  refine ⟨by simp [GraphResult.IsResult, h2], by simp [GraphResult.Row, hd, hd2], ?_⟩
  intro cache alloc dest
  simp [GraphResult.RowScan, hd, hd2]

/-- C6, witness: columns `id`, `name` and no row. -/
theorem C6_witness :
    (⟨false, [], ["id", "name"], [], none⟩ : GraphResult).IsResult = true ∧
    (⟨false, [], ["id", "name"], [], none⟩ : GraphResult).Row = some none ∧
    (∀ (cache : Cache) (alloc : Nat) (dest : Dest),
      (⟨false, [], ["id", "name"], [], none⟩ : GraphResult).RowScan cache alloc dest =
        ⟨.fault .Nil, dest, cache, alloc⟩) ∧
    ∀ g2 : GraphResult, g2.noResult = true →
      g2.IsResult = false ∧ g2.Row = (⟨false, [], ["id", "name"], [], none⟩ : GraphResult).Row ∧
      ∀ (cache : Cache) (alloc : Nat) (dest : Dest),
        g2.RowScan cache alloc dest =
          (⟨false, [], ["id", "name"], [], none⟩ : GraphResult).RowScan cache alloc dest :=
  C6_empty_projection_is_result ⟨false, [], ["id", "name"], [], none⟩ rfl rfl

/-! ## C7 -/

/-- C7, counterexample: a field tagged `-,omitempty` is not left out.  The text
before the first comma of its tag is `-`, and the spec holds its position
under the key `-`. -/
theorem C7_counterexample_dash_with_modifier :
    (tDash.fields.get? 0).map (fun f => splitFirst (f.TagGet "redis")) = some "-" ∧
    (newStructSpec tDash "redis").m.get "-" = some 0 := by
  decide

/-- C7 (amended): a field whose whole tag is `-` contributes no entry to the
spec built by `newStructSpec`.  A field tagged `-,mods` is not left out: when
it is exported, its position is stored under the key `-`, unless a later
participating field takes that key. -/
theorem C7_only_exact_dash_is_excluded (t : StructType) (i : Nat) (f : StructField)
    (hf : t.fields.get? i = some f) :
    (f.TagGet "redis" = "-" → ∀ key, (newStructSpec t "redis").m.get key ≠ some i) ∧
    ∀ mods : String, f.TagGet "redis" = "-," ++ mods → f.exported = true →
      (∀ j f2, i < j → t.fields.get? j = some f2 → participates t "redis" f2 = true →
        splitFirst (f2.TagGet "redis") ≠ "-") →
      (newStructSpec t "redis").m.get "-" = some i := by
  constructor
  · intro htag key h
    obtain ⟨f2, hf2, hp, -⟩ := newStructSpec_sound t "redis" key i h
    rw [hf] at hf2
    cases hf2
    simp [participates, htag] at hp
  · intro mods htag hexp hlast
    have hkey : splitFirst (f.TagGet "redis") = "-" := by
      rw [htag]; exact splitFirst_dash_comma mods
    have hne : f.TagGet "redis" ≠ "" ∧ f.TagGet "redis" ≠ "-" := by
      rw [htag]
      constructor <;> intro h <;> have := congrArg String.data h <;>
        simp [String.data_append] at this
    have hp : participates t "redis" f = true := by
      simp [participates, hexp, hkey, hne.1, hne.2]
    have := newStructSpec_last t "redis" i f hf hp (by rw [hkey]; exact hlast)
    rw [hkey] at this
    exact this

/-- C7, witness: the only field of `Dash`, tagged `-,omitempty`. -/
theorem C7_witness :
    ((taggedField "Skip" "-,omitempty" .string).TagGet "redis" = "-" →
      ∀ key, (newStructSpec tDash "redis").m.get key ≠ some 0) ∧
    ∀ mods : String, (taggedField "Skip" "-,omitempty" .string).TagGet "redis" = "-," ++ mods →
      (taggedField "Skip" "-,omitempty" .string).exported = true →
      (∀ j f2, 0 < j → tDash.fields.get? j = some f2 → participates tDash "redis" f2 = true →
        splitFirst (f2.TagGet "redis") ≠ "-") →
      (newStructSpec tDash "redis").m.get "-" = some 0 :=
  C7_only_exact_dash_is_excluded tDash 0 (taggedField "Skip" "-,omitempty" .string) (by decide)

/-! ## C8 -/

/-- C8, counterexample: the record `Outer` embeds the unexported struct type
`inner` under the tag `x`.  The spec stores position 0 under `x`, and the
field at position 0 is not exported. -/
theorem C8_counterexample_embedded_unexported :
    (newStructSpec tEmbed "redis").m.get "x" = some 0 ∧
    (tEmbed.fields.get? 0).map (fun f => (f.exported, f.Anonymous)) = some (false, true) := by
  decide

/-- C8 (amended): in the spec built by `newStructSpec`, a field that is
neither exported nor anonymous has no entry.  An anonymous (embedded) field of
struct type, or of pointer to struct type, with a usable tag is stored under
its key whether it is exported or not, unless a later participating field
takes that key. -/
theorem C8_unexported_named_fields_excluded (t : StructType) (i : Nat) (f : StructField)
    (hf : t.fields.get? i = some f) :
    (f.exported = false → f.Anonymous = false →
      ∀ key, (newStructSpec t "redis").m.get key ≠ some i) ∧
    (f.Anonymous = true → f.Typ.target.Kind = Kind.Struct →
      f.TagGet "redis" ≠ "" → f.TagGet "redis" ≠ "-" → splitFirst (f.TagGet "redis") ≠ "" →
      (∀ j f2, i < j → t.fields.get? j = some f2 → participates t "redis" f2 = true →
        splitFirst (f2.TagGet "redis") ≠ splitFirst (f.TagGet "redis")) →
      (newStructSpec t "redis").m.get (splitFirst (f.TagGet "redis")) = some i) := by
  constructor
  · intro hexp hanon key h
    obtain ⟨f2, hf2, hp, -⟩ := newStructSpec_sound t "redis" key i h
    rw [hf] at hf2
    cases hf2
    simp [participates, hexp, hanon] at hp
  · intro hanon _ h1 h2 h3 hlast
    have hp : participates t "redis" f = true := by
      simp [participates, hanon, StructType.Kind, h1, h2, h3]
    exact newStructSpec_last t "redis" i f hf hp hlast

/-- C8, witness: the embedded field of `Outer`, of the unexported struct type
`inner`. -/
theorem C8_witness :
    (embeddedInner.exported = false → embeddedInner.Anonymous = false →
      ∀ key, (newStructSpec tEmbed "redis").m.get key ≠ some 0) ∧
    (embeddedInner.Anonymous = true → embeddedInner.Typ.target.Kind = Kind.Struct →
      embeddedInner.TagGet "redis" ≠ "" → embeddedInner.TagGet "redis" ≠ "-" →
      splitFirst (embeddedInner.TagGet "redis") ≠ "" →
      (∀ j f2, 0 < j → tEmbed.fields.get? j = some f2 → participates tEmbed "redis" f2 = true →
        splitFirst (f2.TagGet "redis") ≠ splitFirst (embeddedInner.TagGet "redis")) →
      (newStructSpec tEmbed "redis").m.get (splitFirst (embeddedInner.TagGet "redis")) =
        some 0) :=
  C8_unexported_named_fields_excluded tEmbed 0 embeddedInner (by decide)

/-! ## C9 -/

/-- C9, counterexample: a map field and a node cell.  The fault is the one of
line 298, a type mismatch, not an unsupported-field fault; with a Basic cell
the same field gives the unsupported-field fault of line 340. -/
theorem C9_counterexample_map_field_node_cell :
    (scanStruct ⟨false, [], ["m"], [[cellNode plainNode]], none⟩ (newStructSpec tAttrs "redis")
        tAttrs [.blob] 0 [cellNode plainNode]).1 = .fault .cannotScanInto ∧
    GraphError.cannotScanInto.faultClass = FaultClass.TypeMismatch ∧
    (scanStruct ⟨false, [], ["m"], [[cellInt 1]], none⟩ (newStructSpec tAttrs "redis")
        tAttrs [.blob] 0 [cellInt 1]).1 = .fault .unsupportedKind ∧
    GraphError.unsupportedKind.faultClass = FaultClass.UnsupportedField := by
  decide

/-- C9 (amended): when the first column is matched to a settable field whose
type (behind its pointer, if it is one) is none of the supported ones,
`scanStruct` returns a fault whatever the cell is.  The fault is an
unsupported-field fault when the cell is Basic or the field is a struct; it
is the type mismatch of line 298 when the field is not a struct and the cell
is not Basic. -/
theorem C9_unsupported_field_always_faults (g : GraphResult) (spec : graphStructSpec)
    (t : StructType) (fields : List Value) (alloc : Nat) (row : List graphRow)
    (key : String) (rest : List String) (idx : Nat) (f : StructField) (c : graphRow)
    (hcols : g.field = key :: rest) (hk : spec.m.get key = some idx)
    (hf : t.fields.get? idx = some f) (hidx : idx < fields.length)
    (hc : row.get? 0 = some c) (hexp : f.exported = true)
    (hsup : supported f.Typ.target = false) :
    ∃ e, (scanStruct g spec t fields alloc row).1 = .fault e ∧
      ((f.Typ.target.Kind = Kind.Struct ∨ c.typ = graphResultBasic) →
        e.faultClass = FaultClass.UnsupportedField) ∧
      ((f.Typ.target.Kind ≠ Kind.Struct ∧ c.typ ≠ graphResultBasic) →
        e.faultClass = FaultClass.TypeMismatch) := by
  obtain ⟨fv, hfv⟩ : ∃ fv, fields.get? idx = some fv := by
    rw [List.get?_eq_get hidx]; exact ⟨_, rfl⟩
  have hscan : ∃ e, scanValue f.Typ.target c = .fault e ∧
      e.faultClass = FaultClass.UnsupportedField := by
    rcases hty : f.Typ.target with _ | w | w | w | _ | _ | _ | n | e | n <;>
      simp [hty, supported] at hsup <;>
      simp [scanValue, GoType.Kind, graphNodeType, graphEdgeType, GraphError.faultClass]
  obtain ⟨e, he, hcl⟩ := hscan
  unfold scanStruct
  rw [hcols]
  simp only [scanStructLoop, scanColumn, hk, hf, hfv, hexp, hc, he, Bool.not_true, Bool.and_false,
    Bool.false_eq_true, if_false]
  by_cases hg : (f.Typ.target.Kind != Kind.Struct && c.typ != graphResultBasic) = true
  · rw [if_pos hg]
    refine ⟨.cannotScanInto, rfl, ?_, fun _ => rfl⟩
    intro h
    simp only [Bool.and_eq_true, bne_iff_ne, ne_eq] at hg
    rcases h with h | h
    · exact absurd h hg.1
    · exact absurd h hg.2
  · rw [if_neg hg]
    refine ⟨e, rfl, fun _ => hcl, ?_⟩
    intro h
    exfalso
    apply hg
    simp only [Bool.and_eq_true, bne_iff_ne, ne_eq]
    exact h

/-- C9, witness: a map field, with a Basic cell. -/
theorem C9_witness :
    ∃ e, (scanStruct ⟨false, [], ["m"], [[cellInt 1]], none⟩ (newStructSpec tAttrs "redis")
        tAttrs [.blob] 0 [cellInt 1]).1 = .fault e ∧
      (((taggedField "M" "m" (.other "map[string]int")).Typ.target.Kind = Kind.Struct ∨
          (cellInt 1).typ = graphResultBasic) →
        e.faultClass = FaultClass.UnsupportedField) ∧
      (((taggedField "M" "m" (.other "map[string]int")).Typ.target.Kind ≠ Kind.Struct ∧
          (cellInt 1).typ ≠ graphResultBasic) →
        e.faultClass = FaultClass.TypeMismatch) :=
  C9_unsupported_field_always_faults ⟨false, [], ["m"], [[cellInt 1]], none⟩
    (newStructSpec tAttrs "redis") tAttrs [.blob] 0 [cellInt 1] "m" [] 0
    (taggedField "M" "m" (.other "map[string]int")) (cellInt 1)
    rfl (by decide) (by decide) (by decide) (by decide) (by decide) (by decide)

/-! ## C10 -/

/-- C10: when the row is aligned, every column is matched to a settable field
of a supported type, every cell is well formed, and at some column the kind
of the cell is not the one its field takes, `scanStruct` returns a fault of
class type mismatch. -/
theorem C10_kind_disagreement_is_type_mismatch (g : GraphResult) (spec : graphStructSpec)
    (t : StructType) (fields : List Value) (alloc : Nat) (row : List graphRow)
    (hfields : fields.length = t.fields.length)
    (hrow : row.length = g.field.length)
    (hall : ∀ kc ∈ g.field.zip row, columnOK spec t kc.1 kc.2 = true)
    (hbad : ∃ kc ∈ g.field.zip row, columnAgrees spec t kc.1 kc.2 = false) :
    ∃ e, (scanStruct g spec t fields alloc row).1 = .fault e ∧
      e.faultClass = FaultClass.TypeMismatch := by
  obtain ⟨kc, hmem, hkc⟩ := hbad
  obtain ⟨n, hn⟩ := List.mem_iff_getElem?.mp hmem
  rw [List.getElem?_zip_eq_some] at hn
  obtain ⟨e, fields2, alloc2, heq, hcl⟩ :=
    scanStructLoop_disagree spec t row g.field 0 fields alloc hfields
      (ColumnsFrom.of_zip hrow hall)
      ⟨n, kc.1, kc.2, by simpa using hn.1, by simpa using hn.2, hkc⟩
  exact ⟨e, by unfold scanStruct; rw [heq], hcl⟩

/-- C10, witness: a Basic integer cell scanned into a field declared as the
node shape. -/
theorem C10_witness_integer_into_node :
    ∃ e, (scanStruct ⟨false, [], ["p"], [[cellInt 7]], none⟩ (newStructSpec tMyNode "redis")
        tMyNode (zeroRecord tMyNode) 0 [cellInt 7]).1 = .fault e ∧
      e.faultClass = FaultClass.TypeMismatch :=
  C10_kind_disagreement_is_type_mismatch ⟨false, [], ["p"], [[cellInt 7]], none⟩
    (newStructSpec tMyNode "redis") tMyNode (zeroRecord tMyNode) 0 [cellInt 7]
    (by decide) (by decide) (by decide) ⟨("p", cellInt 7), by decide, by decide⟩

/-! ## Scalar accessors -/

theorem toInt_of_int64 (v : Int) (hlo : -2 ^ 63 ≤ v) (hhi : v < 2 ^ 63) : toInt v = v := by
  unfold toInt intSize
  norm_num at hlo hhi ⊢
  omega

theorem digitValue_digitChar (k : Nat) (h : k < 10) : digitValue (Nat.digitChar k) = some k := by
  interval_cases k <;> decide

theorem parseDigits_toDigitsCore :
    ∀ (fuel n : Nat) (ds : List Char), n < fuel →
      parseDigits (Nat.toDigitsCore 10 fuel n ds) 0 = parseDigits ds n := by
  intro fuel
  induction fuel with
  | zero => intro n ds h; omega
  | succ fuel ih =>
    intro n ds h
    have hd := digitValue_digitChar (n % 10) (Nat.mod_lt _ (by decide))
    unfold Nat.toDigitsCore
    simp only
    split_ifs with h0
    · have : n % 10 = n := Nat.mod_eq_of_lt (by omega)
      simp only [parseDigits, hd, Nat.zero_mul, Nat.zero_add]
      rw [this]
    · rw [ih (n / 10) _ (by omega)]
      simp only [parseDigits, hd]
      congr 1
      omega

theorem toDigitsCore_ne_nil :
    ∀ (fuel n : Nat) (ds : List Char), ds ≠ [] → Nat.toDigitsCore 10 fuel n ds ≠ [] := by
  intro fuel
  induction fuel with
  | zero => intro n ds h; simpa [Nat.toDigitsCore] using h
  | succ fuel ih =>
    intro n ds _
    unfold Nat.toDigitsCore
    simp only
    split_ifs
    · simp
    · exact ih _ _ (by simp)

theorem parseDigits_toDigits (n : Nat) : parseDigits (Nat.toDigits 10 n) 0 = some n := by
  unfold Nat.toDigits
  rw [parseDigits_toDigitsCore (n + 1) n [] (by omega)]
  rfl

theorem toDigits_ne_nil (n : Nat) : Nat.toDigits 10 n ≠ [] := by
  unfold Nat.toDigits Nat.toDigitsCore
  simp only
  split_ifs
  · simp
  · exact toDigitsCore_ne_nil _ _ _ (by simp)

theorem parseDecimal_repr (n : Nat) : parseDecimal (Nat.repr n) = some (n : Int) := by
  have h1 := parseDigits_toDigits n
  have h2 := toDigits_ne_nil n
  have hdata : (Nat.repr n).data = Nat.toDigits 10 n := rfl
  unfold parseDecimal
  rw [hdata]
  cases hds : Nat.toDigits 10 n with
  | nil => exact absurd hds h2
  | cons c cs =>
    rw [hds] at h1
    simp only
    by_cases hc : c = '-'
    · subst hc
      simp [parseDigits, digitValue] at h1
    · rw [if_neg hc, h1]; rfl

/-- Reading back the decimal text of an integer gives the integer. -/
theorem parseDecimal_formatInt (v : Int) : parseDecimal (formatInt v) = some v := by
  cases v with
  | ofNat n => exact parseDecimal_repr n
  | negSucc n =>
    have h1 := parseDigits_toDigits (n + 1)
    have h2 := toDigits_ne_nil (n + 1)
    have hdata : (formatInt (Int.negSucc n)).data = '-' :: Nat.toDigits 10 (n + 1) := by
      simp [formatInt, String.data_append]
      rfl
    unfold parseDecimal
    rw [hdata]
    simp only [if_true, h2, if_false, h1, Option.map_some']
    rfl

/-- The decimal text of an integer begins with `-` exactly when the integer is
negative. -/
theorem formatInt_head (v : Int) : (formatInt v).data.head? = some '-' ↔ v < 0 := by
  cases v with
  | ofNat n =>
    have h1 := parseDigits_toDigits n
    have hdata : (formatInt (Int.ofNat n)).data = Nat.toDigits 10 n := rfl
    rw [hdata]
    constructor
    · intro h
      cases hds : Nat.toDigits 10 n with
      | nil => rw [hds] at h; simp at h
      | cons c cs =>
        rw [hds] at h h1
        simp only [List.head?_cons, Option.some.injEq] at h
        subst h
        simp [parseDigits, digitValue] at h1
    · intro h
      exact absurd h (by simp)
  | negSucc n =>
    have hdata : (formatInt (Int.negSucc n)).data = '-' :: Nat.toDigits 10 (n + 1) := by
      simp [formatInt, String.data_append]
      rfl
    rw [hdata]
    simp [Int.negSucc_lt_zero]

/-! ## C12 -/

/-- C12: `Int()` of an Integer-tagged scalar is the stored value, for every
value of the 64-bit signed range (the platform `int` has 64 bits); it is 0 for
a Nil-tagged scalar, for an unset scalar, and for every text scalar, whatever
the text, `"123"` included. -/
theorem C12_Int_accessor (v : Int) (s : String) (hlo : -2 ^ 63 ≤ v) (hhi : v < 2 ^ 63) :
    (⟨graphInteger, v, s⟩ : GraphData).Int = v ∧
    (∀ (v2 : Int) (s2 : String),
      (⟨graphNil, v2, s2⟩ : GraphData).Int = 0 ∧
      (⟨0, v2, s2⟩ : GraphData).Int = 0 ∧
      (⟨graphString, v2, s2⟩ : GraphData).Int = 0) ∧
    (⟨graphString, 0, "123"⟩ : GraphData).Int = 0 := by
  refine ⟨?_, fun v2 s2 => ⟨rfl, rfl, rfl⟩, rfl⟩
  simp only [GraphData.Int, if_true]
  exact toInt_of_int64 v hlo hhi

/-- C12, witness: the smallest 64-bit value. -/
theorem C12_witness :
    (⟨graphInteger, -9223372036854775808, ""⟩ : GraphData).Int = -9223372036854775808 ∧
    (∀ (v2 : Int) (s2 : String),
      (⟨graphNil, v2, s2⟩ : GraphData).Int = 0 ∧
      (⟨0, v2, s2⟩ : GraphData).Int = 0 ∧
      (⟨graphString, v2, s2⟩ : GraphData).Int = 0) ∧
    (⟨graphString, 0, "123"⟩ : GraphData).Int = 0 :=
  C12_Int_accessor (-9223372036854775808) "" (by decide) (by decide)

/-! ## C13 -/

/-- C13: `Bool()` of an Integer-tagged scalar is true exactly when the stored
integer is not zero; it is false for a Nil-tagged and for an unset scalar; for
a text scalar it is true exactly when the text is `"true"`, so that `"TRUE"`,
`"True"`, `"1"` and the empty text give false. -/
theorem C13_Bool_accessor (v : Int) (s : String) :
    ((⟨graphInteger, v, s⟩ : GraphData).Bool = true ↔ v ≠ 0) ∧
    (⟨graphNil, v, s⟩ : GraphData).Bool = false ∧
    (⟨0, v, s⟩ : GraphData).Bool = false ∧
    ((⟨graphString, v, s⟩ : GraphData).Bool = true ↔ s = "true") ∧
    (⟨graphString, 0, "true"⟩ : GraphData).Bool = true ∧
    (⟨graphString, 0, "TRUE"⟩ : GraphData).Bool = false ∧
    (⟨graphString, 0, "True"⟩ : GraphData).Bool = false ∧
    (⟨graphString, 0, "1"⟩ : GraphData).Bool = false ∧
    (⟨graphString, 0, ""⟩ : GraphData).Bool = false := by
  refine ⟨?_, rfl, rfl, ?_, by decide, by decide, by decide, by decide, by decide⟩
  · simp [GraphData.Bool]
  · simp [GraphData.Bool, graphString, graphInteger, graphNil]

/-! ## C14 -/

/-- C14: `IsNil()` is true exactly for the tag Nil.  An unset scalar (tag 0),
whatever its payload, gives the same `String()`, `Int()`, `Bool()` and
`Float64()` as a Nil-tagged scalar, namely the empty text, 0, false and 0.0,
yet `IsNil()` is false for the unset scalar and true for the Nil-tagged one. -/
theorem C14_nil_unset_asymmetry (d : GraphData) (v v2 : Int) (s s2 : String) :
    (d.IsNil = true ↔ d.typ = graphNil) ∧
    (⟨0, v, s⟩ : GraphData).String = "" ∧ (⟨graphNil, v2, s2⟩ : GraphData).String = "" ∧
    (⟨0, v, s⟩ : GraphData).Int = 0 ∧ (⟨graphNil, v2, s2⟩ : GraphData).Int = 0 ∧
    (⟨0, v, s⟩ : GraphData).Bool = false ∧ (⟨graphNil, v2, s2⟩ : GraphData).Bool = false ∧
    (⟨0, v, s⟩ : GraphData).Float64 = GoFloat.ofInt64 0 ∧
    (⟨graphNil, v2, s2⟩ : GraphData).Float64 = GoFloat.ofInt64 0 ∧
    (⟨0, v, s⟩ : GraphData).IsNil = false ∧ (⟨graphNil, v2, s2⟩ : GraphData).IsNil = true := by
  refine ⟨?_, rfl, rfl, rfl, rfl, rfl, rfl, rfl, rfl, rfl, rfl⟩
  simp [GraphData.IsNil]

/-! ## C15 -/

/-- C15, counterexample: the text `1e999` is well formed and out of range, so
`ParseFloat` ends with `+Inf` and a range error; `Float64()` drops the error
and returns the `+Inf`, which is not 0.0. -/
theorem C15_counterexample_out_of_range :
    sampleParseFloat "1e999" = .rangeError false ∧
    GoFloat.resolve sampleParseFloat (⟨graphString, 0, "1e999"⟩ : GraphData).Float64 =
      GoFloat.inf false ∧
    GoFloat.inf false ≠ GoFloat.ofInt64 0 := by
  decide

/-- C15 (amended): `Float64()` of a text scalar is the first result of
`ParseFloat` on the text, whatever its error, and no fault is raised.  So it
is 0.0 for a text that is not well formed, the infinity of the text's sign for
a well-formed text whose magnitude is out of range, and the parsed number
otherwise. -/
theorem C15_Float64_of_text (classify : String → ParseFloatResult) (d : GraphData)
    (h : d.typ = graphString) :
    d.Float64 = GoFloat.parseFloat d.stringVal ∧
    (classify d.stringVal = .syntaxError →
      GoFloat.resolve classify d.Float64 = GoFloat.ofInt64 0) ∧
    (∀ negative, classify d.stringVal = .rangeError negative →
      GoFloat.resolve classify d.Float64 = GoFloat.inf negative) ∧
    (classify d.stringVal = .parsed →
      GoFloat.resolve classify d.Float64 = GoFloat.parseFloat d.stringVal) := by
  have hf : d.Float64 = GoFloat.parseFloat d.stringVal := by
    simp [GraphData.Float64, h, graphString, graphInteger]
  refine ⟨hf, ?_, ?_, ?_⟩
  · intro hc; rw [hf]; simp [GoFloat.resolve, hc]
  · intro negative hc; rw [hf]; simp [GoFloat.resolve, hc]
  · intro hc; rw [hf]; simp [GoFloat.resolve, hc]

/-- C15, witness: the text `not-a-number`. -/
theorem C15_witness :
    (⟨graphString, 0, "not-a-number"⟩ : GraphData).Float64 =
      GoFloat.parseFloat (⟨graphString, 0, "not-a-number"⟩ : GraphData).stringVal ∧
    (sampleParseFloat (⟨graphString, 0, "not-a-number"⟩ : GraphData).stringVal = .syntaxError →
      GoFloat.resolve sampleParseFloat (⟨graphString, 0, "not-a-number"⟩ : GraphData).Float64 =
        GoFloat.ofInt64 0) ∧
    (∀ negative,
      sampleParseFloat (⟨graphString, 0, "not-a-number"⟩ : GraphData).stringVal =
        .rangeError negative →
      GoFloat.resolve sampleParseFloat (⟨graphString, 0, "not-a-number"⟩ : GraphData).Float64 =
        GoFloat.inf negative) ∧
    (sampleParseFloat (⟨graphString, 0, "not-a-number"⟩ : GraphData).stringVal = .parsed →
      GoFloat.resolve sampleParseFloat (⟨graphString, 0, "not-a-number"⟩ : GraphData).Float64 =
        GoFloat.parseFloat (⟨graphString, 0, "not-a-number"⟩ : GraphData).stringVal) :=
  C15_Float64_of_text sampleParseFloat ⟨graphString, 0, "not-a-number"⟩ rfl

/-! ## C16 -/

/-- C16: `String()` of an Integer-tagged scalar is the decimal text of the
stored value, which reads back as that value and begins with `-` exactly for
the negative values; for a text scalar it is the stored text; for a
Nil-tagged and for an unset scalar it is the empty text. -/
theorem C16_String_accessor (v : Int) (s : String) :
    (⟨graphInteger, v, s⟩ : GraphData).String = formatInt v ∧
    parseDecimal (⟨graphInteger, v, s⟩ : GraphData).String = some v ∧
    ((⟨graphInteger, v, s⟩ : GraphData).String.data.head? = some '-' ↔ v < 0) ∧
    (⟨graphString, v, s⟩ : GraphData).String = s ∧
    (⟨graphNil, v, s⟩ : GraphData).String = "" ∧
    (⟨0, v, s⟩ : GraphData).String = "" ∧
    (⟨graphInteger, -42, ""⟩ : GraphData).String = "-42" := by
  have h1 : (⟨graphInteger, v, s⟩ : GraphData).String = formatInt v := rfl
  refine ⟨h1, ?_, ?_, rfl, rfl, rfl, by decide⟩
  · rw [h1]; exact parseDecimal_formatInt v
  · rw [h1]; exact formatInt_head v

/-! ## C18 -/

theorem graphStruct_shape_fault (cache : Cache) (dest : Dest) (h : dest.notStructPtr = true) :
    ∃ e, graphStruct cache dest = (.error e, cache) ∧
      e.faultClass = FaultClass.BindingShape := by
  cases dest with
  | nonPtr => exact ⟨.nonPointer, rfl, rfl⟩
  | nilPtr => exact ⟨.nonPointer, rfl, rfl⟩
  | ptr target =>
    cases target with
    | struct t fields => simp [Dest.notStructPtr] at h
    | slice elem items => exact ⟨.nonStruct, rfl, rfl⟩
    | other => exact ⟨.nonStruct, rfl, rfl⟩

theorem graphStructSlice_shape_fault (cache : Cache) (dest : Dest)
    (h : dest.notStructSlicePtr = true) :
    ∃ e, graphStructSlice cache dest = (.error e, cache) ∧
      e.faultClass = FaultClass.BindingShape := by
  cases dest with
  | nonPtr => exact ⟨.nonPtr1, rfl, rfl⟩
  | nilPtr => exact ⟨.nonSlice, rfl, rfl⟩
  | ptr target =>
    cases target with
    | struct t fields => exact ⟨.nonSlice, rfl, rfl⟩
    | slice elem items =>
      simp only [Dest.notStructSlicePtr, Option.isNone_iff_eq_none] at h
      exact ⟨.sliceElemNonStruct, by simp [graphStructSlice, h], rfl⟩
    | other => exact ⟨.nonSlice, rfl, rfl⟩

/-- C18: for a result set with data, `RowScan` into a destination that is not
a pointer, is a nil pointer, or points to something that is not a struct
returns a binding-shape fault, and `RowsScan` into a destination that is not a
pointer, does not point to a slice, or points to a slice whose elements are
neither structs nor pointers to structs returns a binding-shape fault.  In
both cases the destination, the cache and the allocator are left as they
were, and the outcome is the same for every other result set with data: no
row is read. -/
theorem C18_malformed_destination_is_shape_fault (g : GraphResult) (cache : Cache)
    (alloc : Nat) (dest : Dest) (hdata : g.noData = false) :
    (dest.notStructPtr = true →
      ∃ e, g.RowScan cache alloc dest = ⟨.fault e, dest, cache, alloc⟩ ∧
        e.faultClass = FaultClass.BindingShape ∧
        ∀ g2 : GraphResult, g2.noData = false →
          g2.RowScan cache alloc dest = g.RowScan cache alloc dest) ∧
    (dest.notStructSlicePtr = true →
      ∃ e, g.RowsScan cache alloc dest = ⟨.fault e, dest, cache, alloc⟩ ∧
        e.faultClass = FaultClass.BindingShape ∧
        ∀ g2 : GraphResult, g2.noData = false →
          g2.RowsScan cache alloc dest = g.RowsScan cache alloc dest) := by
  constructor
  · intro h
    obtain ⟨e, he, hcl⟩ := graphStruct_shape_fault cache dest h
    have hg : ∀ g2 : GraphResult, g2.noData = false →
        g2.RowScan cache alloc dest = ⟨.fault e, dest, cache, alloc⟩ := by
      intro g2 h2
      simp only [GraphResult.RowScan, h2, he]
      rfl
    exact ⟨e, hg g hdata, hcl, fun g2 h2 => by rw [hg g2 h2, hg g hdata]⟩
  · intro h
    obtain ⟨e, he, hcl⟩ := graphStructSlice_shape_fault cache dest h
    have hg : ∀ g2 : GraphResult, g2.noData = false →
        g2.RowsScan cache alloc dest = ⟨.fault e, dest, cache, alloc⟩ := by
      intro g2 h2
      simp only [GraphResult.RowsScan, h2, he]
      rfl
    exact ⟨e, hg g hdata, hcl, fun g2 h2 => by rw [hg g2 h2, hg g hdata]⟩

/-- C18, witness: the result `(7, "pod1")` scanned into a nil pointer. -/
theorem C18_witness :
    (Dest.nilPtr.notStructPtr = true →
      ∃ e, resIdName.RowScan [] 0 Dest.nilPtr = ⟨.fault e, Dest.nilPtr, [], 0⟩ ∧
        e.faultClass = FaultClass.BindingShape ∧
        ∀ g2 : GraphResult, g2.noData = false →
          g2.RowScan [] 0 Dest.nilPtr = resIdName.RowScan [] 0 Dest.nilPtr) ∧
    (Dest.nilPtr.notStructSlicePtr = true →
      ∃ e, resIdName.RowsScan [] 0 Dest.nilPtr = ⟨.fault e, Dest.nilPtr, [], 0⟩ ∧
        e.faultClass = FaultClass.BindingShape ∧
        ∀ g2 : GraphResult, g2.noData = false →
          g2.RowsScan [] 0 Dest.nilPtr = resIdName.RowsScan [] 0 Dest.nilPtr) :=
  C18_malformed_destination_is_shape_fault resIdName [] 0 Dest.nilPtr (by decide)

/-! ## C20 -/

theorem lookup_graphStructCache_ne (cache : Cache) (t t2 : StructType) (h : t2 ≠ t) :
    List.lookup t2 (graphStructCache cache t).2 = List.lookup t2 cache := by
  unfold graphStructCache
  cases hl : List.lookup t cache with
  | some v => rfl
  | none =>
    have : (t2 == t) = false := by simpa using h
    simp [List.lookup, this]

theorem lookup_graphStructCache_self (cache : Cache) (t : StructType) :
    List.lookup t (graphStructCache cache t).2 = some (graphStructCache cache t).1 := by
  unfold graphStructCache
  cases hl : List.lookup t cache with
  | some v => simpa using hl
  | none => simp [List.lookup]

/-- C20: in a cache whose every entry is the spec `newStructSpec` computes for
its key, `graphStructCache t` returns `newStructSpec t "redis"`, leaves the
entry of every other type as it was, and keeps the cache in such a state; a
second call for `t` returns the same spec and does not change the cache. -/
theorem C20_cache_get_or_create (cache : Cache) (t : StructType) (h : CacheOK cache) :
    (graphStructCache cache t).1 = newStructSpec t "redis" ∧
    (∀ t2, t2 ≠ t → List.lookup t2 (graphStructCache cache t).2 = List.lookup t2 cache) ∧
    CacheOK (graphStructCache cache t).2 ∧
    graphStructCache (graphStructCache cache t).2 t =
      ((graphStructCache cache t).1, (graphStructCache cache t).2) := by
  obtain ⟨h1, h2⟩ := graphStructCache_spec cache t h
  refine ⟨h1, fun t2 ht => lookup_graphStructCache_ne cache t t2 ht, h2, ?_⟩
  have hl := lookup_graphStructCache_self cache t
  generalize graphStructCache cache t = r at hl
  simp only [graphStructCache, hl]

/-- C20, witness: the empty cache and the record `IdName`; the spec maps `id`
to position 0 and `name` to position 1. -/
theorem C20_witness :
    (graphStructCache [] tIdName).1 = newStructSpec tIdName "redis" ∧
    (∀ t2, t2 ≠ tIdName →
      List.lookup t2 (graphStructCache [] tIdName).2 = List.lookup t2 ([] : Cache)) ∧
    CacheOK (graphStructCache [] tIdName).2 ∧
    graphStructCache (graphStructCache [] tIdName).2 tIdName =
      ((graphStructCache [] tIdName).1, (graphStructCache [] tIdName).2) :=
  C20_cache_get_or_create [] tIdName CacheOK_nil

/-! ## Dynamic mappings -/

theorem cellValue_isSome (c : graphRow) (h : c.hasKind = true) :
    ∃ v, cellValue c = some v := by
  unfold graphRow.hasKind at h
  unfold cellValue
  simp only [Bool.or_eq_true, Bool.and_eq_true, beq_iff_eq] at h
  rcases h with (⟨h1, h2⟩ | ⟨h1, h2⟩) | ⟨h1, h2⟩ <;>
    obtain ⟨x, hx⟩ := Option.isSome_iff_exists.mp h2 <;>
    simp [h1, hx, graphResultBasic, graphResultNode, graphResultEdge]

theorem rowToMap_cons (row : List graphRow) (key : String) (rest : List String) (i : Nat)
    (m : GoMap RowVal) (c : graphRow) (v : RowVal) (hc : row.get? i = some c)
    (hk : c.hasKind = true) (hv : cellValue c = some v) :
    rowToMap row (key :: rest) i m = rowToMap row rest (i + 1) (m.set key v) := by
  unfold graphRow.hasKind at hk
  unfold cellValue at hv
  rw [List.get?_eq_getElem?] at hc
  simp only [Bool.or_eq_true, Bool.and_eq_true, beq_iff_eq] at hk
  rcases hk with (⟨h1, h2⟩ | ⟨h1, h2⟩) | ⟨h1, h2⟩ <;>
    obtain ⟨x, hx⟩ := Option.isSome_iff_exists.mp h2 <;>
    simp [h1, hx, graphResultBasic, graphResultNode, graphResultEdge] at hv <;>
    subst hv <;>
    simp [rowToMap, hc, h1, hx, graphResultBasic, graphResultNode, graphResultEdge]

/-- The column loop of `Row` and `Rows` on cells of kind Basic, Node or Edge:
it ends with a map that holds, under each column name, the value of the cell
of the last column of that name, and is `m` elsewhere. -/
theorem rowToMap_spec (row : List graphRow) :
    ∀ (cols : List String) (i : Nat) (m : GoMap RowVal),
      ColumnsFrom (fun _ c => c.hasKind) row cols i →
      ∃ m2, rowToMap row cols i m = some m2 ∧
        (∀ k, k ∉ cols → m2.get k = m.get k) ∧
        (∀ n key c, cols.get? n = some key → row.get? (i + n) = some c →
          (∀ j key2, n < j → cols.get? j = some key2 → key2 ≠ key) →
          m2.get key = cellValue c) := by
  intro cols
  induction cols with
  | nil =>
    intro i m _
    exact ⟨m, rfl, fun _ _ => rfl, by simp⟩
  | cons key rest ih =>
    intro i m hcols
    obtain ⟨c, hc, hk⟩ := hcols.head
    obtain ⟨v, hv⟩ := cellValue_isSome c hk
    obtain ⟨m2, heq, hother, hval⟩ := ih (i + 1) (m.set key v) hcols.tail
    refine ⟨m2, by rw [rowToMap_cons row key rest i m c v hc hk hv, heq], ?_, ?_⟩
    · intro k hk2
      rw [hother k (fun h => hk2 (List.mem_cons_of_mem _ h)), GoMap.get_set, if_neg]
      exact fun h => hk2 (h ▸ List.mem_cons_self _ _)
    · intro n key2 c2 hn hc2 hlast
      cases n with
      | zero =>
        simp only [List.get?_cons_zero, Option.some.injEq] at hn
        subst hn
        rw [Nat.add_zero, hc] at hc2
        cases hc2
        have hnot : key ∉ rest := by
          intro hmem
          obtain ⟨j, hj⟩ := List.mem_iff_getElem?.mp hmem
          exact hlast (j + 1) key (Nat.succ_pos j) (by simpa using hj) rfl
        rw [hother key hnot, GoMap.get_set, if_pos rfl, hv]
      | succ n =>
        apply hval n key2 c2 (by simpa using hn)
        · rw [← hc2]; congr 1; omega
        · intro j key3 hj hk3
          exact hlast (j + 1) key3 (by omega) (by simpa using hk3)

theorem rowsToMaps_spec (cols : List String) :
    ∀ rows : List (List graphRow),
      (∀ row ∈ rows, ColumnsFrom (fun _ c => c.hasKind) row cols 0) →
      ∃ ms, rowsToMaps cols rows = some ms ∧ ms.length = rows.length ∧
        ∀ j row, rows.get? j = some row →
          ∃ m, ms.get? j = some m ∧ rowToMap row cols 0 [] = some m := by
  intro rows
  induction rows with
  | nil => intro _; exact ⟨[], rfl, rfl, by simp⟩
  | cons r rs ih =>
    intro h
    obtain ⟨m, hm, -, -⟩ := rowToMap_spec r cols 0 [] (h r (List.mem_cons_self _ _))
    obtain ⟨ms, hms, hlen, hget⟩ := ih (fun row hr => h row (List.mem_cons_of_mem _ hr))
    refine ⟨m :: ms, by simp [rowsToMaps, hm, hms], by simp [hlen], ?_⟩
    intro j row hj
    cases j with
    | zero =>
      simp only [List.get?_cons_zero, Option.some.injEq] at hj
      subst hj
      exact ⟨m, rfl, hm⟩
    | succ j => simpa using hget j row (by simpa using hj)

/-- The node mapping: its three entries, and no other key. -/
theorem nodeMap_entries (n : GraphNode) :
    n.Map.get "id" = some (MapVal.int64 n.ID) ∧
    n.Map.get "labels" = some (MapVal.strs n.Labels) ∧
    n.Map.get "properties" = some (MapVal.props n.Properties) ∧
    ∀ k, (n.Map.get k).isSome = true ↔ k ∈ ["id", "labels", "properties"] := by
  refine ⟨rfl, rfl, rfl, ?_⟩
  intro k
  simp only [GraphNode.Map, GoMap.get, List.lookup]
  by_cases h1 : k = "id"
  · subst h1; simp
  · by_cases h2 : k = "labels"
    · subst h2; simp
    · by_cases h3 : k = "properties"
      · subst h3; simp
      · have e1 : (k == "id") = false := by simpa using h1
        have e2 : (k == "labels") = false := by simpa using h2
        have e3 : (k == "properties") = false := by simpa using h3
        simp [e1, e2, e3, h1, h2, h3]

/-- The edge mapping: its five entries, and no other key. -/
theorem edgeMap_entries (e : GraphEdge) :
    e.Map.get "id" = some (MapVal.int64 e.ID) ∧
    e.Map.get "type" = some (MapVal.str e.Typ) ∧
    e.Map.get "srcNode" = some (MapVal.int64 e.SrcNode) ∧
    e.Map.get "dstNode" = some (MapVal.int64 e.DstNode) ∧
    e.Map.get "properties" = some (MapVal.props e.Properties) ∧
    ∀ k, (e.Map.get k).isSome = true ↔ k ∈ ["id", "type", "srcNode", "dstNode", "properties"] := by
  refine ⟨rfl, rfl, rfl, rfl, rfl, ?_⟩
  intro k
  simp only [GraphEdge.Map, GoMap.get, List.lookup]
  by_cases h1 : k = "id"
  · subst h1; simp
  · by_cases h2 : k = "type"
    · subst h2; simp
    · by_cases h3 : k = "srcNode"
      · subst h3; simp
      · by_cases h4 : k = "dstNode"
        · subst h4; simp
        · by_cases h5 : k = "properties"
          · subst h5; simp
          · have e1 : (k == "id") = false := by simpa using h1
            have e2 : (k == "type") = false := by simpa using h2
            have e3 : (k == "srcNode") = false := by simpa using h3
            have e4 : (k == "dstNode") = false := by simpa using h4
            have e5 : (k == "properties") = false := by simpa using h5
            simp [e1, e2, e3, e4, e5, h1, h2, h3, h4, h5]

/-! ## C17 -/

/-- C17: for a result set with a projection, at least one column, at least one
row, pairwise distinct column names and aligned rows of cells of kind Basic,
Node or Edge, `Rows` returns one mapping per row, in row order, and `Row`
returns the first of them.  The keys of each mapping are exactly the column
names, and a column name is sent to the value of its cell: `String()` of the
scalar for a Basic cell; for a Node cell a mapping with exactly the keys `id`,
`labels`, `properties`, holding the node's identity, labels and properties;
for an Edge cell a mapping with exactly the keys `id`, `type`, `srcNode`,
`dstNode`, `properties`, holding the edge's identity, type, source,
destination and properties. -/
theorem C17_Row_and_Rows_mappings (g : GraphResult)
    (hp : g.noResult = false) (hcols : g.field ≠ []) (hrows : g.rows ≠ [])
    (hnd : g.field.Nodup)
    (hal : ∀ row ∈ g.rows, row.length = g.field.length ∧ ∀ c ∈ row, c.hasKind = true) :
    ∃ ms, g.Rows = some (some ms) ∧ ms.length = g.Len ∧ g.Row = some ms.head? ∧
      (∀ j row m, g.rows.get? j = some row → ms.get? j = some m →
        (∀ k, (m.get k).isSome = true ↔ k ∈ g.field) ∧
        ∀ n key c, g.field.get? n = some key → row.get? n = some c →
          (∀ d, c.typ = graphResultBasic → c.basic = some d →
            m.get key = some (RowVal.text d.String)) ∧
          (∀ nd, c.typ = graphResultNode → c.node = some nd →
            ∃ mp, m.get key = some (RowVal.mapping mp) ∧
              mp.get "id" = some (MapVal.int64 nd.ID) ∧
              mp.get "labels" = some (MapVal.strs nd.Labels) ∧
              mp.get "properties" = some (MapVal.props nd.Properties) ∧
              ∀ k, (mp.get k).isSome = true ↔ k ∈ ["id", "labels", "properties"]) ∧
          (∀ e, c.typ = graphResultEdge → c.edge = some e →
            ∃ mp, m.get key = some (RowVal.mapping mp) ∧
              mp.get "id" = some (MapVal.int64 e.ID) ∧
              mp.get "type" = some (MapVal.str e.Typ) ∧
              mp.get "srcNode" = some (MapVal.int64 e.SrcNode) ∧
              mp.get "dstNode" = some (MapVal.int64 e.DstNode) ∧
              mp.get "properties" = some (MapVal.props e.Properties) ∧
              ∀ k, (mp.get k).isSome = true ↔
                k ∈ ["id", "type", "srcNode", "dstNode", "properties"])) := by
  have hfrom : ∀ row ∈ g.rows, ColumnsFrom (fun _ c => c.hasKind) row g.field 0 := by
    intro row hr
    apply ColumnsFrom.of_zip (hal row hr).1
    intro kc hkc
    exact (hal row hr).2 kc.2 (List.of_mem_zip hkc).2
  have hdata : g.noData = false := by
    cases hf : g.field with
    | nil => exact absurd hf hcols
    | cons k ks =>
      cases hr : g.rows with
      | nil => exact absurd hr hrows
      | cons r rs =>
        have h1 := (hal r (by rw [hr]; exact List.mem_cons_self _ _)).1
        rw [hf] at h1
        cases r with
        | nil => simp at h1
        | cons c cs => simp [GraphResult.noData, hp, hf, hr]
  obtain ⟨ms, hms, hlen, hget⟩ := rowsToMaps_spec g.field g.rows hfrom
  refine ⟨ms, by simp [GraphResult.Rows, hdata, hms], hlen, ?_, ?_⟩
  · cases hr : g.rows with
    | nil => exact absurd hr hrows
    | cons r rs =>
      obtain ⟨m, hm0, hm⟩ := hget 0 r (by rw [hr]; rfl)
      cases ms with
      | nil => simp at hm0
      | cons m0 ms =>
        simp only [List.get?_cons_zero, Option.some.injEq] at hm0
        subst hm0
        simp [GraphResult.Row, hdata, hr, hm]
  · intro j row m hj hmj
    obtain ⟨m2, hm2, hrm⟩ := hget j row hj
    rw [hmj] at hm2
    cases hm2
    obtain ⟨m3, hm3, hother, hval⟩ := rowToMap_spec row g.field 0 [] (hfrom row (List.get?_mem hj))
    rw [hrm] at hm3
    cases hm3
    have hvalue : ∀ n key c, g.field.get? n = some key → row.get? n = some c →
        m.get key = cellValue c := by
      intro n key c hn hc
      apply hval n key c hn (by simpa using hc)
      intro j2 key2 hlt hj2 heq
      subst heq
      rw [List.get?_eq_getElem?] at hn hj2
      obtain ⟨h1, h1e⟩ := List.getElem?_eq_some_iff.mp hn
      obtain ⟨h2, h2e⟩ := List.getElem?_eq_some_iff.mp hj2
      have := (List.Nodup.getElem_inj_iff hnd).mp (h1e.trans h2e.symm)
      omega
    refine ⟨?_, ?_⟩
    rotate_left
    · intro n key c hn hc
      have hv := hvalue n key c hn hc
      refine ⟨?_, ?_, ?_⟩
      · intro d ht hd
        rw [hv]
        simp [cellValue, ht, hd]
      · intro nd ht hd
        refine ⟨nd.Map, ?_, nodeMap_entries nd⟩
        rw [hv]
        simp [cellValue, ht, hd, graphResultBasic, graphResultNode]
      · intro e ht hd
        refine ⟨e.Map, ?_, edgeMap_entries e⟩
        rw [hv]
        simp [cellValue, ht, hd, graphResultBasic, graphResultNode, graphResultEdge]
    intro k
    constructor
    · intro hk
      by_contra hnot
      rw [hother k hnot] at hk
      simp [GoMap.get, List.lookup] at hk
    · intro hk
      obtain ⟨n, hn⟩ := List.mem_iff_getElem?.mp hk
      obtain ⟨c, hc, hkind⟩ := hfrom row (List.get?_mem hj) n k (by simpa using hn)
      obtain ⟨v, hv⟩ := cellValue_isSome c hkind
      rw [hvalue n k c (by simpa using hn) (by simpa using hc), hv]
      rfl

/-- C17, witness: two rows under the columns `id`, `p`. -/
theorem C17_witness :
    ∃ ms, resIdP.Rows = some (some ms) ∧ ms.length = resIdP.Len ∧ resIdP.Row = some ms.head? ∧
      (∀ j row m, resIdP.rows.get? j = some row → ms.get? j = some m →
        (∀ k, (m.get k).isSome = true ↔ k ∈ resIdP.field) ∧
        ∀ n key c, resIdP.field.get? n = some key → row.get? n = some c →
          (∀ d, c.typ = graphResultBasic → c.basic = some d →
            m.get key = some (RowVal.text d.String)) ∧
          (∀ nd, c.typ = graphResultNode → c.node = some nd →
            ∃ mp, m.get key = some (RowVal.mapping mp) ∧
              mp.get "id" = some (MapVal.int64 nd.ID) ∧
              mp.get "labels" = some (MapVal.strs nd.Labels) ∧
              mp.get "properties" = some (MapVal.props nd.Properties) ∧
              ∀ k, (mp.get k).isSome = true ↔ k ∈ ["id", "labels", "properties"]) ∧
          (∀ e, c.typ = graphResultEdge → c.edge = some e →
            ∃ mp, m.get key = some (RowVal.mapping mp) ∧
              mp.get "id" = some (MapVal.int64 e.ID) ∧
              mp.get "type" = some (MapVal.str e.Typ) ∧
              mp.get "srcNode" = some (MapVal.int64 e.SrcNode) ∧
              mp.get "dstNode" = some (MapVal.int64 e.DstNode) ∧
              mp.get "properties" = some (MapVal.props e.Properties) ∧
              ∀ k, (mp.get k).isSome = true ↔
                k ∈ ["id", "type", "srcNode", "dstNode", "properties"])) :=
  C17_Row_and_Rows_mappings resIdP (by decide) (by decide) (by decide) (by decide) (by decide)

/-- The mappings `Rows` returns for the two rows under the columns `id`, `p`. -/
theorem Rows_example :
    resIdP.Rows = some (some
      [[("p", RowVal.mapping [("id", .int64 1), ("labels", .strs []), ("properties", .props [])]),
        ("id", RowVal.text "7")],
       [("p", RowVal.mapping [("id", .int64 0), ("type", .str "link"), ("srcNode", .int64 0),
          ("dstNode", .int64 1), ("properties", .props [("size", ⟨graphInteger, 1, ""⟩)])]),
        ("id", RowVal.text "8")]]) := by
  decide

/-! ## What one iteration of the scan loop did, read off its result -/

theorem fromBasic_value (c : graphRow) (conv : GraphData → Value) (v : Value)
    (h : fromBasic c conv = .value v) : ∃ d, c.basic = some d ∧ v = conv d := by
  unfold fromBasic at h
  cases hb : c.basic with
  | none => simp [hb] at h
  | some d =>
    simp only [hb, Assign.value.injEq] at h
    exact ⟨d, rfl, h.symm⟩

/-- A value the switch of `scanStruct` stores is the one the field is said to
hold once its cell is bound. -/
theorem scanValue_value_bound (ty : GoType) (c : graphRow) (v : Value)
    (h : scanValue ty c = .value v) : boundValue ty c = some v := by
  cases ty with
  | bool =>
    obtain ⟨d, hd, rfl⟩ := fromBasic_value c _ v (by simpa [scanValue, GoType.Kind] using h)
    simp [boundValue, hd]
  | int w =>
    obtain ⟨d, hd, rfl⟩ := fromBasic_value c _ v (by simpa [scanValue, GoType.Kind] using h)
    simp [boundValue, hd, GoType.bits]
  | uint w =>
    obtain ⟨d, hd, rfl⟩ := fromBasic_value c _ v (by simpa [scanValue, GoType.Kind] using h)
    simp [boundValue, hd, GoType.bits]
  | float w =>
    obtain ⟨d, hd, rfl⟩ := fromBasic_value c _ v (by simpa [scanValue, GoType.Kind] using h)
    simp [boundValue, hd, GoType.bits]
  | string =>
    obtain ⟨d, hd, rfl⟩ := fromBasic_value c _ v (by simpa [scanValue, GoType.Kind] using h)
    simp [boundValue, hd]
  | graphNode =>
    simp only [scanValue, GoType.Kind, graphNodeType, if_true] at h
    split_ifs at h
    cases hn : c.node with
    | none => simp [hn] at h
    | some n =>
      simp only [hn, Assign.value.injEq] at h
      subst h
      simp [boundValue, hn]
  | graphEdge =>
    simp only [scanValue, GoType.Kind, graphNodeType, graphEdgeType, if_true] at h
    rw [if_neg (by decide)] at h
    split_ifs at h
    cases hn : c.edge with
    | none => simp [hn] at h
    | some n =>
      simp only [hn, Assign.value.injEq] at h
      subst h
      simp [boundValue, hn]
  | otherStruct name => simp [scanValue, GoType.Kind, graphNodeType, graphEdgeType] at h
  | ptr e => simp [scanValue, GoType.Kind] at h
  | other name => simp [scanValue, GoType.Kind] at h

/-- An iteration that does not panic has found the field, its value and the
cell, or has found no field for the column. -/
theorem scanColumn_cases (spec : graphStructSpec) (t : StructType) (row : List graphRow)
    (key : String) (i : Nat) (fields : List Value) (alloc : Nat) :
    (spec.m.get key = none ∧ scanColumn spec t row key i fields alloc = ⟨some .ok, fields, alloc⟩) ∨
    (∃ idx f fv c, spec.m.get key = some idx ∧ t.fields.get? idx = some f ∧
      fields.get? idx = some fv ∧ row.get? i = some c) ∨
    (scanColumn spec t row key i fields alloc).outcome = some .goPanic := by
  cases hk : spec.m.get key with
  | none => left; exact ⟨rfl, by simp only [scanColumn, hk]⟩
  | some idx =>
    right
    cases hf : t.fields.get? idx with
    | none => right; simp only [scanColumn, hk, hf]
    | some f =>
      cases hfv : fields.get? idx with
      | none => right; simp only [scanColumn, hk, hf, hfv]
      | some fv =>
        cases hc : row.get? i with
        | none =>
          right
          simp only [scanColumn, hk, hf, hfv, hc]
          split_ifs <;> rfl
        | some c => left; exact ⟨idx, f, fv, c, rfl, hf, hfv, rfl⟩

/-- An iteration that lets the loop go on has matched its column to an
exported field and written the converted cell to it. -/
theorem scanColumn_none_inv (spec : graphStructSpec) (t : StructType) (row : List graphRow)
    (key : String) (i : Nat) (fields fields1 : List Value) (alloc alloc1 : Nat)
    (h : scanColumn spec t row key i fields alloc = ⟨none, fields1, alloc1⟩) :
    ∃ idx f fv c v, spec.m.get key = some idx ∧ t.fields.get? idx = some f ∧
      fields.get? idx = some fv ∧ row.get? i = some c ∧ f.exported = true ∧
      scanValue f.Typ.target c = .value v ∧
      fields1 = storeField f idx (allocIfNil f fv alloc).1 v
        (fields.set idx (allocIfNil f fv alloc).1) ∧
      alloc1 = (allocIfNil f fv alloc).2 := by
  rcases scanColumn_cases spec t row key i fields alloc with
    ⟨-, h2⟩ | ⟨idx, f, fv, c, hk, hf, hfv, hc⟩ | h2
  · rw [h2] at h; simp at h
  · simp only [scanColumn, hk, hf, hfv, hc] at h
    refine ⟨idx, f, fv, c, ?_⟩
    cases hexp : f.exported <;>
      cases hp : (f.Typ.Kind == Kind.Ptr && fv.IsNil) <;>
      cases hg : (f.Typ.target.Kind != Kind.Struct && c.typ != graphResultBasic) <;>
      cases hv : scanValue f.Typ.target c <;>
      simp [hexp, hp, hg, hv] at h
    all_goals exact ⟨_, hk, hf, hfv, hc, rfl, rfl, h.1.symm, h.2.symm⟩
  · rw [h] at h2; simp at h2

/-- In a separate record an iteration that lets the loop go on has changed the
one field its column is bound to, and the record is separate afterwards. -/
theorem scanColumn_none_inv_sep (spec : graphStructSpec) (t : StructType) (row : List graphRow)
    (key : String) (i : Nat) (fields fields1 : List Value) (alloc alloc1 : Nat)
    (h : scanColumn spec t row key i fields alloc = ⟨none, fields1, alloc1⟩)
    (hsep : Separate fields alloc) :
    ∃ idx f fv c v, spec.m.get key = some idx ∧ t.fields.get? idx = some f ∧
      fields.get? idx = some fv ∧ row.get? i = some c ∧ f.exported = true ∧
      scanValue f.Typ.target c = .value v ∧
      fields1 = fields.set idx (fieldAfterWrite f (allocIfNil f fv alloc).1 v) ∧
      alloc1 = (allocIfNil f fv alloc).2 ∧ Separate fields1 alloc1 := by
  obtain ⟨idx, f, fv, c, v, hk, hf, hfv, hc, hexp, hv, h1, h2⟩ :=
    scanColumn_none_inv spec t row key i fields fields1 alloc alloc1 h
  have hidx : idx < fields.length := by
    rw [List.get?_eq_getElem?] at hfv
    exact (List.getElem?_eq_some_iff.mp hfv).1
  have hsep1 := hsep.allocIfNil f idx fv hfv
  have hfv1 : (fields.set idx (allocIfNil f fv alloc).1).get? idx =
      some (allocIfNil f fv alloc).1 := by
    simp [List.getElem?_set, hidx]
  rw [storeField_of_separate f idx _ v _ _ hsep1 hfv1, List.set_set] at h1
  refine ⟨idx, f, fv, c, v, hk, hf, hfv, hc, hexp, hv, h1, h2, ?_⟩
  have := hsep1.write f idx _ v hfv1 (scanValue_not_ptr _ _ _ hv)
  rw [List.set_set] at this
  rw [h1, h2]
  exact this

/-- An iteration that returns an error has matched its column to a field,
has at most given a nil pointer field a new zero pointee, and has found the
cell unfit at line 297 or in the switch. -/
theorem scanColumn_fault_inv (spec : graphStructSpec) (t : StructType) (row : List graphRow)
    (key : String) (i : Nat) (fields fields1 : List Value) (alloc alloc1 : Nat) (e : GraphError)
    (h : scanColumn spec t row key i fields alloc = ⟨some (.fault e), fields1, alloc1⟩) :
    ∃ idx f fv c, spec.m.get key = some idx ∧ t.fields.get? idx = some f ∧
      fields.get? idx = some fv ∧ row.get? i = some c ∧
      fields1 = fields.set idx (allocIfNil f fv alloc).1 ∧
      alloc1 = (allocIfNil f fv alloc).2 ∧
      (((f.Typ.target.Kind != Kind.Struct && c.typ != graphResultBasic) = true ∧
          e = .cannotScanInto) ∨
        scanValue f.Typ.target c = .fault e) := by
  rcases scanColumn_cases spec t row key i fields alloc with
    ⟨-, h2⟩ | ⟨idx, f, fv, c, hk, hf, hfv, hc⟩ | h2
  · rw [h2] at h; simp at h
  · simp only [scanColumn, hk, hf, hfv, hc, List.set_set] at h
    refine ⟨idx, f, fv, c, hk, hf, hfv, hc, ?_⟩
    cases hexp : f.exported <;>
      cases hp : (f.Typ.Kind == Kind.Ptr && fv.IsNil) <;>
      cases hg : (f.Typ.target.Kind != Kind.Struct && c.typ != graphResultBasic) <;>
      cases hv : scanValue f.Typ.target c <;>
      simp [hexp, hp, hg, hv] at h
    all_goals first
      | exact ⟨h.2.1.symm, h.2.2.symm, Or.inl ⟨rfl, h.1.symm⟩⟩
      | exact ⟨h.2.1.symm, h.2.2.symm, Or.inr (by rw [h.1])⟩
  · rw [h] at h2; simp at h2

/-- An iteration that returns `nil` has found no field for its column and has
changed nothing. -/
theorem scanColumn_ok_inv (spec : graphStructSpec) (t : StructType) (row : List graphRow)
    (key : String) (i : Nat) (fields fields1 : List Value) (alloc alloc1 : Nat)
    (h : scanColumn spec t row key i fields alloc = ⟨some .ok, fields1, alloc1⟩) :
    spec.m.get key = none ∧ fields1 = fields ∧ alloc1 = alloc := by
  rcases scanColumn_cases spec t row key i fields alloc with
    ⟨hk, h2⟩ | ⟨idx, f, fv, c, hk, hf, hfv, hc⟩ | h2
  · rw [h2] at h
    simp only [ScanState.mk.injEq, true_and] at h
    exact ⟨hk, h.1.symm, h.2.symm⟩
  · simp only [scanColumn, hk, hf, hfv, hc, List.set_set] at h
    exfalso
    cases hexp : f.exported <;>
      cases hp : (f.Typ.Kind == Kind.Ptr && fv.IsNil) <;>
      cases hg : (f.Typ.target.Kind != Kind.Struct && c.typ != graphResultBasic) <;>
      cases hv : scanValue f.Typ.target c <;>
      simp [hexp, hp, hg, hv] at h
  · rw [h] at h2; simp at h2

/-! ## The columns written before the loop returns -/

theorem scanPrefix_cons_inv (spec : graphStructSpec) (t : StructType) (row : List graphRow)
    (key : String) (rest : List String) (i : Nat) (fields fieldsP : List Value)
    (alloc allocP : Nat)
    (h : scanPrefix spec t row (key :: rest) i fields alloc = some (fieldsP, allocP))
    (hsep : Separate fields alloc) :
    ∃ idx f fv c v, spec.m.get key = some idx ∧ t.fields.get? idx = some f ∧
      fields.get? idx = some fv ∧ row.get? i = some c ∧ f.exported = true ∧
      scanValue f.Typ.target c = .value v ∧
      scanPrefix spec t row rest (i + 1)
        (fields.set idx (fieldAfterWrite f (allocIfNil f fv alloc).1 v))
        (allocIfNil f fv alloc).2 = some (fieldsP, allocP) ∧
      Separate (fields.set idx (fieldAfterWrite f (allocIfNil f fv alloc).1 v))
        (allocIfNil f fv alloc).2 := by
  rcases hs : scanColumn spec t row key i fields alloc with ⟨o, f1, a1⟩
  cases o with
  | some o => simp [scanPrefix, hs] at h
  | none =>
    obtain ⟨idx, f, fv, c, v, hk, hf, hfv, hc, hexp, hv, hf1, ha1, hsep1⟩ :=
      scanColumn_none_inv_sep spec t row key i fields f1 alloc a1 hs hsep
    refine ⟨idx, f, fv, c, v, hk, hf, hfv, hc, hexp, hv, ?_, ?_⟩
    · simp only [scanPrefix, hs] at h
      rw [← hf1, ← ha1]
      exact h
    · rw [← hf1, ← ha1]
      exact hsep1

/-- A loop that returns an error has written a prefix of the columns and
found the error at the next column. -/
theorem scanStructLoop_fault_split (spec : graphStructSpec) (t : StructType)
    (row : List graphRow) :
    ∀ (cols : List String) (i : Nat) (fields : List Value) (alloc : Nat) (e : GraphError)
      (fields2 : List Value) (alloc2 : Nat),
      scanStructLoop spec t row cols i fields alloc = (.fault e, fields2, alloc2) →
      ∃ pre key post fieldsP allocP, cols = pre ++ key :: post ∧
        scanPrefix spec t row pre i fields alloc = some (fieldsP, allocP) ∧
        scanColumn spec t row key (i + pre.length) fieldsP allocP =
          ⟨some (.fault e), fields2, alloc2⟩ := by
  intro cols
  induction cols with
  | nil => intro i fields alloc e fields2 alloc2 h; simp [scanStructLoop] at h
  | cons key rest ih =>
    intro i fields alloc e fields2 alloc2 h
    rcases hs : scanColumn spec t row key i fields alloc with ⟨o, f1, a1⟩
    cases o with
    | some o =>
      rw [scanStructLoop_cons_some _ _ _ _ _ _ _ _ _ _ _ hs] at h
      simp only [Prod.mk.injEq] at h
      obtain ⟨rfl, rfl, rfl⟩ := h
      exact ⟨[], key, rest, fields, alloc, rfl, rfl, by simpa using hs⟩
    | none =>
      rw [scanStructLoop_cons_none _ _ _ _ _ _ _ _ _ _ hs] at h
      obtain ⟨pre, key2, post, fieldsP, allocP, hcols, hpre, hcol⟩ :=
        ih (i + 1) f1 a1 e fields2 alloc2 h
      refine ⟨key :: pre, key2, post, fieldsP, allocP, by rw [hcols]; rfl, ?_, ?_⟩
      · simp only [scanPrefix, hs]; exact hpre
      · rw [← hcol]; congr 1; simp only [List.length_cons]; omega

/-- A loop that returns `nil` on columns that all have a field has written
every column. -/
theorem scanStructLoop_ok_prefix (spec : graphStructSpec) (t : StructType)
    (row : List graphRow) :
    ∀ (cols : List String) (i : Nat) (fields : List Value) (alloc : Nat)
      (fields2 : List Value) (alloc2 : Nat),
      scanStructLoop spec t row cols i fields alloc = (.ok, fields2, alloc2) →
      (∀ key ∈ cols, spec.m.get key ≠ none) →
      scanPrefix spec t row cols i fields alloc = some (fields2, alloc2) := by
  intro cols
  induction cols with
  | nil =>
    intro i fields alloc fields2 alloc2 h _
    simp only [scanStructLoop, Prod.mk.injEq, true_and] at h
    simp [scanPrefix, h.1, h.2]
  | cons key rest ih =>
    intro i fields alloc fields2 alloc2 h hall
    rcases hs : scanColumn spec t row key i fields alloc with ⟨o, f1, a1⟩
    cases o with
    | some o =>
      rw [scanStructLoop_cons_some _ _ _ _ _ _ _ _ _ _ _ hs] at h
      simp only [Prod.mk.injEq] at h
      obtain ⟨rfl, rfl, rfl⟩ := h
      exact absurd (scanColumn_ok_inv spec t row key i fields f1 alloc a1 hs).1
        (hall key (List.mem_cons_self _ _))
    | none =>
      rw [scanStructLoop_cons_none _ _ _ _ _ _ _ _ _ _ hs] at h
      simp only [scanPrefix, hs]
      exact ih (i + 1) f1 a1 fields2 alloc2 h (fun k hk => hall k (List.mem_cons_of_mem _ hk))

theorem allocIfNil_alloc (f : StructField) (fv : Value) (alloc : Nat) :
    alloc ≤ (allocIfNil f fv alloc).2 := by
  unfold allocIfNil
  split_ifs <;> simp

/-- The write to a pointer field leaves a pointer: to the pointee the field had,
or to the one just made for a nil field, at the address `alloc`. -/
theorem fieldAfterWrite_ptr (f : StructField) (fv v : Value) (alloc : Nat)
    (hp : f.Typ.Kind = Kind.Ptr) :
    ∃ a, fieldAfterWrite f (allocIfNil f fv alloc).1 v = .ptrTo a v ∧
      (∀ a0 v0, fv = .ptrTo a0 v0 → a = a0) ∧
      (fv.IsNil = true → a = alloc ∧ (allocIfNil f fv alloc).2 = alloc + 1) := by
  unfold fieldAfterWrite allocIfNil
  cases fv <;> simp [hp, Value.IsNil]

theorem fieldAfterWrite_nonptr (f : StructField) (fv v : Value) (alloc : Nat)
    (hp : f.Typ.Kind ≠ Kind.Ptr) :
    fieldAfterWrite f (allocIfNil f fv alloc).1 v = v ∧ (allocIfNil f fv alloc) = (fv, alloc) := by
  unfold fieldAfterWrite allocIfNil
  simp [hp]

theorem scanPrefix_length (spec : graphStructSpec) (t : StructType) (row : List graphRow) :
    ∀ (pre : List String) (i : Nat) (fields fieldsP : List Value) (alloc allocP : Nat),
      scanPrefix spec t row pre i fields alloc = some (fieldsP, allocP) →
      Separate fields alloc →
      fieldsP.length = fields.length ∧ alloc ≤ allocP := by
  intro pre
  induction pre with
  | nil =>
    intro i fields fieldsP alloc allocP h hsep
    simp only [scanPrefix, Option.some.injEq, Prod.mk.injEq] at h
    exact ⟨by rw [h.1], by rw [h.2]⟩
  | cons key rest ih =>
    intro i fields fieldsP alloc allocP h hsep
    obtain ⟨idx, f, fv, c, v, -, -, -, -, -, -, hrest, hsep1⟩ :=
      scanPrefix_cons_inv spec t row key rest i fields fieldsP alloc allocP h hsep
    obtain ⟨h1, h2⟩ := ih _ _ _ _ _ hrest hsep1
    have := allocIfNil_alloc f fv alloc
    exact ⟨by rw [h1, List.length_set], by omega⟩

/-- Fields that no written column is bound to are as they were. -/
theorem scanPrefix_frame (spec : graphStructSpec) (t : StructType) (row : List graphRow) :
    ∀ (pre : List String) (i : Nat) (fields fieldsP : List Value) (alloc allocP : Nat),
      scanPrefix spec t row pre i fields alloc = some (fieldsP, allocP) →
      Separate fields alloc →
      ∀ j, (∀ key ∈ pre, spec.m.get key ≠ some j) → fieldsP.get? j = fields.get? j := by
  intro pre
  induction pre with
  | nil =>
    intro i fields fieldsP alloc allocP h hsep j _
    simp only [scanPrefix, Option.some.injEq, Prod.mk.injEq] at h
    rw [h.1]
  | cons key rest ih =>
    intro i fields fieldsP alloc allocP h hsep j hj
    obtain ⟨idx, f, fv, c, v, hk, -, -, -, -, -, hrest, hsep1⟩ :=
      scanPrefix_cons_inv spec t row key rest i fields fieldsP alloc allocP h hsep
    rw [ih _ _ _ _ _ hrest hsep1 j (fun k hkr => hj k (List.mem_cons_of_mem _ hkr))]
    have hne : idx ≠ j := fun hij => hj key (List.mem_cons_self _ _) (by rw [hk, hij])
    simp [List.getElem?_set, hne]

/-- The first written column, whatever the record holds. -/
theorem scanPrefix_cons_step (spec : graphStructSpec) (t : StructType) (row : List graphRow)
    (key : String) (rest : List String) (i : Nat) (fields fieldsP : List Value)
    (alloc allocP : Nat)
    (h : scanPrefix spec t row (key :: rest) i fields alloc = some (fieldsP, allocP)) :
    ∃ idx f c v fields1 alloc1, spec.m.get key = some idx ∧ t.fields.get? idx = some f ∧
      row.get? i = some c ∧ f.exported = true ∧ scanValue f.Typ.target c = .value v ∧
      scanPrefix spec t row rest (i + 1) fields1 alloc1 = some (fieldsP, allocP) := by
  rcases hs : scanColumn spec t row key i fields alloc with ⟨o, f1, a1⟩
  cases o with
  | some o => simp [scanPrefix, hs] at h
  | none =>
    obtain ⟨idx, f, fv, c, v, hk, hf, -, hc, hexp, hv, -, -⟩ :=
      scanColumn_none_inv spec t row key i fields f1 alloc a1 hs
    simp only [scanPrefix, hs] at h
    exact ⟨idx, f, c, v, f1, a1, hk, hf, hc, hexp, hv, h⟩

/-- Every written column has a field, exported, and a cell the switch converts. -/
theorem scanPrefix_matched (spec : graphStructSpec) (t : StructType) (row : List graphRow) :
    ∀ (pre : List String) (i : Nat) (fields fieldsP : List Value) (alloc allocP : Nat),
      scanPrefix spec t row pre i fields alloc = some (fieldsP, allocP) →
      ∀ n key, pre.get? n = some key →
        ∃ idx f c v, spec.m.get key = some idx ∧ t.fields.get? idx = some f ∧
          row.get? (i + n) = some c ∧ f.exported = true ∧
          scanValue f.Typ.target c = .value v := by
  intro pre
  induction pre with
  | nil => intro i fields fieldsP alloc allocP _ n key hn; simp at hn
  | cons key rest ih =>
    intro i fields fieldsP alloc allocP h n key2 hn
    obtain ⟨idx, f, c, v, fields1, alloc1, hk, hf, hc, hexp, hv, hrest⟩ :=
      scanPrefix_cons_step spec t row key rest i fields fieldsP alloc allocP h
    cases n with
    | zero =>
      simp only [List.get?_cons_zero, Option.some.injEq] at hn
      subst hn
      exact ⟨idx, f, c, v, hk, hf, by simpa using hc, hexp, hv⟩
    | succ n =>
      obtain ⟨idx2, f2, c2, v2, h1, h2, h3, h4, h5⟩ :=
        ih _ _ _ _ _ hrest n key2 (by simpa using hn)
      exact ⟨idx2, f2, c2, v2, h1, h2, by rw [← h3]; congr 1; omega, h4, h5⟩

/-! ## Pointers of the record, whatever cells they share -/

/-- The first written column, whatever the record holds: the record the loop
goes on with. -/
theorem scanPrefix_cons_gen (spec : graphStructSpec) (t : StructType) (row : List graphRow)
    (key : String) (rest : List String) (i : Nat) (fields fieldsP : List Value)
    (alloc allocP : Nat)
    (h : scanPrefix spec t row (key :: rest) i fields alloc = some (fieldsP, allocP)) :
    ∃ idx f fv c v, spec.m.get key = some idx ∧ t.fields.get? idx = some f ∧
      fields.get? idx = some fv ∧ row.get? i = some c ∧ f.exported = true ∧
      scanValue f.Typ.target c = .value v ∧
      scanPrefix spec t row rest (i + 1)
        (storeField f idx (allocIfNil f fv alloc).1 v (fields.set idx (allocIfNil f fv alloc).1))
        (allocIfNil f fv alloc).2 = some (fieldsP, allocP) := by
  rcases hs : scanColumn spec t row key i fields alloc with ⟨o, f1, a1⟩
  cases o with
  | some o => simp [scanPrefix, hs] at h
  | none =>
    obtain ⟨idx, f, fv, c, v, hk, hf, hfv, hc, hexp, hv, hf1, ha1⟩ :=
      scanColumn_none_inv spec t row key i fields f1 alloc a1 hs
    refine ⟨idx, f, fv, c, v, hk, hf, hfv, hc, hexp, hv, ?_⟩
    simp only [scanPrefix, hs] at h
    rw [← hf1, ← ha1]
    exact h

/-- The written columns never lower the next unused address. -/
theorem scanPrefix_alloc_le (spec : graphStructSpec) (t : StructType) (row : List graphRow) :
    ∀ (pre : List String) (i : Nat) (fields fieldsP : List Value) (alloc allocP : Nat),
      scanPrefix spec t row pre i fields alloc = some (fieldsP, allocP) → alloc ≤ allocP := by
  intro pre
  induction pre with
  | nil =>
    intro i fields fieldsP alloc allocP h
    simp only [scanPrefix, Option.some.injEq, Prod.mk.injEq] at h
    rw [h.2]
  | cons key rest ih =>
    intro i fields fieldsP alloc allocP h
    obtain ⟨idx, f, fv, c, v, -, -, -, -, -, -, hrest⟩ :=
      scanPrefix_cons_gen spec t row key rest i fields fieldsP alloc allocP h
    have h1 := ih _ _ _ _ _ hrest
    have := allocIfNil_alloc f fv alloc
    omega

/-- A write leaves every pointer of the record where it points. -/
theorem storeField_get_ptr (f : StructField) (idx : Nat) (fv v : Value) (fields : List Value)
    (j a : Nat) (w : Value) (hfv : fields.get? idx = some fv)
    (hj : fields.get? j = some (.ptrTo a w)) (hty : j = idx → f.Typ.Kind = Kind.Ptr) :
    ∃ w2, (storeField f idx fv v fields).get? j = some (.ptrTo a w2) := by
  rw [List.get?_eq_getElem?] at hfv hj
  have hmap : ∀ b, ∃ w2, ((fields.map (Value.storeAt b v)).get? j) = some (.ptrTo a w2) := by
    intro b
    simp only [List.get?_eq_getElem?, List.getElem?_map, hj, Option.map_some', Value.storeAt]
    split_ifs
    · exact ⟨v, rfl⟩
    · exact ⟨w, rfl⟩
  have hset : j ≠ idx → ∃ w2, ((fields.set idx v).get? j) = some (.ptrTo a w2) := by
    intro hne
    exact ⟨w, by simp [List.getElem?_set, Ne.symm hne, hj]⟩
  unfold storeField
  by_cases hp : f.Typ.Kind = Kind.Ptr
  · simp only [hp, beq_self_eq_true, if_true]
    cases fv with
    | ptrTo b u => exact hmap b
    | _ =>
      apply hset
      intro hji
      subst hji
      rw [hfv] at hj
      cases hj
  · have hne : j ≠ idx := fun h => hp (hty h)
    simp only [beq_iff_eq, hp, if_false]
    exact hset hne

/-- A write leaves a field that is no pointer, and is not the one written, as
it is. -/
theorem storeField_get_other (f : StructField) (idx : Nat) (fv v : Value)
    (fields : List Value) (j : Nat) (x : Value) (hj : fields.get? j = some x)
    (hx : ∀ a w, x ≠ .ptrTo a w) (hne : j ≠ idx) :
    (storeField f idx fv v fields).get? j = some x := by
  rw [List.get?_eq_getElem?] at hj
  have hst : ∀ b, Value.storeAt b v x = x := by
    intro b
    cases x with
    | ptrTo c u => exact absurd rfl (hx c u)
    | _ => rfl
  unfold storeField
  split_ifs
  · split
    · simp [List.getElem?_map, hj, hst]
    · simp [List.getElem?_set, Ne.symm hne, hj]
  · simp [List.getElem?_set, Ne.symm hne, hj]

/-- After lines 285-287 a pointer field is set: to what it pointed to, or to
the new cell at the address `alloc`. -/
theorem allocIfNil_ptr (f : StructField) (fv : Value) (alloc : Nat)
    (hp : f.Typ.Kind = Kind.Ptr) :
    ∃ a w, (allocIfNil f fv alloc).1 = .ptrTo a w ∧
      (∀ a0 v0, fv = .ptrTo a0 v0 → a = a0) ∧
      (fv.IsNil = true → a = alloc ∧ (allocIfNil f fv alloc).2 = alloc + 1) := by
  unfold allocIfNil
  cases fv <;> simp [hp, Value.IsNil]

/-- A pointer field that is set keeps its address through the written
columns. -/
theorem scanPrefix_addr_kept (spec : graphStructSpec) (t : StructType) (row : List graphRow) :
    ∀ (pre : List String) (i : Nat) (fields fieldsP : List Value) (alloc allocP : Nat),
      scanPrefix spec t row pre i fields alloc = some (fieldsP, allocP) →
      ∀ j fj a w, t.fields.get? j = some fj → fj.Typ.Kind = Kind.Ptr →
        fields.get? j = some (.ptrTo a w) → ∃ w2, fieldsP.get? j = some (.ptrTo a w2) := by
  intro pre
  induction pre with
  | nil =>
    intro i fields fieldsP alloc allocP h j fj a w _ _ hj
    simp only [scanPrefix, Option.some.injEq, Prod.mk.injEq] at h
    rw [← h.1]
    exact ⟨w, hj⟩
  | cons key rest ih =>
    intro i fields fieldsP alloc allocP h j fj a w hfj hp hj
    obtain ⟨idx, f, fv, c, v, hk, hf, hfv, -, -, -, hrest⟩ :=
      scanPrefix_cons_gen spec t row key rest i fields fieldsP alloc allocP h
    have hidx : idx < fields.length := by
      rw [List.get?_eq_getElem?] at hfv
      exact (List.getElem?_eq_some_iff.mp hfv).1
    have hj1 : (fields.set idx (allocIfNil f fv alloc).1).get? j = some (.ptrTo a w) := by
      by_cases hji : j = idx
      · subst hji
        rw [hfv] at hj
        cases hj
        simp [List.getElem?_set, hidx, allocIfNil, Value.IsNil]
      · rw [← hj]
        simp [List.getElem?_set, Ne.symm hji]
    obtain ⟨w2, hw2⟩ := storeField_get_ptr f idx (allocIfNil f fv alloc).1 v _ j a w
      (by simp [List.getElem?_set, hidx]) hj1
      (by
        intro hji
        subst hji
        rw [hf] at hfj
        cases hfj
        exact hp)
    exact ih _ _ _ _ _ hrest j fj a w2 hfj hp hw2

/-- A pointer field that a written column is bound to is set afterwards,
whatever cells the record shares.  It points where it pointed before when it
was set, and to an address taken from the allocator during the scan when it
was nil. -/
theorem scanPrefix_ptr (spec : graphStructSpec) (t : StructType) (row : List graphRow) :
    ∀ (pre : List String) (i : Nat) (fields fieldsP : List Value) (alloc allocP : Nat),
      scanPrefix spec t row pre i fields alloc = some (fieldsP, allocP) →
      ∀ n key idx f, pre.get? n = some key → spec.m.get key = some idx →
        t.fields.get? idx = some f → f.Typ.Kind = Kind.Ptr →
        ∃ a v, fieldsP.get? idx = some (.ptrTo a v) ∧
          (∀ a0 v0, fields.get? idx = some (.ptrTo a0 v0) → a = a0) ∧
          (∀ fv, fields.get? idx = some fv → fv.IsNil = true → alloc ≤ a ∧ a < allocP) := by
  intro pre
  induction pre with
  | nil => intro i fields fieldsP alloc allocP _ n key idx f hn; simp at hn
  | cons key rest ih =>
    intro i fields fieldsP alloc allocP h n key2 idx2 f2 hn hk2 hf2 hp
    obtain ⟨idx, f, fv, c, v, hk, hf, hfv, hc, hexp, hv, hrest⟩ :=
      scanPrefix_cons_gen spec t row key rest i fields fieldsP alloc allocP h
    have hallocP := scanPrefix_alloc_le spec t row rest _ _ _ _ _ hrest
    have hal := allocIfNil_alloc f fv alloc
    have hidx : idx < fields.length := by
      rw [List.get?_eq_getElem?] at hfv
      exact (List.getElem?_eq_some_iff.mp hfv).1
    have hfv1 : (fields.set idx (allocIfNil f fv alloc).1).get? idx =
        some (allocIfNil f fv alloc).1 := by
      simp [List.getElem?_set, hidx]
    by_cases hsame : idx2 = idx
    · have e1 : idx = idx2 := hsame.symm
      subst e1
      have e2 : f = f2 := Option.some.inj (hf.symm.trans hf2)
      subst e2
      obtain ⟨a, w, hst, hold, hnew⟩ := allocIfNil_ptr f fv alloc hp
      obtain ⟨w2, hw2⟩ := storeField_get_ptr f idx (allocIfNil f fv alloc).1 v _ idx a w
        hfv1 (by rw [hfv1, hst]) (fun _ => hp)
      obtain ⟨w3, hw3⟩ := scanPrefix_addr_kept spec t row rest _ _ _ _ _ hrest idx f a w2 hf hp hw2
      refine ⟨a, w3, hw3, ?_, ?_⟩
      · intro a0 v0 h0
        rw [hfv] at h0
        cases h0
        exact hold a0 v0 rfl
      · intro fv2 h0 hnil
        rw [hfv] at h0
        cases h0
        obtain ⟨h1, h2⟩ := hnew hnil
        omega
    · cases n with
      | zero =>
        simp only [List.get?_cons_zero, Option.some.injEq] at hn
        subst hn
        exact absurd (Option.some.inj (hk2.symm.trans hk)) hsame
      | succ n =>
        obtain ⟨a2, v2, hP, hold2, hnew2⟩ :=
          ih _ _ _ _ _ hrest n key2 idx2 f2 (by simpa using hn) hk2 hf2 hp
        refine ⟨a2, v2, hP, ?_, ?_⟩
        · intro a0 v0 h0
          have hj1 : (fields.set idx (allocIfNil f fv alloc).1).get? idx2 =
              some (.ptrTo a0 v0) := by
            rw [← h0]
            simp [List.getElem?_set, Ne.symm hsame]
          obtain ⟨w2, hw2⟩ := storeField_get_ptr f idx (allocIfNil f fv alloc).1 v _ idx2 a0 v0
            hfv1 hj1 (fun e => absurd e hsame)
          exact hold2 a0 w2 hw2
        · intro fv2 h0 hnil
          have hx : ∀ a w, fv2 ≠ .ptrTo a w := by
            intro a w e
            subst e
            simp [Value.IsNil] at hnil
          have hj1 : (fields.set idx (allocIfNil f fv alloc).1).get? idx2 = some fv2 := by
            rw [← h0]
            simp [List.getElem?_set, Ne.symm hsame]
          have := hnew2 fv2 (storeField_get_other f idx _ v _ idx2 fv2 hj1 hx hsame) hnil
          omega

/-! ## Fields no column is bound to, whatever cells the record shares -/

theorem Value.samePointer_iff (x y : Value) :
    x.samePointer y = true ↔ (∃ a v w, x = .ptrTo a v ∧ y = .ptrTo a w) ∨ x = y := by
  cases x <;> cases y <;> simp [Value.samePointer]
  constructor
  · intro h; exact Or.inl h.symm
  · rintro (h | h)
    · exact h.symm
    · exact h.1

theorem Value.samePointer_refl (x : Value) : x.samePointer x = true :=
  (Value.samePointer_iff x x).mpr (Or.inr rfl)

theorem Value.samePointer_trans (x y z : Value) (h1 : x.samePointer y = true)
    (h2 : y.samePointer z = true) : x.samePointer z = true := by
  rw [Value.samePointer_iff] at h1 h2 ⊢
  rcases h1 with ⟨a, v, w, rfl, rfl⟩ | rfl
  · rcases h2 with ⟨b, v2, w2, h, rfl⟩ | rfl
    · cases h
      exact Or.inl ⟨a, v, w2, rfl, rfl⟩
    · exact Or.inl ⟨a, v, w, rfl, rfl⟩
  · exact h2

theorem Value.samePointer_storeAt (a : Nat) (v x : Value) :
    x.samePointer (Value.storeAt a v x) = true := by
  cases x <;> simp [Value.storeAt, Value.samePointer]
  split_ifs <;> simp [Value.samePointer]

/-- A write leaves every field but the one written the same, up to what the
cells of pointers hold. -/
theorem storeField_unbound (f : StructField) (idx : Nat) (fv v : Value) (fields : List Value)
    (j : Nat) (x : Value) (hne : j ≠ idx) (hj : fields.get? j = some x) :
    ∃ y, (storeField f idx fv v fields).get? j = some y ∧ x.samePointer y = true := by
  rw [List.get?_eq_getElem?] at hj
  have hset : (fields.set idx v).get? j = some x := by
    simp [List.getElem?_set, Ne.symm hne, hj]
  unfold storeField
  split_ifs
  · split
    · rename_i b u
      exact ⟨Value.storeAt b v x, by simp [List.getElem?_map, hj],
        Value.samePointer_storeAt b v x⟩
    · exact ⟨x, hset, Value.samePointer_refl x⟩
  · exact ⟨x, hset, Value.samePointer_refl x⟩

/-- An iteration leaves a field its column is not bound to the same, up to
what the cells of pointers hold, however it ends. -/
theorem scanColumn_unbound (spec : graphStructSpec) (t : StructType) (row : List graphRow)
    (key : String) (i : Nat) (fields : List Value) (alloc : Nat) (j : Nat) (x : Value)
    (hj : spec.m.get key ≠ some j) (hx : fields.get? j = some x) :
    ∃ y, (scanColumn spec t row key i fields alloc).fields.get? j = some y ∧
      x.samePointer y = true := by
  have hsame : ∃ y, fields.get? j = some y ∧ x.samePointer y = true :=
    ⟨x, hx, Value.samePointer_refl x⟩
  cases hk : spec.m.get key with
  | none => simp only [scanColumn, hk]; exact hsame
  | some idx =>
    have hne : j ≠ idx := fun e => hj (by rw [hk, e])
    cases hf : t.fields.get? idx with
    | none => simp only [scanColumn, hk, hf]; exact hsame
    | some f =>
      cases hfv : fields.get? idx with
      | none => simp only [scanColumn, hk, hf, hfv]; exact hsame
      | some fv =>
        have hset : (fields.set idx (allocIfNil f fv alloc).1).get? j = some x := by
          rw [← hx]
          simp [List.getElem?_set, Ne.symm hne]
        have hset2 : ∃ y, (fields.set idx (allocIfNil f fv alloc).1).get? j = some y ∧
            x.samePointer y = true := ⟨x, hset, Value.samePointer_refl x⟩
        have hstore := fun v => storeField_unbound f idx (allocIfNil f fv alloc).1 v
          (fields.set idx (allocIfNil f fv alloc).1) j x hne hset
        simp only [scanColumn, hk, hf, hfv]
        split_ifs
        all_goals (try split)
        all_goals (try split_ifs)
        all_goals (try split)
        all_goals first | exact hsame | exact hset2 | exact hstore _

/-- The loop leaves a field none of its columns is bound to the same, up to
what the cells of pointers hold, however it ends. -/
theorem scanStructLoop_unbound (spec : graphStructSpec) (t : StructType) (row : List graphRow) :
    ∀ (cols : List String) (i : Nat) (fields : List Value) (alloc : Nat) (j : Nat) (x : Value),
      (∀ key ∈ cols, spec.m.get key ≠ some j) → fields.get? j = some x →
      ∃ y, (scanStructLoop spec t row cols i fields alloc).2.1.get? j = some y ∧
        x.samePointer y = true := by
  intro cols
  induction cols with
  | nil => intro i fields alloc j x _ hx; exact ⟨x, hx, Value.samePointer_refl x⟩
  | cons key rest ih =>
    intro i fields alloc j x hj hx
    obtain ⟨y, hy, hxy⟩ := scanColumn_unbound spec t row key i fields alloc j x
      (hj key (List.mem_cons_self _ _)) hx
    rcases hs : scanColumn spec t row key i fields alloc with ⟨o, f1, a1⟩
    rw [hs] at hy
    cases o with
    | some o =>
      rw [scanStructLoop_cons_some _ _ _ _ _ _ _ _ _ _ _ hs]
      exact ⟨y, hy, hxy⟩
    | none =>
      rw [scanStructLoop_cons_none _ _ _ _ _ _ _ _ _ _ hs]
      obtain ⟨z, hz, hyz⟩ := ih (i + 1) f1 a1 j y
        (fun k hk => hj k (List.mem_cons_of_mem _ hk)) hy
      exact ⟨z, hz, Value.samePointer_trans x y z hxy hyz⟩

/-- The written columns leave a field none of them is bound to the same, up to
what the cells of pointers hold. -/
theorem scanPrefix_unbound (spec : graphStructSpec) (t : StructType) (row : List graphRow) :
    ∀ (pre : List String) (i : Nat) (fields fieldsP : List Value) (alloc allocP : Nat),
      scanPrefix spec t row pre i fields alloc = some (fieldsP, allocP) →
      ∀ j x, (∀ key ∈ pre, spec.m.get key ≠ some j) → fields.get? j = some x →
        ∃ y, fieldsP.get? j = some y ∧ x.samePointer y = true := by
  intro pre
  induction pre with
  | nil =>
    intro i fields fieldsP alloc allocP h j x _ hx
    simp only [scanPrefix, Option.some.injEq, Prod.mk.injEq] at h
    rw [← h.1]
    exact ⟨x, hx, Value.samePointer_refl x⟩
  | cons key rest ih =>
    intro i fields fieldsP alloc allocP h j x hj hx
    obtain ⟨y, hy, hxy⟩ := scanColumn_unbound spec t row key i fields alloc j x
      (hj key (List.mem_cons_self _ _)) hx
    rcases hs : scanColumn spec t row key i fields alloc with ⟨o, f1, a1⟩
    rw [hs] at hy
    cases o with
    | some o => simp [scanPrefix, hs] at h
    | none =>
      simp only [scanPrefix, hs] at h
      obtain ⟨z, hz, hyz⟩ := ih (i + 1) f1 fieldsP a1 allocP h j y
        (fun k hk => hj k (List.mem_cons_of_mem _ hk)) hy
      exact ⟨z, hz, Value.samePointer_trans x y z hxy hyz⟩

/-- A field holds, behind its pointer if it is one, the value bound from the
cell of the last written column that is bound to it. -/
theorem scanPrefix_value (spec : graphStructSpec) (t : StructType) (row : List graphRow) :
    ∀ (pre : List String) (i : Nat) (fields fieldsP : List Value) (alloc allocP : Nat),
      scanPrefix spec t row pre i fields alloc = some (fieldsP, allocP) →
      Separate fields alloc →
      ∀ n key idx f c, pre.get? n = some key → spec.m.get key = some idx →
        t.fields.get? idx = some f → row.get? (i + n) = some c →
        (∀ m key2, n < m → pre.get? m = some key2 → spec.m.get key2 ≠ some idx) →
        ∃ v, boundValue f.Typ.target c = some v ∧
          (fieldsP.get? idx).map Value.deref = some v := by
  intro pre
  induction pre with
  | nil => intro i fields fieldsP alloc allocP _ _ n key idx f c hn; simp at hn
  | cons key rest ih =>
    intro i fields fieldsP alloc allocP h hsep n key2 idx2 f2 c2 hn hk2 hf2 hc2 hlast
    obtain ⟨idx, f, fv, c, v, hk, hf, hfv, hc, hexp, hv, hrest, hsep1⟩ :=
      scanPrefix_cons_inv spec t row key rest i fields fieldsP alloc allocP h hsep
    cases n with
    | zero =>
      simp only [List.get?_cons_zero, Option.some.injEq] at hn
      subst hn
      have e1 : idx = idx2 := Option.some.inj (hk.symm.trans hk2)
      subst e1
      have e2 : f = f2 := Option.some.inj (hf.symm.trans hf2)
      subst e2
      rw [Nat.add_zero] at hc2
      have e3 : c = c2 := Option.some.inj (hc.symm.trans hc2)
      subst e3
      have hb := scanValue_value_bound _ _ _ hv
      refine ⟨v, hb, ?_⟩
      have hnot : ∀ k ∈ rest, spec.m.get k ≠ some idx := by
        intro k hkr
        obtain ⟨m, hm⟩ := List.mem_iff_getElem?.mp hkr
        exact hlast (m + 1) k (Nat.succ_pos m) (by simpa using hm)
      rw [scanPrefix_frame spec t row rest _ _ _ _ _ hrest hsep1 idx hnot]
      have hidx : idx < fields.length := by
        rw [List.get?_eq_getElem?] at hfv
        exact (List.getElem?_eq_some_iff.mp hfv).1
      simp only [List.get?_eq_getElem?, List.getElem?_set, hidx, if_true, Option.map_some']
      congr 1
      exact fieldAfterWrite_deref f _ v (boundValue_deref _ _ _ hb)
    | succ n =>
      apply ih _ _ _ _ _ hrest hsep1 n key2 idx2 f2 c2 (by simpa using hn) hk2 hf2
      · rw [← hc2]; congr 1; omega
      · intro m key3 hm hk3
        exact hlast (m + 1) key3 (by omega) (by simpa using hk3)

/-- The nil pointer field of the first written column points, in the end, to
the address the allocator stood at. -/
theorem scanPrefix_head_fresh (spec : graphStructSpec) (t : StructType) (row : List graphRow)
    (key : String) (rest : List String) (i : Nat) (fields fieldsP : List Value)
    (alloc allocP : Nat) (idx : Nat) (f : StructField) (fv : Value)
    (h : scanPrefix spec t row (key :: rest) i fields alloc = some (fieldsP, allocP))
    (hsep : Separate fields alloc)
    (hk : spec.m.get key = some idx) (hf : t.fields.get? idx = some f)
    (hfv : fields.get? idx = some fv) (hp : f.Typ.Kind = Kind.Ptr) (hnil : fv.IsNil = true) :
    ∃ v, fieldsP.get? idx = some (.ptrTo alloc v) := by
  obtain ⟨a, v, hP, -, -⟩ := scanPrefix_ptr spec t row (key :: rest) i fields fieldsP alloc allocP
    h 0 key idx f rfl hk hf hp
  obtain ⟨idx2, f2, fv2, c, v2, hk2, hf2, hfv2, -, -, -, hrest, hsep1⟩ :=
    scanPrefix_cons_inv spec t row key rest i fields fieldsP alloc allocP h hsep
  have e1 : idx = idx2 := Option.some.inj (hk.symm.trans hk2)
  subst e1
  have e2 : f = f2 := Option.some.inj (hf.symm.trans hf2)
  subst e2
  have e3 : fv = fv2 := Option.some.inj (hfv.symm.trans hfv2)
  subst e3
  have hidx : idx < fields.length := by
    rw [List.get?_eq_getElem?] at hfv
    exact (List.getElem?_eq_some_iff.mp hfv).1
  obtain ⟨a1, hst, -, hnew⟩ := fieldAfterWrite_ptr f fv v2 alloc hp
  obtain ⟨ha1, -⟩ := hnew hnil
  subst ha1
  have hF1 : (fields.set idx (fieldAfterWrite f (allocIfNil f fv a1).1 v2)).get? idx =
      some (.ptrTo a1 v2) := by
    simp [List.getElem?_set, hidx, hst]
  by_cases hhit : ∃ m key3, rest.get? m = some key3 ∧ spec.m.get key3 = some idx
  · obtain ⟨m, key3, hm, hk3⟩ := hhit
    obtain ⟨a3, v3, hP3, hold3, -⟩ := scanPrefix_ptr spec t row rest _ _ _ _ _ hrest m key3 idx f
      hm hk3 hf hp
    have e4 : a3 = a1 := hold3 a1 v2 hF1
    subst e4
    exact ⟨v3, hP3⟩
  · refine ⟨v2, ?_⟩
    rw [scanPrefix_frame spec t row rest _ _ _ _ _ hrest hsep1 idx ?_, hF1]
    intro k hkr hkk
    obtain ⟨m, hm⟩ := List.mem_iff_getElem?.mp hkr
    exact hhit ⟨m, k, by simpa using hm, hkk⟩

/-- Two different pointer fields that were nil and are bound to written
columns end up pointing to different addresses. -/
theorem scanPrefix_fresh_distinct (spec : graphStructSpec) (t : StructType)
    (row : List graphRow) :
    ∀ (pre : List String) (i : Nat) (fields fieldsP : List Value) (alloc allocP : Nat),
      scanPrefix spec t row pre i fields alloc = some (fieldsP, allocP) →
      Separate fields alloc →
      ∀ n1 key1 idx1 f1 fv1 a1 v1 n2 key2 idx2 f2 fv2 a2 v2,
        pre.get? n1 = some key1 → spec.m.get key1 = some idx1 →
        t.fields.get? idx1 = some f1 → f1.Typ.Kind = Kind.Ptr →
        fields.get? idx1 = some fv1 → fv1.IsNil = true →
        fieldsP.get? idx1 = some (.ptrTo a1 v1) →
        pre.get? n2 = some key2 → spec.m.get key2 = some idx2 →
        t.fields.get? idx2 = some f2 → f2.Typ.Kind = Kind.Ptr →
        fields.get? idx2 = some fv2 → fv2.IsNil = true →
        fieldsP.get? idx2 = some (.ptrTo a2 v2) →
        idx1 ≠ idx2 → a1 ≠ a2 := by
  intro pre
  induction pre with
  | nil =>
    intro i fields fieldsP alloc allocP _ _ n1 key1 idx1 f1 fv1 a1 v1 n2 key2 idx2 f2 fv2 a2 v2 hn1
    simp at hn1
  | cons key rest ih =>
    intro i fields fieldsP alloc allocP h hsep n1 key1 idx1 f1 fv1 a1 v1 n2 key2 idx2 f2 fv2 a2 v2
      hn1 hk1 hf1 hp1 hfv1 hnil1 hP1 hn2 hk2 hf2 hp2 hfv2 hnil2 hP2 hne
    obtain ⟨idx, f, fv, c, v, hk, hf, hfv, -, -, -, hrest, hsep1⟩ :=
      scanPrefix_cons_inv spec t row key rest i fields fieldsP alloc allocP h hsep
    -- a column of the tail bound to a field other than the head's
    have tail : ∀ n3 key3 idx3 f3 fv3 a3 v3, (key :: rest).get? n3 = some key3 →
        spec.m.get key3 = some idx3 → t.fields.get? idx3 = some f3 → f3.Typ.Kind = Kind.Ptr →
        fields.get? idx3 = some fv3 → fv3.IsNil = true →
        fieldsP.get? idx3 = some (.ptrTo a3 v3) → idx3 ≠ idx →
        ∃ m, rest.get? m = some key3 ∧
          (fields.set idx (fieldAfterWrite f (allocIfNil f fv alloc).1 v)).get? idx3 = some fv3 ∧
          (allocIfNil f fv alloc).2 ≤ a3 := by
      intro n3 key3 idx3 f3 fv3 a3 v3 hn3 hk3 hf3 hp3 hfv3 hnil3 hP3 hne3
      cases n3 with
      | zero =>
        simp only [List.get?_cons_zero, Option.some.injEq] at hn3
        subst hn3
        exact absurd (Option.some.inj (hk3.symm.trans hk)) hne3
      | succ m =>
        have hF1 : (fields.set idx (fieldAfterWrite f (allocIfNil f fv alloc).1 v)).get? idx3 =
            some fv3 := by
          rw [← hfv3]
          simp [List.getElem?_set, Ne.symm hne3]
        obtain ⟨a4, v4, hP4, -, hnew4⟩ := scanPrefix_ptr spec t row rest _ _ _ _ _ hrest m key3
          idx3 f3 (by simpa using hn3) hk3 hf3 hp3
        rw [hP3] at hP4
        cases hP4
        exact ⟨m, by simpa using hn3, hF1, (hnew4 fv3 hF1 hnil3).1⟩
    -- the head's field, when it is the nil pointer field at hand
    have head : ∀ idx3 f3 fv3 a3 v3, idx3 = idx → t.fields.get? idx3 = some f3 →
        f3.Typ.Kind = Kind.Ptr → fields.get? idx3 = some fv3 → fv3.IsNil = true →
        fieldsP.get? idx3 = some (.ptrTo a3 v3) →
        a3 = alloc ∧ (allocIfNil f fv alloc).2 = alloc + 1 := by
      intro idx3 f3 fv3 a3 v3 he hf3 hp3 hfv3 hnil3 hP3
      subst he
      have e2 : f = f3 := Option.some.inj (hf.symm.trans hf3)
      subst e2
      have e3 : fv = fv3 := Option.some.inj (hfv.symm.trans hfv3)
      subst e3
      obtain ⟨v5, hP5⟩ := scanPrefix_head_fresh spec t row key rest i fields fieldsP alloc allocP
        idx3 f fv h hsep hk hf hfv hp3 hnil3
      rw [hP3] at hP5
      simp only [Option.some.injEq, Value.ptrTo.injEq] at hP5
      exact ⟨hP5.1, (fieldAfterWrite_ptr f fv v alloc hp3).choose_spec.2.2 hnil3 |>.2⟩
    by_cases h1 : idx1 = idx
    · have h2 : idx2 ≠ idx := fun h2 => hne (h1.trans h2.symm)
      obtain ⟨ha1, hal⟩ := head idx1 f1 fv1 a1 v1 h1 hf1 hp1 hfv1 hnil1 hP1
      obtain ⟨-, -, -, hge⟩ := tail n2 key2 idx2 f2 fv2 a2 v2 hn2 hk2 hf2 hp2 hfv2 hnil2 hP2 h2
      omega
    · by_cases h2 : idx2 = idx
      · obtain ⟨ha2, hal⟩ := head idx2 f2 fv2 a2 v2 h2 hf2 hp2 hfv2 hnil2 hP2
        obtain ⟨-, -, -, hge⟩ := tail n1 key1 idx1 f1 fv1 a1 v1 hn1 hk1 hf1 hp1 hfv1 hnil1 hP1 h1
        omega
      · obtain ⟨m1, hm1, hF1, -⟩ :=
          tail n1 key1 idx1 f1 fv1 a1 v1 hn1 hk1 hf1 hp1 hfv1 hnil1 hP1 h1
        obtain ⟨m2, hm2, hF2, -⟩ :=
          tail n2 key2 idx2 f2 fv2 a2 v2 hn2 hk2 hf2 hp2 hfv2 hnil2 hP2 h2
        exact ih _ _ _ _ _ hrest hsep1 m1 key1 idx1 f1 fv1 a1 v1 m2 key2 idx2 f2 fv2 a2 v2
          hm1 hk1 hf1 hp1 hF1 hnil1 hP1 hm2 hk2 hf2 hp2 hF2 hnil2 hP2 hne

theorem allocIfNil_of_written (f : StructField) (fv : Value) (alloc : Nat)
    (h : f.Typ.Kind = Kind.Ptr → fv.IsNil = false) : (allocIfNil f fv alloc).1 = fv := by
  unfold allocIfNil
  by_cases hp : f.Typ.Kind = Kind.Ptr
  · simp [hp, h hp]
  · simp [hp]

/-! ## C11 -/

/-- C11: when `scanStruct` returns a fault `e` (a type mismatch in particular),
there is a column `k`, matched to a field, whose cell raised `e` at line 298
or in the switch, while every column before `k` was matched and converted
(`k` is the first offending column).  Nothing is rolled back.  A field that
no column up to `k` is bound to is as it was before the call, up to what the
cell of a pointer holds (a pointer keeps its address).  When the pointer
fields of the record point to cells of their own (`Separate`), such a field is
as it was altogether, and every field bound to a column before `k` holds,
behind its pointer if it is one, the value bound from the cell of the last
such column. -/
theorem C11_fault_leaves_earlier_columns_bound (g : GraphResult) (spec : graphStructSpec)
    (t : StructType) (fields : List Value) (alloc : Nat) (row : List graphRow) (e : GraphError)
    (h : (scanStruct g spec t fields alloc row).1 = .fault e) :
    ∃ k key idx f c, g.field.get? k = some key ∧ spec.m.get key = some idx ∧
      t.fields.get? idx = some f ∧ row.get? k = some c ∧
      (((f.Typ.target.Kind != Kind.Struct && c.typ != graphResultBasic) = true ∧
          e = .cannotScanInto) ∨
        scanValue f.Typ.target c = .fault e) ∧
      (∀ n key2, n < k → g.field.get? n = some key2 →
        ∃ idx2 f2 c2 v, spec.m.get key2 = some idx2 ∧ t.fields.get? idx2 = some f2 ∧
          row.get? n = some c2 ∧ scanValue f2.Typ.target c2 = .value v) ∧
      (∀ j x, (∀ n key2, n ≤ k → g.field.get? n = some key2 → spec.m.get key2 ≠ some j) →
        fields.get? j = some x →
        ∃ y, (scanStruct g spec t fields alloc row).2.1.get? j = some y ∧
          x.samePointer y = true) ∧
      (Separate fields alloc →
        (∀ n key2 idx2 f2 c2, n < k → g.field.get? n = some key2 →
          spec.m.get key2 = some idx2 → t.fields.get? idx2 = some f2 → row.get? n = some c2 →
          (∀ m key3, n < m → m < k → g.field.get? m = some key3 →
            spec.m.get key3 ≠ some idx2) →
          ∃ v, boundValue f2.Typ.target c2 = some v ∧
            ((scanStruct g spec t fields alloc row).2.1.get? idx2).map Value.deref = some v) ∧
        (∀ j, (∀ n key2, n ≤ k → g.field.get? n = some key2 → spec.m.get key2 ≠ some j) →
          (scanStruct g spec t fields alloc row).2.1.get? j = fields.get? j)) := by
  rcases hs : scanStruct g spec t fields alloc row with ⟨o, fields2, alloc2⟩
  rw [hs] at h
  simp only at h
  subst h
  unfold scanStruct at hs
  obtain ⟨pre, key, post, fieldsP, allocP, hcols, hpre, hcol⟩ :=
    scanStructLoop_fault_split spec t row g.field 0 fields alloc e fields2 alloc2 hs
  obtain ⟨idx, f, fvP, c, hk, hf, hfvP, hc, hF, -, hwhy⟩ :=
    scanColumn_fault_inv spec t row key (0 + pre.length) fieldsP fields2 allocP alloc2 e hcol
  have hget : ∀ n, n < pre.length → g.field.get? n = pre.get? n := by
    intro n hn
    rw [hcols]
    simp [List.getElem?_append_left hn]
  have hgetk : g.field.get? pre.length = some key := by
    rw [hcols, List.get?_eq_getElem?, List.getElem?_append_right (Nat.le_refl _)]
    simp
  refine ⟨pre.length, key, idx, f, c, hgetk, hk, hf, by simpa using hc, hwhy, ?_, ?_, ?_⟩
  · intro n key2 hn hn2
    rw [hget n hn] at hn2
    obtain ⟨idx2, f2, c2, v, h1, h2, h3, -, h5⟩ :=
      scanPrefix_matched spec t row pre 0 fields fieldsP alloc allocP hpre n key2 hn2
    exact ⟨idx2, f2, c2, v, h1, h2, by simpa using h3, h5⟩
  · intro j x hj hx
    simp only
    rw [hF]
    have hne : idx ≠ j := fun hij => hj pre.length key (Nat.le_refl _) hgetk (by rw [hk, hij])
    obtain ⟨y, hy, hxy⟩ := scanPrefix_unbound spec t row pre 0 fields fieldsP alloc allocP hpre
      j x
      (by
        intro k2 hk2
        obtain ⟨m, hm⟩ := List.mem_iff_getElem?.mp hk2
        have hml : m < pre.length := (List.getElem?_eq_some_iff.mp hm).1
        exact hj m k2 (Nat.le_of_lt hml) (by rw [hget m hml]; simpa using hm))
      hx
    refine ⟨y, ?_, hxy⟩
    rw [← hy]
    simp [List.getElem?_set, hne]
  · intro hsep
    refine ⟨?_, ?_⟩
    · intro n key2 idx2 f2 c2 hn hn2 hk2 hf2 hc2 hlast
      rw [hget n hn] at hn2
      obtain ⟨v, hb, hval⟩ := scanPrefix_value spec t row pre 0 fields fieldsP alloc allocP hpre
        hsep n key2 idx2 f2 c2 hn2 hk2 hf2 (by simpa using hc2)
        (by
          intro m key3 hm hm3
          have hml : m < pre.length := by
            rw [List.get?_eq_getElem?] at hm3
            exact (List.getElem?_eq_some_iff.mp hm3).1
          exact hlast m key3 hm hml (by rw [hget m hml]; exact hm3))
      refine ⟨v, hb, ?_⟩
      simp only
      rw [hF]
      by_cases hsame : idx2 = idx
      · have e1 : idx = idx2 := hsame.symm
        subst e1
        have e2 : f = f2 := Option.some.inj (hf.symm.trans hf2)
        subst e2
        have hw : (allocIfNil f fvP allocP).1 = fvP := by
          apply allocIfNil_of_written
          intro hp
          obtain ⟨a, v2, hP, -, -⟩ := scanPrefix_ptr spec t row pre 0 fields fieldsP alloc allocP
            hpre n key2 idx f hn2 hk2 hf hp
          rw [hfvP] at hP
          cases hP
          rfl
        rw [hw]
        have hidx : idx < fieldsP.length := by
          rw [List.get?_eq_getElem?] at hfvP
          exact (List.getElem?_eq_some_iff.mp hfvP).1
        rw [← hval, hfvP]
        simp [List.getElem?_set, hidx]
      · rw [← hval]
        simp [List.getElem?_set, Ne.symm hsame]
    · intro j hj
      simp only
      rw [hF]
      have hne : idx ≠ j := fun hij => hj pre.length key (Nat.le_refl _) hgetk (by rw [hk, hij])
      have hframe := scanPrefix_frame spec t row pre 0 fields fieldsP alloc allocP hpre hsep j
        (by
          intro k2 hk2
          obtain ⟨m, hm⟩ := List.mem_iff_getElem?.mp hk2
          have hml : m < pre.length := (List.getElem?_eq_some_iff.mp hm).1
          exact hj m k2 (Nat.le_of_lt hml) (by rw [hget m hml]; simpa using hm))
      rw [← hframe]
      simp [List.getElem?_set, hne]

/-- C11, witness: the row `(7, "pod1", 3)` under the columns `id`, `name`, `p`,
scanned into a record whose field `p` is node-shaped. -/
theorem C11_witness :
    Separate (zeroRecord tIdNameP) 0 ∧
    ∃ k key idx f c, resIdNameP.field.get? k = some key ∧
      (newStructSpec tIdNameP "redis").m.get key = some idx ∧
      tIdNameP.fields.get? idx = some f ∧
      [cellInt 7, cellText "pod1", cellInt 3].get? k = some c ∧
      (((f.Typ.target.Kind != Kind.Struct && c.typ != graphResultBasic) = true ∧
          GraphError.notNodeType = .cannotScanInto) ∨
        scanValue f.Typ.target c = .fault .notNodeType) ∧
      (∀ n key2, n < k → resIdNameP.field.get? n = some key2 →
        ∃ idx2 f2 c2 v, (newStructSpec tIdNameP "redis").m.get key2 = some idx2 ∧
          tIdNameP.fields.get? idx2 = some f2 ∧
          [cellInt 7, cellText "pod1", cellInt 3].get? n = some c2 ∧
          scanValue f2.Typ.target c2 = .value v) ∧
      (∀ j x, (∀ n key2, n ≤ k → resIdNameP.field.get? n = some key2 →
          (newStructSpec tIdNameP "redis").m.get key2 ≠ some j) →
        (zeroRecord tIdNameP).get? j = some x →
        ∃ y, (scanStruct resIdNameP (newStructSpec tIdNameP "redis") tIdNameP
          (zeroRecord tIdNameP) 0 [cellInt 7, cellText "pod1", cellInt 3]).2.1.get? j = some y ∧
          x.samePointer y = true) ∧
      (Separate (zeroRecord tIdNameP) 0 →
        (∀ n key2 idx2 f2 c2, n < k → resIdNameP.field.get? n = some key2 →
          (newStructSpec tIdNameP "redis").m.get key2 = some idx2 →
          tIdNameP.fields.get? idx2 = some f2 →
          [cellInt 7, cellText "pod1", cellInt 3].get? n = some c2 →
          (∀ m key3, n < m → m < k → resIdNameP.field.get? m = some key3 →
            (newStructSpec tIdNameP "redis").m.get key3 ≠ some idx2) →
          ∃ v, boundValue f2.Typ.target c2 = some v ∧
            ((scanStruct resIdNameP (newStructSpec tIdNameP "redis") tIdNameP
              (zeroRecord tIdNameP) 0 [cellInt 7, cellText "pod1", cellInt 3]).2.1.get? idx2).map
                Value.deref = some v) ∧
        (∀ j, (∀ n key2, n ≤ k → resIdNameP.field.get? n = some key2 →
            (newStructSpec tIdNameP "redis").m.get key2 ≠ some j) →
          (scanStruct resIdNameP (newStructSpec tIdNameP "redis") tIdNameP
            (zeroRecord tIdNameP) 0 [cellInt 7, cellText "pod1", cellInt 3]).2.1.get? j =
              (zeroRecord tIdNameP).get? j)) :=
  ⟨by decide,
    C11_fault_leaves_earlier_columns_bound resIdNameP (newStructSpec tIdNameP "redis") tIdNameP
      (zeroRecord tIdNameP) 0 [cellInt 7, cellText "pod1", cellInt 3] .notNodeType (by decide)⟩

/-- The record after the scan of `(7, "pod1", 3)` has stopped at the column
`p`: `id` and `name` are bound, the other two fields are as they were. -/
theorem scanStruct_fault_example :
    scanStruct resIdNameP (newStructSpec tIdNameP "redis") tIdNameP (zeroRecord tIdNameP) 0
        [cellInt 7, cellText "pod1", cellInt 3] =
      (.fault .notNodeType, [.int 7, .str "pod1", .str "", .node ⟨0, [], []⟩], 0) := by
  decide

/-! ## C19 -/

theorem list_set_self {α : Type} (l : List α) (i : Nat) (x : α)
    (h : l.get? i = some x) : l.set i x = l := by
  apply List.ext_getElem?
  intro j
  rw [List.get?_eq_getElem?] at h
  simp only [List.getElem?_set]
  split_ifs with h1 h2
  · subst h1; exact h.symm
  · subst h1; simp at h2; simp [h2]
  · rfl

/-- The iteration for a column bound to a pointer field that is set, on an
agreeing cell: no cell is made, and the bound value is written to the cell
the field points to, whatever else the record holds. -/
theorem scanColumn_write_through (spec : graphStructSpec) (t : StructType)
    (row : List graphRow) (key : String) (i : Nat) (fields : List Value) (alloc : Nat)
    (idx : Nat) (f : StructField) (c : graphRow) (a : Nat) (w : Value)
    (hk : spec.m.get key = some idx) (hf : t.fields.get? idx = some f)
    (hp : f.Typ.Kind = Kind.Ptr) (hfv : fields.get? idx = some (.ptrTo a w))
    (hc : row.get? i = some c) (hexp : f.exported = true)
    (hwf : c.wellFormed = true) (hag : kindAgrees f.Typ.target c = true) :
    ∃ v, boundValue f.Typ.target c = some v ∧
      scanColumn spec t row key i fields alloc =
        ⟨none, fields.map (Value.storeAt a v), alloc⟩ := by
  have hidx : idx < fields.length := by
    rw [List.get?_eq_getElem?] at hfv
    exact (List.getElem?_eq_some_iff.mp hfv).1
  obtain ⟨fv, v, hfv2, hb, heq⟩ :=
    scanColumn_agree_go spec t row key i fields alloc idx f c hk hf hidx hc hexp hwf hag
  rw [hfv] at hfv2
  cases hfv2
  have hal : allocIfNil f (.ptrTo a w) alloc = (.ptrTo a w, alloc) := by
    simp [allocIfNil, Value.IsNil]
  rw [hal] at heq
  simp only at heq
  rw [list_set_self fields idx _ hfv] at heq
  refine ⟨v, hb, ?_⟩
  rw [heq]
  simp [storeField, hp]

/-- C19: a write to a pointer field goes through the pointer.  For one column
bound to a settable pointer field that is set, with a cell that agrees with
it: the iteration makes no new cell, every field that points to the same cell
as the field holds the bound value afterwards, at the same address, and every
other field is as it was.  For a whole row, when every column has a field
and `scanStruct` returns no fault: every pointer field that a column is bound
to is set afterwards; a field that was set keeps its address; a field that
was nil points to an address taken from the allocator during this scan.  When
moreover the pointer fields of the record point to cells of their own
(`Separate`), the pointee is the value bound from the cell of the last column
bound to the field, and two fields that were nil get different addresses. -/
theorem C19_pointer_fields_are_set (g : GraphResult) (spec : graphStructSpec)
    (t : StructType) (fields : List Value) (alloc : Nat) (row : List graphRow)
    (hall : ∀ key ∈ g.field, spec.m.get key ≠ none)
    (hok : (scanStruct g spec t fields alloc row).1 = .ok) :
    (∀ (fields0 : List Value) (alloc0 n : Nat) (key : String) (idx : Nat) (f : StructField)
        (c : graphRow) (a : Nat) (w : Value),
      spec.m.get key = some idx → t.fields.get? idx = some f → f.Typ.Kind = Kind.Ptr →
      fields0.get? idx = some (.ptrTo a w) → row.get? n = some c → f.exported = true →
      c.wellFormed = true → kindAgrees f.Typ.target c = true →
      ∃ v, boundValue f.Typ.target c = some v ∧
        (scanColumn spec t row key n fields0 alloc0).outcome = none ∧
        (scanColumn spec t row key n fields0 alloc0).alloc = alloc0 ∧
        (∀ j w2, fields0.get? j = some (.ptrTo a w2) →
          (scanColumn spec t row key n fields0 alloc0).fields.get? j = some (.ptrTo a v)) ∧
        (∀ j x, fields0.get? j = some x → (∀ w2, x ≠ .ptrTo a w2) →
          (scanColumn spec t row key n fields0 alloc0).fields.get? j = some x)) ∧
    (∀ n key idx f, g.field.get? n = some key → spec.m.get key = some idx →
      t.fields.get? idx = some f → f.Typ.Kind = Kind.Ptr →
      ∃ a v, (scanStruct g spec t fields alloc row).2.1.get? idx = some (.ptrTo a v) ∧
        (∀ a0 v0, fields.get? idx = some (.ptrTo a0 v0) → a = a0) ∧
        (∀ fv, fields.get? idx = some fv → fv.IsNil = true →
          alloc ≤ a ∧ a < (scanStruct g spec t fields alloc row).2.2) ∧
        (Separate fields alloc → ∀ c, row.get? n = some c →
          (∀ m key2, n < m → g.field.get? m = some key2 → spec.m.get key2 ≠ some idx) →
          boundValue f.Typ.target c = some v)) ∧
    (Separate fields alloc →
      (∀ n1 key1 idx1 f1 fv1 a1 v1 n2 key2 idx2 f2 fv2 a2 v2,
        g.field.get? n1 = some key1 → spec.m.get key1 = some idx1 →
        t.fields.get? idx1 = some f1 → f1.Typ.Kind = Kind.Ptr →
        fields.get? idx1 = some fv1 → fv1.IsNil = true →
        (scanStruct g spec t fields alloc row).2.1.get? idx1 = some (.ptrTo a1 v1) →
        g.field.get? n2 = some key2 → spec.m.get key2 = some idx2 →
        t.fields.get? idx2 = some f2 → f2.Typ.Kind = Kind.Ptr →
        fields.get? idx2 = some fv2 → fv2.IsNil = true →
        (scanStruct g spec t fields alloc row).2.1.get? idx2 = some (.ptrTo a2 v2) →
        idx1 ≠ idx2 → a1 ≠ a2)) := by
  constructor
  · intro fields0 alloc0 n key idx f c a w hk hf hp hfv hc hexp hwf hag
    obtain ⟨v, hb, heq⟩ := scanColumn_write_through spec t row key n fields0 alloc0 idx f c a w
      hk hf hp hfv hc hexp hwf hag
    rw [heq]
    refine ⟨v, hb, rfl, rfl, ?_, ?_⟩
    · intro j w2 hj
      rw [List.get?_eq_getElem?] at hj
      simp [List.getElem?_map, hj, Value.storeAt]
    · intro j x hj hx
      rw [List.get?_eq_getElem?] at hj
      simp only [List.get?_eq_getElem?, List.getElem?_map, hj, Option.map_some',
        Option.some.injEq]
      cases x with
      | ptrTo b u =>
        have hne : b ≠ a := fun e => hx u (by rw [e])
        simp [Value.storeAt, hne]
      | _ => rfl
  rcases hs : scanStruct g spec t fields alloc row with ⟨o, fields2, alloc2⟩
  rw [hs] at hok
  simp only at hok
  subst hok
  unfold scanStruct at hs
  have hpre := scanStructLoop_ok_prefix spec t row g.field 0 fields alloc fields2 alloc2 hs hall
  constructor
  · intro n key idx f hn hk hf hp
    obtain ⟨a, v, hP, hold, hnew⟩ := scanPrefix_ptr spec t row g.field 0 fields fields2 alloc
      alloc2 hpre n key idx f hn hk hf hp
    refine ⟨a, v, hP, hold, hnew, ?_⟩
    intro hsep c hc hlast
    obtain ⟨v2, hb, hval⟩ := scanPrefix_value spec t row g.field 0 fields fields2 alloc alloc2
      hpre hsep n key idx f c hn hk hf (by simpa using hc) hlast
    rw [hP] at hval
    simp only [Option.map_some', Value.deref, Option.some.injEq] at hval
    rw [hb, hval]
  · intro hsep
    exact scanPrefix_fresh_distinct spec t row g.field 0 fields fields2 alloc alloc2 hpre hsep

/-- C19, witness: the row `(5, "a")` scanned into a record with a nil `*int`
field and a `*string` field that points to `"old"` at address 7, the
allocator standing at 8. -/
theorem C19_witness :
    Separate [Value.nilPtr, .ptrTo 7 (.str "old")] 8 ∧
    (∀ (fields0 : List Value) (alloc0 n : Nat) (key : String) (idx : Nat) (f : StructField)
        (c : graphRow) (a : Nat) (w : Value),
      (newStructSpec tPtrs "redis").m.get key = some idx → tPtrs.fields.get? idx = some f →
        f.Typ.Kind = Kind.Ptr →
      fields0.get? idx = some (.ptrTo a w) → [cellInt 5, cellText "a"].get? n = some c →
        f.exported = true →
      c.wellFormed = true → kindAgrees f.Typ.target c = true →
      ∃ v, boundValue f.Typ.target c = some v ∧
        (scanColumn (newStructSpec tPtrs "redis") tPtrs
          [cellInt 5, cellText "a"] key n fields0 alloc0).outcome = none ∧
        (scanColumn (newStructSpec tPtrs "redis") tPtrs
          [cellInt 5, cellText "a"] key n fields0 alloc0).alloc = alloc0 ∧
        (∀ j w2, fields0.get? j = some (.ptrTo a w2) →
          (scanColumn (newStructSpec tPtrs "redis") tPtrs
          [cellInt 5, cellText "a"] key n fields0 alloc0).fields.get? j = some (.ptrTo a v)) ∧
        (∀ j x, fields0.get? j = some x → (∀ w2, x ≠ .ptrTo a w2) →
          (scanColumn (newStructSpec tPtrs "redis") tPtrs
          [cellInt 5, cellText "a"] key n fields0 alloc0).fields.get? j = some x)) ∧
    (∀ n key idx f, resPtrs.field.get? n = some key →
      (newStructSpec tPtrs "redis").m.get key = some idx →
      tPtrs.fields.get? idx = some f → f.Typ.Kind = Kind.Ptr →
      ∃ a v, (scanStruct resPtrs (newStructSpec tPtrs "redis") tPtrs
          [Value.nilPtr, .ptrTo 7 (.str "old")] 8 [cellInt 5, cellText "a"]).2.1.get? idx =
            some (.ptrTo a v) ∧
        (∀ a0 v0, [Value.nilPtr, .ptrTo 7 (.str "old")].get? idx = some (.ptrTo a0 v0) → a = a0) ∧
        (∀ fv, [Value.nilPtr, .ptrTo 7 (.str "old")].get? idx = some fv → fv.IsNil = true →
          8 ≤ a ∧ a < (scanStruct resPtrs (newStructSpec tPtrs "redis") tPtrs
          [Value.nilPtr, .ptrTo 7 (.str "old")] 8 [cellInt 5, cellText "a"]).2.2) ∧
        (Separate [Value.nilPtr, .ptrTo 7 (.str "old")] 8 →
          ∀ c, [cellInt 5, cellText "a"].get? n = some c →
          (∀ m key2, n < m → resPtrs.field.get? m = some key2 →
            (newStructSpec tPtrs "redis").m.get key2 ≠ some idx) →
          boundValue f.Typ.target c = some v)) ∧
    (Separate [Value.nilPtr, .ptrTo 7 (.str "old")] 8 →
      (∀ n1 key1 idx1 f1 fv1 a1 v1 n2 key2 idx2 f2 fv2 a2 v2,
        resPtrs.field.get? n1 = some key1 → (newStructSpec tPtrs "redis").m.get key1 = some idx1 →
        tPtrs.fields.get? idx1 = some f1 → f1.Typ.Kind = Kind.Ptr →
        [Value.nilPtr, .ptrTo 7 (.str "old")].get? idx1 = some fv1 → fv1.IsNil = true →
        (scanStruct resPtrs (newStructSpec tPtrs "redis") tPtrs
          [Value.nilPtr, .ptrTo 7 (.str "old")] 8 [cellInt 5, cellText "a"]).2.1.get? idx1 =
            some (.ptrTo a1 v1) →
        resPtrs.field.get? n2 = some key2 → (newStructSpec tPtrs "redis").m.get key2 = some idx2 →
        tPtrs.fields.get? idx2 = some f2 → f2.Typ.Kind = Kind.Ptr →
        [Value.nilPtr, .ptrTo 7 (.str "old")].get? idx2 = some fv2 → fv2.IsNil = true →
        (scanStruct resPtrs (newStructSpec tPtrs "redis") tPtrs
          [Value.nilPtr, .ptrTo 7 (.str "old")] 8 [cellInt 5, cellText "a"]).2.1.get? idx2 =
            some (.ptrTo a2 v2) →
        idx1 ≠ idx2 → a1 ≠ a2)) :=
  ⟨by decide,
    C19_pointer_fields_are_set resPtrs (newStructSpec tPtrs "redis") tPtrs
    [.nilPtr, .ptrTo 7 (.str "old")] 8 [cellInt 5, cellText "a"] (by decide) (by decide)⟩

/-- The record of the witness after the scan: the nil field points to the new
address 8, the set field still points to address 7, and both pointees hold
the values of the row. -/
theorem scanStruct_pointer_example :
    scanStruct resPtrs (newStructSpec tPtrs "redis") tPtrs
        [.nilPtr, .ptrTo 7 (.str "old")] 8 [cellInt 5, cellText "a"] =
      (.ok, [.ptrTo 8 (.int 5), .ptrTo 7 (.str "a")], 9) := by
  decide

/-- Two pointer fields that share the cell at address 7, scanned with the row
`(1, 2)`: both writes go to that cell, which holds 2 in the end, and both
fields see it. -/
theorem scanStruct_shared_cell_example :
    scanStruct resAB (newStructSpec tTwoPtr "redis") tTwoPtr
        [.ptrTo 7 (.int 0), .ptrTo 7 (.int 0)] 8 [cellInt 1, cellInt 2] =
      (.ok, [.ptrTo 7 (.int 2), .ptrTo 7 (.int 2)], 8) := by
  decide

/-! ## Frame and allocator facts that hold however an iteration ends -/

/-- In a separate record an iteration changes no field but the one its column
is bound to, whatever its outcome. -/
theorem scanColumn_frame (spec : graphStructSpec) (t : StructType) (row : List graphRow)
    (key : String) (i : Nat) (fields : List Value) (alloc : Nat) (j : Nat)
    (hsep : Separate fields alloc) (hj : spec.m.get key ≠ some j) :
    (scanColumn spec t row key i fields alloc).fields.get? j = fields.get? j := by
  cases hk : spec.m.get key with
  | none => simp only [scanColumn, hk]
  | some idx =>
    have hne : idx ≠ j := fun e => hj (by rw [hk, e])
    cases hf : t.fields.get? idx with
    | none => simp only [scanColumn, hk, hf]
    | some f =>
      cases hfv : fields.get? idx with
      | none => simp only [scanColumn, hk, hf, hfv]
      | some fv =>
        have hidx : idx < fields.length := by
          rw [List.get?_eq_getElem?] at hfv
          exact (List.getElem?_eq_some_iff.mp hfv).1
        have hstore : ∀ v, (storeField f idx (allocIfNil f fv alloc).1 v
            (fields.set idx (allocIfNil f fv alloc).1))[j]? = fields[j]? := by
          intro v
          rw [storeField_of_separate f idx _ v _ _ (hsep.allocIfNil f idx fv hfv)
            (by simp [List.getElem?_set, hidx]), List.set_set]
          simp [List.getElem?_set, hne]
        simp only [scanColumn, hk, hf, hfv]
        split_ifs
        all_goals (try split)
        all_goals (try split_ifs)
        all_goals (try split)
        all_goals simp [List.getElem?_set, hne, hstore]

/-- An iteration never lowers the next unused address. -/
theorem scanColumn_alloc_le (spec : graphStructSpec) (t : StructType) (row : List graphRow)
    (key : String) (i : Nat) (fields : List Value) (alloc : Nat) :
    alloc ≤ (scanColumn spec t row key i fields alloc).alloc := by
  cases hk : spec.m.get key with
  | none => simp only [scanColumn, hk]; exact Nat.le_refl _
  | some idx =>
    cases hf : t.fields.get? idx with
    | none => simp only [scanColumn, hk, hf]; exact Nat.le_refl _
    | some f =>
      cases hfv : fields.get? idx with
      | none => simp only [scanColumn, hk, hf, hfv]; exact Nat.le_refl _
      | some fv =>
        have ha := allocIfNil_alloc f fv alloc
        simp only [scanColumn, hk, hf, hfv]
        split_ifs
        all_goals (try split)
        all_goals (try split_ifs)
        all_goals (try split)
        all_goals first | exact ha | exact Nat.le_refl _

/-- In a separate record the loop changes no field that none of its columns is
bound to, whatever its outcome. -/
theorem scanStructLoop_frame (spec : graphStructSpec) (t : StructType) (row : List graphRow) :
    ∀ (cols : List String) (i : Nat) (fields : List Value) (alloc : Nat) (j : Nat),
      Separate fields alloc → (∀ key ∈ cols, spec.m.get key ≠ some j) →
      (scanStructLoop spec t row cols i fields alloc).2.1.get? j = fields.get? j := by
  intro cols
  induction cols with
  | nil => intro i fields alloc j _ _; rfl
  | cons key rest ih =>
    intro i fields alloc j hsep hj
    have hfr := scanColumn_frame spec t row key i fields alloc j hsep
      (hj key (List.mem_cons_self _ _))
    rcases hs : scanColumn spec t row key i fields alloc with ⟨o, f1, a1⟩
    rw [hs] at hfr
    cases o with
    | some o =>
      rw [scanStructLoop_cons_some _ _ _ _ _ _ _ _ _ _ _ hs]
      exact hfr
    | none =>
      obtain ⟨-, -, -, -, -, -, -, -, -, -, -, -, -, hsep1⟩ :=
        scanColumn_none_inv_sep spec t row key i fields f1 alloc a1 hs hsep
      rw [scanStructLoop_cons_none _ _ _ _ _ _ _ _ _ _ hs,
        ih (i + 1) f1 a1 j hsep1 (fun k hk => hj k (List.mem_cons_of_mem _ hk))]
      exact hfr

/-- The loop never lowers the next unused address. -/
theorem scanStructLoop_alloc_le (spec : graphStructSpec) (t : StructType) (row : List graphRow) :
    ∀ (cols : List String) (i : Nat) (fields : List Value) (alloc : Nat),
      alloc ≤ (scanStructLoop spec t row cols i fields alloc).2.2 := by
  intro cols
  induction cols with
  | nil => intro i fields alloc; exact Nat.le_refl _
  | cons key rest ih =>
    intro i fields alloc
    have hle := scanColumn_alloc_le spec t row key i fields alloc
    rcases hs : scanColumn spec t row key i fields alloc with ⟨o, f1, a1⟩
    rw [hs] at hle
    cases o with
    | some o =>
      rw [scanStructLoop_cons_some _ _ _ _ _ _ _ _ _ _ _ hs]
      exact hle
    | none =>
      rw [scanStructLoop_cons_none _ _ _ _ _ _ _ _ _ _ hs]
      exact Nat.le_trans hle (ih (i + 1) f1 a1)

/-- A scan of one row never lowers the next unused address. -/
theorem scanStruct_alloc_le (g : GraphResult) (spec : graphStructSpec) (t : StructType)
    (fields : List Value) (alloc : Nat) (row : List graphRow) :
    alloc ≤ (scanStruct g spec t fields alloc row).2.2 :=
  scanStructLoop_alloc_le spec t row g.field 0 fields alloc

/-! ## C21 -/

/-- No key of the spec leads to a participating field whose key a later
participating field has as well. -/
theorem newStructSpec_shadowed (t : StructType) (fieldTag : String) (n m : Nat)
    (f f1 : StructField)
    (hn : (newStructSpec t fieldTag).m.get (splitFirst (f.TagGet fieldTag)) = some n)
    (hf1 : t.fields.get? m = some f1)
    (hkey : splitFirst (f1.TagGet fieldTag) = splitFirst (f.TagGet fieldTag)) (hne : m ≠ n)
    (key : String) : (newStructSpec t fieldTag).m.get key ≠ some m := by
  intro hm
  obtain ⟨f2, hf2, -, hk2⟩ := newStructSpec_sound t fieldTag key m hm
  rw [hf1] at hf2
  cases hf2
  rw [← hk2, hkey, hn] at hm
  exact hne (Option.some.inj hm).symm

/-- C21: `newStructSpec` is a total function, so a record type in which
several participating fields have one binding key gets a spec like any other.
When `f`, at position `n`, is the last participating field with its key, the
spec maps the key to `n`.  An iteration of `scanStruct` for a column of that
name writes to field `n` the value of a cell that agrees with the field (when
the field is settable).  However it ends, it leaves every other field as it
was, up to what the cell of a pointer holds, and as it was altogether when
the pointer fields of the record point to cells of their own (`Separate`).
An earlier field with the same key is the entry of no key at all, and in the
same sense no scan of any row changes it. -/
theorem C21_duplicate_key_last_field_wins (t : StructType) (fieldTag : String) (n : Nat)
    (f : StructField)
    (hf : t.fields.get? n = some f) (hp : participates t fieldTag f = true)
    (hlast : ∀ j f2, n < j → t.fields.get? j = some f2 → participates t fieldTag f2 = true →
      splitFirst (f2.TagGet fieldTag) ≠ splitFirst (f.TagGet fieldTag)) :
    (newStructSpec t fieldTag).m.get (splitFirst (f.TagGet fieldTag)) = some n ∧
    (∀ (row : List graphRow) (i : Nat) (fields : List Value) (alloc : Nat) (c : graphRow),
      n < fields.length → row.get? i = some c → f.exported = true → c.wellFormed = true →
      kindAgrees f.Typ.target c = true →
      ∃ v, boundValue f.Typ.target c = some v ∧
        (scanColumn (newStructSpec t fieldTag) t row (splitFirst (f.TagGet fieldTag)) i fields alloc).outcome = none ∧
        ((scanColumn (newStructSpec t fieldTag) t row (splitFirst (f.TagGet fieldTag)) i fields alloc).fields.get? n).map Value.deref =
          some v) ∧
    (∀ (row : List graphRow) (i : Nat) (fields : List Value) (alloc j : Nat) (x : Value),
      j ≠ n → fields.get? j = some x →
      ∃ y, (scanColumn (newStructSpec t fieldTag) t row (splitFirst (f.TagGet fieldTag)) i fields alloc).fields.get? j = some y ∧
        x.samePointer y = true ∧ (Separate fields alloc → y = x)) ∧
    (∀ m f1, t.fields.get? m = some f1 → participates t fieldTag f1 = true →
      splitFirst (f1.TagGet fieldTag) = (splitFirst (f.TagGet fieldTag)) → m ≠ n →
      m < n ∧
      (∀ key, (newStructSpec t fieldTag).m.get key ≠ some m) ∧
      ∀ (g : GraphResult) (fields : List Value) (alloc : Nat) (row : List graphRow) (x : Value),
        fields.get? m = some x →
        ∃ y, (scanStruct g (newStructSpec t fieldTag) t fields alloc row).2.1.get? m = some y ∧
          x.samePointer y = true ∧ (Separate fields alloc → y = x)) := by
  have hn := newStructSpec_last t fieldTag n f hf hp hlast
  refine ⟨hn, ?_, ?_, ?_⟩
  · intro row i fields alloc c hlen hc hexp hwf hag
    obtain ⟨fv, v, hfv, hb, heq⟩ :=
      scanColumn_agree_go (newStructSpec t fieldTag) t row (splitFirst (f.TagGet fieldTag)) i
        fields alloc n f c hn hf hlen hc hexp hwf hag
    rw [heq]
    refine ⟨v, hb, rfl, ?_⟩
    exact storeField_get_self f n _ v _ (by simp [List.getElem?_set, hlen])
      (boundValue_deref _ _ _ hb)
  · intro row i fields alloc j x hj hx
    have hkey : (newStructSpec t fieldTag).m.get (splitFirst (f.TagGet fieldTag)) ≠ some j := by
      rw [hn]
      exact fun e => hj (Option.some.inj e).symm
    obtain ⟨y, hy, hxy⟩ := scanColumn_unbound (newStructSpec t fieldTag) t row
      (splitFirst (f.TagGet fieldTag)) i fields alloc j x hkey hx
    refine ⟨y, hy, hxy, ?_⟩
    intro hsep
    have := scanColumn_frame (newStructSpec t fieldTag) t row (splitFirst (f.TagGet fieldTag)) i
      fields alloc j hsep hkey
    rw [hy, hx] at this
    exact Option.some.inj this
  · intro m f1 hf1 hp1 hkey hne
    have hnone := newStructSpec_shadowed t fieldTag n m f f1 hn hf1 hkey hne
    refine ⟨?_, hnone, ?_⟩
    · rcases Nat.lt_or_gt_of_ne hne with h | h
      · exact h
      · exact absurd hkey (hlast m f1 h hf1 hp1)
    · intro g fields alloc row x hx
      obtain ⟨y, hy, hxy⟩ := scanStructLoop_unbound (newStructSpec t fieldTag) t row g.field 0
        fields alloc m x (fun key _ => hnone key) hx
      refine ⟨y, hy, hxy, ?_⟩
      intro hsep
      have := scanStructLoop_frame (newStructSpec t fieldTag) t row g.field 0 fields alloc m
        hsep (fun key _ => hnone key)
      rw [hy, hx] at this
      exact Option.some.inj this

/-- C21, witness: in `Dup` the fields `First` and `Last` both have the key
`n`; `Last`, at position 2, is the last one. -/
theorem C21_witness :
    (newStructSpec tDup "redis").m.get "n" = some 2 ∧
    (∀ (row : List graphRow) (i : Nat) (fields : List Value) (alloc : Nat) (c : graphRow),
      2 < fields.length → row.get? i = some c → (taggedField "Last" "n,omitempty" (.int 64)).exported = true → c.wellFormed = true →
      kindAgrees (taggedField "Last" "n,omitempty" (.int 64)).Typ.target c = true →
      ∃ v, boundValue (taggedField "Last" "n,omitempty" (.int 64)).Typ.target c = some v ∧
        (scanColumn (newStructSpec tDup "redis") tDup row "n" i fields alloc).outcome = none ∧
        ((scanColumn (newStructSpec tDup "redis") tDup row "n" i fields alloc).fields.get? 2).map Value.deref =
          some v) ∧
    (∀ (row : List graphRow) (i : Nat) (fields : List Value) (alloc j : Nat) (x : Value),
      j ≠ 2 → fields.get? j = some x →
      ∃ y, (scanColumn (newStructSpec tDup "redis") tDup row "n" i fields alloc).fields.get? j = some y ∧
        x.samePointer y = true ∧ (Separate fields alloc → y = x)) ∧
    (∀ m f1, tDup.fields.get? m = some f1 → participates tDup "redis" f1 = true →
      splitFirst (f1.TagGet "redis") = "n" → m ≠ 2 →
      m < 2 ∧
      (∀ key, (newStructSpec tDup "redis").m.get key ≠ some m) ∧
      ∀ (g : GraphResult) (fields : List Value) (alloc : Nat) (row : List graphRow) (x : Value),
        fields.get? m = some x →
        ∃ y, (scanStruct g (newStructSpec tDup "redis") tDup fields alloc row).2.1.get? m = some y ∧
          x.samePointer y = true ∧ (Separate fields alloc → y = x)) :=
  C21_duplicate_key_last_field_wins tDup "redis" 2 (taggedField "Last" "n,omitempty" (.int 64))
    (by decide) (by decide)
    (fun j f2 hj hf2 _ => by
      have : tDup.fields.get? j = none := by
        rw [List.get?_eq_none]
        exact hj
      rw [this] at hf2
      cases hf2)

/-- The record `Dup` scanned with the column `n`: the cell goes to `Last`, and
`First`, which has the same key, keeps its value. -/
theorem scanStruct_duplicate_example :
    (newStructSpec tDup "redis").m = [("n", 2), ("m", 1), ("n", 0)] ∧
    scanStruct (resN [[cellInt 5]]) (newStructSpec tDup "redis") tDup
      [.int 1, .str "x", .int 2] 0 [cellInt 5] = (.ok, [.int 1, .str "x", .int 5], 0) := by
  decide

/-! ## C22 -/

theorem boundRows_length (g : GraphResult) (spec : graphStructSpec) (t : StructType)
    (elemIsPtr : Bool) :
    ∀ (rows : List (List graphRow)) (alloc : Nat),
      (boundRows g spec t elemIsPtr rows alloc).length = rows.length := by
  intro rows
  induction rows with
  | nil => intro alloc; rfl
  | cons row rest ih => intro alloc; simp only [boundRows, List.length_cons, ih]

/-- The element for row `j` is the row scanned into the zero struct, the new
struct standing at an address that was unused before the call. -/
theorem boundRows_get (g : GraphResult) (spec : graphStructSpec) (t : StructType)
    (elemIsPtr : Bool) :
    ∀ (rows : List (List graphRow)) (alloc j : Nat) (row : List graphRow),
      rows.get? j = some row →
      ∃ a, alloc ≤ a ∧ (boundRows g spec t elemIsPtr rows alloc).get? j =
        some (if elemIsPtr then
          Item.ptrTo a (scanStruct g spec t (zeroRecord t) (a + 1) row).2.1
        else
          Item.val (scanStruct g spec t (zeroRecord t) (a + 1) row).2.1) := by
  intro rows
  induction rows with
  | nil => intro alloc j row hj; simp at hj
  | cons r rest ih =>
    intro alloc j row hj
    cases j with
    | zero =>
      simp only [List.get?_cons_zero, Option.some.injEq] at hj
      subst hj
      exact ⟨alloc, Nat.le_refl _, rfl⟩
    | succ k =>
      obtain ⟨a, ha, hget⟩ :=
        ih (scanStruct g spec t (zeroRecord t) (alloc + 1) r).2.2 k row (by simpa using hj)
      have hle := scanStruct_alloc_le g spec t (zeroRecord t) (alloc + 1) r
      exact ⟨a, by omega, by simpa [boundRows] using hget⟩

/-- The new structs of two rows stand at different addresses, in row order. -/
theorem boundRows_get_lt (g : GraphResult) (spec : graphStructSpec) (t : StructType)
    (elemIsPtr : Bool) :
    ∀ (rows : List (List graphRow)) (alloc j1 j2 : Nat) (row1 row2 : List graphRow),
      j1 < j2 → rows.get? j1 = some row1 → rows.get? j2 = some row2 →
      ∃ a1 a2, alloc ≤ a1 ∧ a1 < a2 ∧
        (boundRows g spec t elemIsPtr rows alloc).get? j1 =
          some (if elemIsPtr then
            Item.ptrTo a1 (scanStruct g spec t (zeroRecord t) (a1 + 1) row1).2.1
          else
            Item.val (scanStruct g spec t (zeroRecord t) (a1 + 1) row1).2.1) ∧
        (boundRows g spec t elemIsPtr rows alloc).get? j2 =
          some (if elemIsPtr then
            Item.ptrTo a2 (scanStruct g spec t (zeroRecord t) (a2 + 1) row2).2.1
          else
            Item.val (scanStruct g spec t (zeroRecord t) (a2 + 1) row2).2.1) := by
  intro rows
  induction rows with
  | nil => intro alloc j1 j2 row1 row2 _ h1; simp at h1
  | cons r rest ih =>
    intro alloc j1 j2 row1 row2 hlt h1 h2
    have hle := scanStruct_alloc_le g spec t (zeroRecord t) (alloc + 1) r
    cases j2 with
    | zero => omega
    | succ k2 =>
      cases j1 with
      | zero =>
        simp only [List.get?_cons_zero, Option.some.injEq] at h1
        subst h1
        obtain ⟨a2, ha2, hget2⟩ := boundRows_get g spec t elemIsPtr rest
          (scanStruct g spec t (zeroRecord t) (alloc + 1) r).2.2 k2 row2 (by simpa using h2)
        exact ⟨alloc, a2, Nat.le_refl _, by omega, rfl, by simpa [boundRows] using hget2⟩
      | succ k1 =>
        obtain ⟨a1, a2, ha1, ha12, hg1, hg2⟩ :=
          ih (scanStruct g spec t (zeroRecord t) (alloc + 1) r).2.2 k1 k2 row1 row2 (by omega)
            (by simpa using h1) (by simpa using h2)
        exact ⟨a1, a2, by omega, ha12, by simpa [boundRows] using hg1,
          by simpa [boundRows] using hg2⟩

/-- When every row binds without fault, the row loop returns `nil` and leaves
the elements it was given followed by `boundRows`. -/
theorem scanStructSliceLoop_boundRows (g : GraphResult) (spec : graphStructSpec)
    (t : StructType) (elemIsPtr : Bool) :
    ∀ (rows : List (List graphRow)) (items : List Item) (alloc : Nat),
      (∀ row ∈ rows, ∀ a, (scanStruct g spec t (zeroRecord t) a row).1 = .ok) →
      (scanStructSliceLoop g spec t elemIsPtr rows items alloc).1 = .ok ∧
      (scanStructSliceLoop g spec t elemIsPtr rows items alloc).2.1 =
        items ++ boundRows g spec t elemIsPtr rows alloc := by
  intro rows
  induction rows with
  | nil => intro items alloc _; simp [scanStructSliceLoop, boundRows]
  | cons row rest ih =>
    intro items alloc hok
    rw [scanStructSliceLoop_cons_ok _ _ _ _ _ _ _ _ (hok row (List.mem_cons_self _ _) (alloc + 1))]
    obtain ⟨h1, h2⟩ := ih
      (items ++ [newItem elemIsPtr alloc (scanStruct g spec t (zeroRecord t) (alloc + 1) row).2.1])
      (scanStruct g spec t (zeroRecord t) (alloc + 1) row).2.2
      (fun r hr => hok r (List.mem_cons_of_mem _ hr))
    exact ⟨h1, by rw [h2]; simp [boundRows, newItem]⟩

/-- C22: for a result set with data whose rows all bind without fault and a
destination slice (of structs or of pointers to structs) that holds `items`,
`RowsScan` returns no fault and leaves in the destination `items` followed by
`boundRows`: one element per row, in row order.  The element of a row is the
struct that results from scanning the row into a new zero struct, for a slice
of structs, and a pointer to that struct, for a slice of pointers; the struct
stands at an address unused before the call, and the structs of different
rows at different addresses.  The elements the destination held are in their
places, unchanged. -/
theorem C22_RowsScan_appends_to_destination (g : GraphResult) (cache : Cache) (alloc : Nat)
    (elem : ElemType) (items : List Item) (t : StructType)
    (hdata : g.noData = false) (hcache : CacheOK cache) (helem : elem.structOf = some t)
    (hok : ∀ row ∈ g.rows,
      (scanStruct g (newStructSpec t "redis") t (zeroRecord t) 0 row).1 = .ok) :
    (g.RowsScan cache alloc (.ptr (.slice elem items))).outcome = .ok ∧
    (g.RowsScan cache alloc (.ptr (.slice elem items))).dest =
      .ptr (.slice elem
        (items ++ boundRows g (newStructSpec t "redis") t elem.isPtr g.rows alloc)) ∧
    (boundRows g (newStructSpec t "redis") t elem.isPtr g.rows alloc).length = g.rows.length ∧
    0 < g.rows.length ∧
    (∀ j row, g.rows.get? j = some row → ∃ a, alloc ≤ a ∧
      (boundRows g (newStructSpec t "redis") t elem.isPtr g.rows alloc).get? j =
        some (if elem.isPtr then
          Item.ptrTo a (scanStruct g (newStructSpec t "redis") t (zeroRecord t) (a + 1) row).2.1
        else
          Item.val (scanStruct g (newStructSpec t "redis") t (zeroRecord t) (a + 1) row).2.1)) ∧
    (∀ j1 j2 row1 row2, j1 < j2 → g.rows.get? j1 = some row1 → g.rows.get? j2 = some row2 →
      ∃ a1 a2, alloc ≤ a1 ∧ a1 < a2 ∧
        (boundRows g (newStructSpec t "redis") t elem.isPtr g.rows alloc).get? j1 =
          some (if elem.isPtr then
            Item.ptrTo a1 (scanStruct g (newStructSpec t "redis") t
                (zeroRecord t) (a1 + 1) row1).2.1
          else
            Item.val (scanStruct g (newStructSpec t "redis") t (zeroRecord t) (a1 + 1) row1).2.1) ∧
        (boundRows g (newStructSpec t "redis") t elem.isPtr g.rows alloc).get? j2 =
          some (if elem.isPtr then
            Item.ptrTo a2 (scanStruct g (newStructSpec t "redis") t
                (zeroRecord t) (a2 + 1) row2).2.1
          else
            Item.val (scanStruct g (newStructSpec t "redis") t (zeroRecord t) (a2 + 1) row2).2.1)) ∧
    (∀ j, j < items.length →
      (items ++ boundRows g (newStructSpec t "redis") t elem.isPtr g.rows alloc).get? j =
        items.get? j) := by
  obtain ⟨h1, h2⟩ := scanStructSliceLoop_boundRows g (newStructSpec t "redis") t elem.isPtr
    g.rows items alloc
    (fun row hrow a => by rw [scanStruct_outcome_alloc _ _ _ _ a 0]; exact hok row hrow)
  refine ⟨?_, ?_, boundRows_length _ _ _ _ _ _, ?_, boundRows_get _ _ _ _ _ _,
    boundRows_get_lt _ _ _ _ _ _, ?_⟩
  · rw [RowsScan_slice g cache alloc elem items t hdata hcache helem, h1]
  · rw [RowsScan_slice g cache alloc elem items t hdata hcache helem, h2]
  · cases hr : g.rows with
    | nil => simp [GraphResult.noData, hr] at hdata
    | cons r rs => simp
  · intro j hj
    simp only [List.get?_eq_getElem?]
    exact List.getElem?_append_left hj

/-- C22, witness: two rows scanned into a slice of pointers to `Count` that
already holds one element. -/
theorem C22_witness :
    ((resN [[cellInt 1], [cellInt 2]]).RowsScan [] 3
        (.ptr (.slice (.ptrStruct tCount) [.ptrTo 0 [.int 9]]))).outcome = .ok ∧
    ((resN [[cellInt 1], [cellInt 2]]).RowsScan [] 3
        (.ptr (.slice (.ptrStruct tCount) [.ptrTo 0 [.int 9]]))).dest =
      .ptr (.slice (.ptrStruct tCount)
        ([.ptrTo 0 [.int 9]] ++ boundRows (resN [[cellInt 1], [cellInt 2]])
          (newStructSpec tCount "redis") tCount (ElemType.ptrStruct tCount).isPtr
          (resN [[cellInt 1], [cellInt 2]]).rows 3)) ∧
    (boundRows (resN [[cellInt 1], [cellInt 2]]) (newStructSpec tCount "redis") tCount
      (ElemType.ptrStruct tCount).isPtr (resN [[cellInt 1], [cellInt 2]]).rows 3).length =
        (resN [[cellInt 1], [cellInt 2]]).rows.length ∧
    0 < (resN [[cellInt 1], [cellInt 2]]).rows.length ∧
    (∀ j row, (resN [[cellInt 1], [cellInt 2]]).rows.get? j = some row → ∃ a, 3 ≤ a ∧
      (boundRows (resN [[cellInt 1], [cellInt 2]]) (newStructSpec tCount "redis") tCount
        (ElemType.ptrStruct tCount).isPtr (resN [[cellInt 1], [cellInt 2]]).rows 3).get? j =
        some (if (ElemType.ptrStruct tCount).isPtr then
          Item.ptrTo a (scanStruct (resN [[cellInt 1], [cellInt 2]]) (newStructSpec tCount "redis") tCount
              (zeroRecord tCount) (a + 1) row).2.1
        else
          Item.val (scanStruct (resN [[cellInt 1], [cellInt 2]]) (newStructSpec tCount "redis") tCount
              (zeroRecord tCount) (a + 1) row).2.1)) ∧
    (∀ j1 j2 row1 row2, j1 < j2 →
      (resN [[cellInt 1], [cellInt 2]]).rows.get? j1 = some row1 →
      (resN [[cellInt 1], [cellInt 2]]).rows.get? j2 = some row2 →
      ∃ a1 a2, 3 ≤ a1 ∧ a1 < a2 ∧
        (boundRows (resN [[cellInt 1], [cellInt 2]]) (newStructSpec tCount "redis") tCount
          (ElemType.ptrStruct tCount).isPtr (resN [[cellInt 1], [cellInt 2]]).rows 3).get? j1 =
          some (if (ElemType.ptrStruct tCount).isPtr then
            Item.ptrTo a1 (scanStruct (resN [[cellInt 1], [cellInt 2]]) (newStructSpec tCount "redis") tCount
                (zeroRecord tCount) (a1 + 1) row1).2.1
          else
            Item.val (scanStruct (resN [[cellInt 1], [cellInt 2]]) (newStructSpec tCount "redis") tCount
                (zeroRecord tCount) (a1 + 1) row1).2.1) ∧
        (boundRows (resN [[cellInt 1], [cellInt 2]]) (newStructSpec tCount "redis") tCount
          (ElemType.ptrStruct tCount).isPtr (resN [[cellInt 1], [cellInt 2]]).rows 3).get? j2 =
          some (if (ElemType.ptrStruct tCount).isPtr then
            Item.ptrTo a2 (scanStruct (resN [[cellInt 1], [cellInt 2]]) (newStructSpec tCount "redis") tCount
                (zeroRecord tCount) (a2 + 1) row2).2.1
          else
            Item.val (scanStruct (resN [[cellInt 1], [cellInt 2]]) (newStructSpec tCount "redis") tCount
                (zeroRecord tCount) (a2 + 1) row2).2.1)) ∧
    (∀ j, j < [Item.ptrTo 0 [.int 9]].length →
      ([Item.ptrTo 0 [.int 9]] ++ boundRows (resN [[cellInt 1], [cellInt 2]])
        (newStructSpec tCount "redis") tCount (ElemType.ptrStruct tCount).isPtr
        (resN [[cellInt 1], [cellInt 2]]).rows 3).get? j = [Item.ptrTo 0 [.int 9]].get? j) :=
  C22_RowsScan_appends_to_destination (resN [[cellInt 1], [cellInt 2]]) [] 3
    (.ptrStruct tCount) [.ptrTo 0 [.int 9]] tCount (by decide) CacheOK_nil rfl (by decide)

/-- The destination of the witness after the call: the element it held, then
the two rows, at the addresses 3 and 4. -/
theorem RowsScan_append_example :
    ((resN [[cellInt 1], [cellInt 2]]).RowsScan [] 3
      (.ptr (.slice (.ptrStruct tCount) [.ptrTo 0 [.int 9]]))).dest =
      .ptr (.slice (.ptrStruct tCount) [.ptrTo 0 [.int 9], .ptrTo 3 [.int 1], .ptrTo 4 [.int 2]]) ∧
    ((resN [[cellInt 1], [cellInt 2]]).RowsScan [] 3
      (.ptr (.slice (.ptrStruct tCount) [.ptrTo 0 [.int 9]]))).outcome = .ok := by
  decide

/-! ## C23 -/

/-- The conversion `int(x)` keeps the value modulo `2 ^ 64`. -/
theorem toInt_emod (v : Int) : toInt v % 2 ^ 64 = v % 2 ^ 64 := by
  unfold toInt intSize
  omega

/-- What `SetUint(uint64(int(v)))` leaves in a field of `w ≤ 64` bits is
`v mod 2 ^ w`. -/
theorem wrapUnsigned_uint64_toInt (w : Nat) (v : Int) (hw : w ≤ 64) :
    wrapUnsigned w (wrapUnsigned 64 (toInt v)) = (v % 2 ^ w).toNat := by
  unfold wrapUnsigned
  have hpos : (0 : Int) ≤ toInt v % 2 ^ 64 := Int.emod_nonneg _ (by norm_num)
  rw [Int.toNat_of_nonneg hpos, toInt_emod]
  have hdvd : (2 : Int) ^ w ∣ 2 ^ 64 := pow_dvd_pow 2 hw
  rw [Int.emod_emod_of_dvd v hdvd]

/-- Without the conversion `int(x)` the result is the same. -/
theorem wrapUnsigned_uint64 (w : Nat) (v : Int) (hw : w ≤ 64) :
    wrapUnsigned w (wrapUnsigned 64 v) = (v % 2 ^ w).toNat := by
  unfold wrapUnsigned
  have hpos : (0 : Int) ≤ v % 2 ^ 64 := Int.emod_nonneg _ (by norm_num)
  rw [Int.toNat_of_nonneg hpos]
  have hdvd : (2 : Int) ^ w ∣ 2 ^ 64 := pow_dvd_pow 2 hw
  rw [Int.emod_emod_of_dvd v hdvd]

theorem emod_two_pow_lt (w : Nat) (v : Int) : (v % 2 ^ w).toNat < 2 ^ w := by
  have h1 : v % 2 ^ w < 2 ^ w := Int.emod_lt_of_pos _ (by positivity)
  have h0 : (0 : Int) ≤ v % 2 ^ w := Int.emod_nonneg _ (by positivity)
  have : ((v % 2 ^ w).toNat : Int) < ((2 ^ w : Nat) : Int) := by
    rw [Int.toNat_of_nonneg h0]; push_cast; exact h1
  exact_mod_cast this

/-- For a negative `v` that is no multiple of `2 ^ w`, `v mod 2 ^ w` is
`2 ^ w - (|v| mod 2 ^ w)`. -/
theorem emod_two_pow_neg (w : Nat) (v : Int) (hneg : v < 0) (hr : v.natAbs % 2 ^ w ≠ 0) :
    (v % 2 ^ w).toNat = 2 ^ w - v.natAbs % 2 ^ w := by
  have hlt : v.natAbs % 2 ^ w < 2 ^ w := Nat.mod_lt _ (by positivity)
  have hv : v = -((v.natAbs : Nat) : Int) := by omega
  have hdiv := Nat.div_add_mod v.natAbs (2 ^ w)
  have hsplit : v = ((2 ^ w - v.natAbs % 2 ^ w : Nat) : Int) +
      2 ^ w * (-((v.natAbs / 2 ^ w : Nat) : Int) - 1) := by
    rw [Nat.cast_sub (Nat.le_of_lt hlt)]
    have hcast : ((v.natAbs : Nat) : Int) =
        2 ^ w * ((v.natAbs / 2 ^ w : Nat) : Int) + ((v.natAbs % 2 ^ w : Nat) : Int) := by
      exact_mod_cast hdiv.symm
    push_cast
    push_cast at hcast
    have habs : |v| = -v := abs_of_neg hneg
    rw [habs] at hcast ⊢
    linarith
  have hmod : v % 2 ^ w = ((2 ^ w - v.natAbs % 2 ^ w : Nat) : Int) := by
    conv_lhs => rw [hsplit]
    rw [Int.add_mul_emod_self_left]
    apply Int.emod_eq_of_lt (Int.natCast_nonneg _)
    have : 2 ^ w - v.natAbs % 2 ^ w < 2 ^ w := by omega
    exact_mod_cast this
  rw [hmod, Int.toNat_natCast]

/-- C23: a column bound to a field of an unsigned type of `w` bits (directly
or behind a pointer), whose cell is a Basic scalar tagged Integer with the
stored value `v`.  The iteration of `scanStruct` for that column returns no
error when the field is settable: the loop goes on and the field holds
`v mod 2 ^ w`; every other field is as it was, up to what the cell of a
pointer holds, and altogether when the pointer fields of the record point to
cells of their own (`Separate`).  After a scan of the whole row into such a
record that returns no fault the field holds `v mod 2 ^ w` as well, when no
later column is bound to it.  That number is `uint64(int(v))`
cut to `w` bits, it is below `2 ^ w`, and for a negative `v` that is no
multiple of `2 ^ w` it is `2 ^ w - (|v| mod 2 ^ w)`. -/
theorem C23_unsigned_field_wraps (spec : graphStructSpec) (t : StructType) (key : String)
    (idx : Nat) (f : StructField) (w : Nat)
    (hk : spec.m.get key = some idx) (hf : t.fields.get? idx = some f)
    (hty : f.Typ.target = .uint w) (hw : w ≤ 64) :
    (∀ (row : List graphRow) (i : Nat) (fields : List Value) (alloc : Nat) (v : Int) (s : String)
        (nd : Option GraphNode) (ed : Option GraphEdge),
      f.exported = true → idx < fields.length →
      row.get? i = some ⟨graphResultBasic, some ⟨graphInteger, v, s⟩, nd, ed⟩ →
      (scanColumn spec t row key i fields alloc).outcome = none ∧
      ((scanColumn spec t row key i fields alloc).fields.get? idx).map Value.deref =
        some (.uint (v % 2 ^ w).toNat) ∧
      (∀ j x, j ≠ idx → fields.get? j = some x →
        ∃ y, (scanColumn spec t row key i fields alloc).fields.get? j = some y ∧
          x.samePointer y = true ∧ (Separate fields alloc → y = x))) ∧
    (∀ (g : GraphResult) (fields : List Value) (alloc : Nat) (row : List graphRow) (n : Nat)
        (v : Int) (s : String) (nd : Option GraphNode) (ed : Option GraphEdge),
      g.field.get? n = some key →
      row.get? n = some ⟨graphResultBasic, some ⟨graphInteger, v, s⟩, nd, ed⟩ →
      (∀ m key2, n < m → g.field.get? m = some key2 → spec.m.get key2 ≠ some idx) →
      (∀ key2 ∈ g.field, spec.m.get key2 ≠ none) →
      (scanStruct g spec t fields alloc row).1 = .ok → Separate fields alloc →
      ((scanStruct g spec t fields alloc row).2.1.get? idx).map Value.deref =
        some (.uint (v % 2 ^ w).toNat)) ∧
    (∀ v : Int, (v % 2 ^ w).toNat = wrapUnsigned w (wrapUnsigned 64 (toInt v)) ∧
      (v % 2 ^ w).toNat < 2 ^ w ∧
      (v < 0 → v.natAbs % 2 ^ w ≠ 0 → (v % 2 ^ w).toNat = 2 ^ w - v.natAbs % 2 ^ w)) := by
  have hbound : ∀ (v : Int) (s : String) (nd : Option GraphNode) (ed : Option GraphEdge),
      boundValue f.Typ.target ⟨graphResultBasic, some ⟨graphInteger, v, s⟩, nd, ed⟩ =
        some (.uint (v % 2 ^ w).toNat) := by
    intro v s nd ed
    rw [hty]
    simp only [boundValue, Option.map_some', GraphData.Int, if_true,
      wrapUnsigned_uint64_toInt w v hw]
  refine ⟨?_, ?_, ?_⟩
  · intro row i fields alloc v s nd ed hexp hidx hc
    obtain ⟨fv, v1, hfv, hb, heq⟩ :=
      scanColumn_agree_go spec t row key i fields alloc idx f _ hk hf hidx hc hexp
        (by simp [graphRow.wellFormed, graphResultBasic, graphResultNode, graphResultEdge])
        (by rw [hty]; simp [kindAgrees])
    refine ⟨by rw [heq], ?_, ?_⟩
    · rw [heq, ← hbound v s nd ed, hb]
      exact storeField_get_self f idx _ v1 _ (by simp [List.getElem?_set, hidx])
        (boundValue_deref _ _ _ hb)
    · intro j x hj hx
      have hkey : spec.m.get key ≠ some j := by
        rw [hk]
        exact fun e => hj (Option.some.inj e).symm
      obtain ⟨y, hy, hxy⟩ := scanColumn_unbound spec t row key i fields alloc j x hkey hx
      refine ⟨y, hy, hxy, ?_⟩
      intro hsep
      have := scanColumn_frame spec t row key i fields alloc j hsep hkey
      rw [hy, hx] at this
      exact Option.some.inj this
  · intro g fields alloc row n v s nd ed hn hc hlast hall hok hsep
    rcases hs : scanStruct g spec t fields alloc row with ⟨o, fields2, alloc2⟩
    rw [hs] at hok
    simp only at hok
    subst hok
    unfold scanStruct at hs
    have hpre := scanStructLoop_ok_prefix spec t row g.field 0 fields alloc fields2 alloc2 hs hall
    obtain ⟨v2, hb, hval⟩ := scanPrefix_value spec t row g.field 0 fields fields2 alloc alloc2
      hpre hsep n key idx f _ hn hk hf (by simpa using hc) hlast
    rw [hbound] at hb
    simp only
    rw [hval, hb]
  · intro v
    exact ⟨(wrapUnsigned_uint64_toInt w v hw).symm, emod_two_pow_lt w v, emod_two_pow_neg w v⟩

/-- C23, witness: the field `N uint64` of `U64`, bound to the column `n`. -/
theorem C23_witness :
    (∀ (row : List graphRow) (i : Nat) (fields : List Value) (alloc : Nat) (v : Int) (s : String)
        (nd : Option GraphNode) (ed : Option GraphEdge),
      (taggedField "N" "n" (.uint 64)).exported = true → 0 < fields.length →
      row.get? i = some ⟨graphResultBasic, some ⟨graphInteger, v, s⟩, nd, ed⟩ →
      (scanColumn (newStructSpec tU64 "redis") tU64 row "n" i fields alloc).outcome = none ∧
      ((scanColumn (newStructSpec tU64 "redis") tU64 row "n" i fields alloc).fields.get? 0).map
        Value.deref = some (.uint (v % 2 ^ 64).toNat) ∧
      (∀ j x, j ≠ 0 → fields.get? j = some x →
        ∃ y, (scanColumn (newStructSpec tU64 "redis") tU64 row "n" i fields alloc).fields.get? j =
            some y ∧
          x.samePointer y = true ∧ (Separate fields alloc → y = x))) ∧
    (∀ (g : GraphResult) (fields : List Value) (alloc : Nat) (row : List graphRow) (n : Nat)
        (v : Int) (s : String) (nd : Option GraphNode) (ed : Option GraphEdge),
      g.field.get? n = some "n" →
      row.get? n = some ⟨graphResultBasic, some ⟨graphInteger, v, s⟩, nd, ed⟩ →
      (∀ m key2, n < m → g.field.get? m = some key2 →
        (newStructSpec tU64 "redis").m.get key2 ≠ some 0) →
      (∀ key2 ∈ g.field, (newStructSpec tU64 "redis").m.get key2 ≠ none) →
      (scanStruct g (newStructSpec tU64 "redis") tU64 fields alloc row).1 = .ok →
      Separate fields alloc →
      ((scanStruct g (newStructSpec tU64 "redis") tU64 fields alloc row).2.1.get? 0).map
        Value.deref = some (.uint (v % 2 ^ 64).toNat)) ∧
    (∀ v : Int, (v % 2 ^ 64).toNat = wrapUnsigned 64 (wrapUnsigned 64 (toInt v)) ∧
      (v % 2 ^ 64).toNat < 2 ^ 64 ∧
      (v < 0 → v.natAbs % 2 ^ 64 ≠ 0 → (v % 2 ^ 64).toNat = 2 ^ 64 - v.natAbs % 2 ^ 64)) :=
  C23_unsigned_field_wraps (newStructSpec tU64 "redis") tU64 "n" 0
    (taggedField "N" "n" (.uint 64)) 64 (by decide) (by decide) (by decide) (by decide)

/-- The value -1 scanned into a `uint64` field leaves `2 ^ 64 - 1`; the row
`(-1, 65537)` scanned into a `uint8` field and a nil `*uint16` field leaves
255 and a new pointee holding 1; 300 scanned into the `uint8` field
leaves 44. -/
theorem scanStruct_unsigned_example :
    scanStruct (resN [[cellInt (-1)]]) (newStructSpec tU64 "redis") tU64 (zeroRecord tU64) 0
        [cellInt (-1)] = (.ok, [.uint (2 ^ 64 - 1)], 0) ∧
    scanStruct ⟨false, [], ["n", "p"], [[cellInt (-1), cellInt 65537]], none⟩
        (newStructSpec tU8 "redis") tU8 (zeroRecord tU8) 0 [cellInt (-1), cellInt 65537] =
      (.ok, [.uint 255, .ptrTo 0 (.uint 1)], 1) ∧
    scanStruct (resN [[cellInt 300]]) (newStructSpec tU8 "redis") tU8 (zeroRecord tU8) 0
        [cellInt 300] = (.ok, [.uint 44, .nilPtr], 0) := by
  decide

end Graph
